import Mathlib

/-!
# Verification of the pickleball team-assignment core

Shallow embedding of the team-assignment and queue-maintenance engine
(`src/lib/algorithm.ts` of the repository) together with proofs about the
claims of the specification.

Modelling conventions:

* JavaScript numbers are modelled as real numbers (`ℝ`); integer counters
  (`gamesPlayed`, `restRounds`) are natural numbers cast into `ℝ` where the
  code does arithmetic on them.
* A JS `Record<string, number>` read with `x[k] || 0` and written with
  `x[k] = (x[k] || 0) + 1` is modelled as a total function `String → Nat`
  whose default value is `0`.
* `Math.random()` calls are modelled by an explicit `Rng` parameter: each
  randomized comparator sort becomes an arbitrary function producing some
  permutation of its input (exactly what ECMAScript guarantees for a sort
  with an inconsistent comparator), and each random jitter draw becomes an
  explicit real-valued argument.
* `-Infinity`-seeded maximum searches are modelled with an `Option`
  accumulator: every real score exceeds `-Infinity`, so the first candidate
  always replaces the seed.
-/

namespace Pickleball

/-- A participant (`Participant` in `src/lib/types.ts`).  The `Date` fields
(`joinedAt`, `leftAt`) and `leftReason` play no role in the algorithm and are
omitted. -/
structure Participant where
  id : String
  name : String
  gamesPlayed : Nat
  restRounds : Nat
  teammates : String → Nat
  opponents : String → Nat
  status : String
  hasLeft : Bool

/-- A team of two player ids (`Team` in `src/lib/types.ts`). -/
structure Team where
  player1 : String
  player2 : String
deriving DecidableEq

/-- A 2v2 match (`GameMatch` in `src/lib/types.ts`; the optional `courtId`
is never read by the algorithm). -/
structure GameMatch where
  team1 : Team
  team2 : Team
deriving DecidableEq

/-- A court (`Court` in `src/lib/types.ts`).  `startTime : Option Unit`
records only whether a `new Date()` start time was attached. -/
structure Court where
  id : Nat
  name : String
  team1 : Option Team
  team2 : Option Team
  status : String
  startTime : Option Unit := none

/-- A pairing-preference weight (`Weight` in `src/lib/types.ts`);
`createdAt` is omitted. -/
structure Weight where
  id : String
  player1 : String
  player2 : String
  weight : ℝ
  type : String

/-- The `stats` record of a `TeamAssignmentResult`. -/
structure AssignStats where
  fairnessScore : ℝ
  weightEffectiveness : ℝ
  diversityScore : ℝ

/-- The result of `generateOptimalTeams` (`TeamAssignmentResult`). -/
structure TeamAssignmentResult where
  courts : List Court
  queue : List GameMatch
  waiting : List String
  stats : AssignStats

/-- The sources of randomness used by the algorithm: the three
`Math.random()`-tie-broken sorts (modelled as arbitrary reorderings of their
input) and the jitter drawn inside `calculateTeamScore` (modelled as the
`Math.random()` value, a function of the two teams being scored). -/
structure Rng where
  sortMain : List Participant → List Participant
  sortSupp : List Participant → List Participant
  sortGroup : List Participant → List Participant
  rand : Team → Team → ℝ

/-- A `Rng` is valid when each sort returns a permutation of its input —
the only guarantee ECMAScript gives for `Array.prototype.sort` with an
inconsistent (randomized) comparator. -/
def Rng.Valid (rng : Rng) : Prop :=
  (∀ l, (rng.sortMain l).Perm l) ∧ (∀ l, (rng.sortSupp l).Perm l) ∧
    (∀ l, (rng.sortGroup l).Perm l)

/-- The deterministic `Rng` used for concrete executions: sorts keep the
input order (a legal outcome of a randomized comparator) and every jitter
draw returns `1/2` (so the random factor `(r - 0.5) * 0.1` is `0`). -/
noncomputable def rng0 : Rng :=
  { sortMain := fun l => l
    sortSupp := fun l => l
    sortGroup := fun l => l
    rand := fun _ _ => 1/2 }

theorem rng0_valid : rng0.Valid :=
  ⟨fun _ => List.Perm.refl _, fun _ => List.Perm.refl _, fun _ => List.Perm.refl _⟩

/-- The four player ids of a match, in source order
`[team1.player1, team1.player2, team2.player1, team2.player2]`. -/
def matchPlayerIds (m : GameMatch) : List String :=
  [m.team1.player1, m.team1.player2, m.team2.player1, m.team2.player2]

/-! ## Pairing scorer (`calculateTeamScore` and its helpers) -/

/-- `participants.reduce((acc, p) => { acc[p.id] = p; return acc }, {})` —
the lookup table built at the top of `calculateTeamScore`.  A later entry
with the same id overwrites an earlier one. -/
def buildPlayerStats (participants : List Participant) : String → Option Participant :=
  participants.foldl (fun acc p => fun x => if x = p.id then some p else acc x)
    (fun _ => none)

/-- `playerStats[id]?.gamesPlayed || 0`. -/
noncomputable def gamesOf (stats : String → Option Participant) (id : String) : ℝ :=
  match stats id with
  | some p => (p.gamesPlayed : ℝ)
  | none => 0

/-- `calculateFairnessScore`: population standard deviation of the four
involved players' `gamesPlayed`, mapped through `max(0, 10 - stdDev * 2)`. -/
noncomputable def calculateFairnessScore (team1 team2 : Team)
    (stats : String → Option Participant) : ℝ :=
  let players := [team1.player1, team1.player2, team2.player1, team2.player2]
  let gamesPlayed := players.map (gamesOf stats)
  let mean := gamesPlayed.sum / (gamesPlayed.length : ℝ)
  let variance := (gamesPlayed.map (fun g => (g - mean) ^ 2)).sum / (gamesPlayed.length : ℝ)
  let stdDev := Real.sqrt variance
  max 0 (10 - stdDev * 2)

/-- `isTeammates`: the weight pair is exactly the team, in either order. -/
def isTeammates (team : Team) (player1 player2 : String) : Bool :=
  (team.player1 == player1 && team.player2 == player2) ||
    (team.player1 == player2 && team.player2 == player1)

/-- `isOpponents`: the weight pair spans the two teams. -/
def isOpponents (team1 team2 : Team) (player1 player2 : String) : Bool :=
  let team1Players := [team1.player1, team1.player2]
  let team2Players := [team2.player1, team2.player2]
  (team1Players.contains player1 && team2Players.contains player2) ||
    (team1Players.contains player2 && team2Players.contains player1)

/-- `calculateWeightBonus`: teammate-type weights contained in one team add
`weight * 0.5`; opponent-type weights spanning the teams add `weight * 0.3`. -/
noncomputable def calculateWeightBonus (team1 team2 : Team) (weights : List Weight) : ℝ :=
  let teammateBonus := (weights.filter (fun w => w.type == "teammate")).foldl
    (fun b w =>
      if isTeammates team1 w.player1 w.player2 || isTeammates team2 w.player1 w.player2 then
        b + w.weight * 0.5
      else b) 0
  (weights.filter (fun w => w.type == "opponent")).foldl
    (fun b w =>
      if isOpponents team1 team2 w.player1 w.player2 then b + w.weight * 0.3 else b)
    teammateBonus

/-- The prior-teammate count step of `calculateRepetitionPenalty`: only
applied when both players of the team are found in the lookup table, and it
reads the count from the first player's map. -/
noncomputable def teammatePenaltyStep (team : Team)
    (stats : String → Option Participant) (penalty : ℝ) : ℝ :=
  match stats team.player1, stats team.player2 with
  | some p1, some _ => penalty - (p1.teammates team.player2 : ℝ) * 0.5
  | _, _ => penalty

/-- One cross-team step of `calculateRepetitionPenalty`: reads the prior
opponent count from the first (team-1 side) player's map. -/
noncomputable def opponentPenaltyStep (a b : String)
    (stats : String → Option Participant) (penalty : ℝ) : ℝ :=
  match stats a with
  | some p1 => penalty - (p1.opponents b : ℝ) * 0.3
  | none => penalty

/-- `calculateRepetitionPenalty`: prior-teammate counts of both teams with
factor `0.5`, then the four cross-team prior-opponent counts with factor
`0.3`, all subtracted.  The cross loop runs `i ∈ {0,1}`, `j ∈ {2,3}` over
`[t1.p1, t1.p2, t2.p1, t2.p2]`. -/
noncomputable def calculateRepetitionPenalty (team1 team2 : Team)
    (stats : String → Option Participant) : ℝ :=
  let penalty := teammatePenaltyStep team1 stats 0
  let penalty := teammatePenaltyStep team2 stats penalty
  let penalty := opponentPenaltyStep team1.player1 team2.player1 stats penalty
  let penalty := opponentPenaltyStep team1.player1 team2.player2 stats penalty
  let penalty := opponentPenaltyStep team1.player2 team2.player1 stats penalty
  opponentPenaltyStep team1.player2 team2.player2 stats penalty

/-- `calculateTeamScore`.  `r` is the `Math.random()` value drawn for the
random factor, so `randomFactor = (r - 0.5) * 0.1`. -/
noncomputable def calculateTeamScore (team1 team2 : Team) (weights : List Weight)
    (participants : List Participant) (r : ℝ) : ℝ :=
  let playerStats := buildPlayerStats participants
  let fairnessScore := calculateFairnessScore team1 team2 playerStats
  let weightBonus := calculateWeightBonus team1 team2 weights
  let repetitionPenalty := calculateRepetitionPenalty team1 team2 playerStats
  let randomFactor := (r - 0.5) * 0.1
  fairnessScore * 1.0 + weightBonus * 0.8 + repetitionPenalty * 0.6 + randomFactor

/-! ## Team finder (`generateTeamCombinationsForPlayers`, `findBestTeamMatch`) -/

/-- `generateTeamCombinationsForPlayers`: all ordered choices of indices
`i < j`, `k < l` with `{k,l} ∩ {i,j} = ∅`, yielding
`{team1 = (ids[i], ids[j]), team2 = (ids[k], ids[l])}` in source loop
order. -/
def generateTeamCombinationsForPlayers (players : List Participant) : List GameMatch :=
  let playerIds := players.map (·.id)
  let n := playerIds.length
  (List.range n).flatMap fun i =>
    ((List.range n).filter (fun j => i < j)).flatMap fun j =>
      ((List.range n).filter (fun k => !(k == i || k == j))).flatMap fun k =>
        (((List.range n).filter (fun l => k < l && !(l == i || l == j))).map fun l =>
          { team1 := { player1 := playerIds.getD i "", player2 := playerIds.getD j "" }
            team2 := { player1 := playerIds.getD k "", player2 := playerIds.getD l "" } })

/-- The `-Infinity`-seeded strict-improvement maximum search used by both
`findBestTeamMatch` and `findBestGlobalAssignment`: candidates are mapped to
a payload together with a score, and `if (score > bestScore)` always fires
on the first candidate (every real score exceeds `-Infinity`). -/
noncomputable def bpStep {α : Type} {β : Type} (h : α → β × ℝ) :
    Option (β × ℝ) → α → Option (β × ℝ) :=
  fun best a =>
    match best with
    | none => some (h a)
    | some (_, bs) => if bs < (h a).2 then some (h a) else best

noncomputable def bestPairFold {α : Type} {β : Type} (h : α → β × ℝ) (l : List α) :
    Option (β × ℝ) :=
  l.foldl (bpStep h) none

/-- The best-score fold of `findBestTeamMatch`. -/
noncomputable def bestScoreFold (score : GameMatch → ℝ) (l : List GameMatch) :
    Option (GameMatch × ℝ) :=
  bestPairFold (fun c => (c, score c)) l

/-- `findBestTeamMatch`: `null` when fewer than 4 players are supplied,
otherwise the highest-scoring team split among all enumerated
combinations. -/
noncomputable def findBestTeamMatch (players : List Participant) (weights : List Weight)
    (allParticipants : List Participant) (rand : Team → Team → ℝ) : Option GameMatch :=
  if players.length < 4 then none
  else
    (bestScoreFold
      (fun c => calculateTeamScore c.team1 c.team2 weights allParticipants (rand c.team1 c.team2))
      (generateTeamCombinationsForPlayers players)).map (·.1)

/-! ## Queue maintainer (`generateQueueWithSupplement`) -/

/-- `usedPlayers.add(id)` on a JS `Set`, modelled as a duplicate-free list. -/
def insertId (used : List String) (id : String) : List String :=
  if used.contains id then used else id :: used

/-- `selectOptimalQueueGroup`: keep the candidates as-is when there are at
most `groupSize` of them, otherwise take the first `groupSize` of the
randomized priority sort.  (`allParticipants` is accepted and ignored, as in
the source.) -/
def selectOptimalQueueGroup (candidates : List Participant)
    (allParticipants : List Participant) (groupSize : Nat) (rng : Rng) : List Participant :=
  if candidates.length ≤ groupSize then candidates.take groupSize
  else (rng.sortGroup candidates).take groupSize

/-- The `for (i = 0; i < targetQueueSize && …)` loop of
`generateQueueWithSupplement`, with the remaining iteration count as fuel.
The loop guard `queueCandidates.length - usedPlayers.size >= 4` and the
in-loop `availableCandidates.length < 4` break are both modelled. -/
noncomputable def buildQueue (queueCandidates : List Participant) (weights : List Weight)
    (allParticipants : List Participant) (rng : Rng) :
    Nat → List String → List GameMatch
  | 0, _ => []
  | fuel + 1, used =>
    if queueCandidates.length - used.length < 4 then []
    else
      let availableCandidates := queueCandidates.filter (fun p => !used.contains p.id)
      if availableCandidates.length < 4 then []
      else
        let selectedPlayers := selectOptimalQueueGroup availableCandidates allParticipants 4 rng
        if selectedPlayers.length = 4 then
          match findBestTeamMatch selectedPlayers weights allParticipants rng.rand with
          | some bestMatch =>
            bestMatch ::
              buildQueue queueCandidates weights allParticipants rng fuel
                ((matchPlayerIds bestMatch).foldl insertId used)
          | none => buildQueue queueCandidates weights allParticipants rng fuel used
        else buildQueue queueCandidates weights allParticipants rng fuel used

/-- `generateQueueWithSupplement`: aim for 2 queue matches (8 players);
when fewer than 8 players remain, supplement the candidate pool from the
currently playing players (sorted by a randomized comparator, most games
first), then greedily build the queue matches. -/
noncomputable def generateQueueWithSupplement (remainingPlayers playingPlayers : List Participant)
    (courtCount : Nat) (weights : List Weight) (allParticipants : List Participant)
    (rng : Rng) : List GameMatch :=
  let targetQueueSize := 2
  let playersPerMatch := 4
  let totalNeededPlayers := targetQueueSize * playersPerMatch
  let queueCandidates :=
    if remainingPlayers.length < totalNeededPlayers then
      let shortage := totalNeededPlayers - remainingPlayers.length
      remainingPlayers ++ (rng.sortSupp playingPlayers).take shortage
    else remainingPlayers
  buildQueue queueCandidates weights allParticipants rng targetQueueSize []

/-! ## Court assignment optimizer -/

/-- An empty court record as built throughout the optimizer:
`{ id: i + 1, name: 场地 (i+1), team1: null, team2: null, status: 'empty' }`. -/
def emptyCourt (i : Nat) : Court :=
  { id := i + 1, name := s!"场地 {i + 1}", team1 := none, team2 := none, status := "empty" }

/-- JS `a || b` on strings: the empty string is the only falsy string. -/
def jsOr (a b : String) : String :=
  if a = "" then b else a

/-- The recursive core of `getCombinations`' backtracking enumeration:
all size-`k` combinations of a list, in the backtracking (lexicographic)
order the source produces. -/
def combosList : Nat → List String → List (List String)
  | 0, _ => [[]]
  | _ + 1, [] => []
  | k + 1, a :: as => ((combosList k as).map (fun c => a :: c)) ++ combosList (k + 1) as

/-- `getCombinations` with its three early-return special cases. -/
def getCombinations (arr : List String) (size : Nat) : List (List String) :=
  if arr.length < size then []
  else if size = arr.length then [arr]
  else if size = 1 then arr.map (fun a => [a])
  else combosList size arr

/-- `generateCourtAssignments`: the court partitions searched by the global
optimizer — everything for 1 court, all `C(8,4)` splits of the first eight
players for 2 courts, and a single consecutive-slices partition for 3 or
more courts. -/
def generateCourtAssignments (playerIds : List String) (courtCount : Nat) :
    List (List (List String)) :=
  if courtCount = 1 then [[playerIds.take 4]]
  else if courtCount = 2 ∧ 8 ≤ playerIds.length then
    let firstEight := playerIds.take 8
    (getCombinations firstEight 4).filterMap fun court1Players =>
      let court2Players := firstEight.filter (fun id => !court1Players.contains id)
      if court2Players.length = 4 then some [court1Players, court2Players] else none
  else if 3 ≤ courtCount then
    let result := (List.range courtCount).filterMap fun i =>
      if i * 4 < playerIds.length then
        let courtPlayers := (playerIds.drop (i * 4)).take 4
        if courtPlayers.length = 4 then some courtPlayers else none
      else none
    if 0 < result.length then [result] else []
  else []

/-- One iteration of the match-building-and-scoring loop of
`findBestGlobalAssignment`.  `players.find(p => p.id === id)!` is modelled
with `filterMap find?`; in every reachable call all ids are found. -/
noncomputable def scoreStep (assignment : List (List String)) (players : List Participant)
    (weights : List Weight) (allParticipants : List Participant) (rand : Team → Team → ℝ)
    (acc : List (Option GameMatch) × ℝ) (courtIndex : Nat) :
    List (Option GameMatch) × ℝ :=
  let courtPlayers := assignment.getD courtIndex []
  if courtPlayers.length = 4 then
    let courtParticipants :=
      courtPlayers.filterMap (fun id => players.find? (fun p => p.id == id))
    match findBestTeamMatch courtParticipants weights allParticipants rand with
    | some bestMatch =>
      (acc.1.set courtIndex (some bestMatch),
        acc.2 + calculateTeamScore bestMatch.team1 bestMatch.team2 weights allParticipants
          (rand bestMatch.team1 bestMatch.team2))
    | none => acc
  else acc

/-- The match-building-and-scoring loop run for one candidate assignment in
`findBestGlobalAssignment`. -/
noncomputable def scoreAssignment (assignment : List (List String))
    (players : List Participant) (courtCount : Nat) (weights : List Weight)
    (allParticipants : List Participant) (rand : Team → Team → ℝ) :
    List (Option GameMatch) × ℝ :=
  (List.range assignment.length).foldl
    (scoreStep assignment players weights allParticipants rand)
    (List.replicate courtCount none, 0)

/-- `findBestGlobalAssignment`: search the generated partitions for the one
with the highest total score.  The `-Infinity` seed is modelled with an
`Option` accumulator (the first candidate always wins against the seed). -/
noncomputable def findBestGlobalAssignment (players : List Participant) (courtCount : Nat)
    (weights : List Weight) (allParticipants : List Participant) (rng : Rng) :
    List (Option GameMatch) :=
  let playerIds := players.map (·.id)
  let maxCourts := min courtCount (playerIds.length / 4)
  if maxCourts = 0 then List.replicate courtCount none
  else
    let best := bestPairFold
      (fun assignment =>
        scoreAssignment assignment players courtCount weights allParticipants rng.rand)
      (generateCourtAssignments playerIds maxCourts)
    match best with
    | some (bm, _) => bm
    | none => List.replicate courtCount none

/-- One iteration of the `for` loop at the end of `assignPlayersToCourts`
copying the best assignment's matches onto the court records. -/
def applyStep (assignment : List (Option GameMatch)) (cs : List Court) (i : Nat) :
    List Court :=
  match assignment.getD i none with
  | some m =>
    cs.set i
      { id := i + 1, name := jsOr ((cs.getD i (emptyCourt i)).name) s!"场地 {i + 1}"
        team1 := some m.team1, team2 := some m.team2, status := "playing"
        startTime := some () }
  | none => cs

/-- The `for` loop at the end of `assignPlayersToCourts` copying the best
assignment's matches onto the court records. -/
def applyAssignment (courts : List Court) (assignment : List (Option GameMatch))
    (courtCount : Nat) : List Court :=
  (List.range (min assignment.length courtCount)).foldl (applyStep assignment) courts

/-- `assignPlayersToCourts`.  (When `courtCount = 0` and 4 or more players
are supplied, the source would throw on `courts[0].name`; that combination
is unreachable from `generateOptimalTeams`, and the model totalizes it with
a default.) -/
noncomputable def assignPlayersToCourts (players : List Participant) (courtCount : Nat)
    (weights : List Weight) (allParticipants : List Participant) (rng : Rng) : List Court :=
  let courts := (List.range courtCount).map emptyCourt
  if players.length < 4 then courts
  else if courtCount = 1 ∨ players.length = 4 then
    match findBestTeamMatch players weights allParticipants rng.rand with
    | some bestMatch =>
      courts.set 0
        { id := 1, name := jsOr (courts.getD 0 (emptyCourt 0)).name "场地 1"
          team1 := some bestMatch.team1, team2 := some bestMatch.team2
          status := "playing", startTime := some () }
    | none => courts
  else
    applyAssignment courts
      (findBestGlobalAssignment players courtCount weights allParticipants rng) courtCount

/-- The `while (courts.length < courtCount)` padding loop of
`generateOptimalTeams`. -/
def fillEmptyCourts (courts : List Court) (courtCount : Nat) : List Court :=
  if h : courts.length < courtCount then
    fillEmptyCourts (courts ++ [emptyCourt courts.length]) courtCount
  else courts
termination_by courtCount - courts.length
decreasing_by simp; omega

/-- `calculateAssignmentStats`.  (With an empty participant list the JS code
produces `NaN`; the real-number model uses the `x / 0 = 0` convention — the
stats block is diagnostic only and no claim depends on it.) -/
noncomputable def calculateAssignmentStats (courts : List Court) (queue : List GameMatch)
    (weights : List Weight) (participants : List Participant) : AssignStats :=
  let gamesPlayed := participants.map (fun p => (p.gamesPlayed : ℝ))
  let mean := gamesPlayed.sum / (gamesPlayed.length : ℝ)
  let variance := (gamesPlayed.map (fun g => (g - mean) ^ 2)).sum / (gamesPlayed.length : ℝ)
  let fairnessScore := max 0 (1 - Real.sqrt variance / 10)
  let weightMatches := courts.foldl
    (fun acc court =>
      match court.team1, court.team2 with
      | some t1, some t2 =>
        acc + (weights.filter (fun w =>
          if w.type == "teammate" then
            isTeammates t1 w.player1 w.player2 || isTeammates t2 w.player1 w.player2
          else if w.type == "opponent" then isOpponents t1 t2 w.player1 w.player2
          else false)).length
      | _, _ => acc)
    0
  let weightEffectiveness :=
    if 0 < weights.length then (weightMatches : ℝ) / (weights.length : ℝ) else 1
  { fairnessScore := fairnessScore, weightEffectiveness := weightEffectiveness,
    diversityScore := 0.8 }

/-- `generateOptimalTeams`, the top-level entry point. -/
noncomputable def generateOptimalTeams (participants : List Participant) (courtCount : Nat)
    (weights : List Weight) (rng : Rng) : TeamAssignmentResult :=
  let availableParticipants := participants.filter (fun p => !p.hasLeft)
  if availableParticipants.length < 4 then
    { courts := (List.range courtCount).map emptyCourt
      queue := []
      waiting := availableParticipants.map (·.id)
      stats := { fairnessScore := 1, weightEffectiveness := 0, diversityScore := 1 } }
  else
    let sortedParticipants := rng.sortMain availableParticipants
    let totalPlayers := sortedParticipants.length
    let maxCourtsCanFill := min courtCount (totalPlayers / 4)
    let playingCount := maxCourtsCanFill * 4
    let playingPlayers := sortedParticipants.take playingCount
    let remainingPlayers := sortedParticipants.drop playingCount
    let queuePlayers := generateQueueWithSupplement remainingPlayers playingPlayers courtCount
      weights participants rng
    let queuePlayerIds := queuePlayers.flatMap matchPlayerIds
    let playingPlayerIds := playingPlayers.map (·.id)
    let waitingPlayers := sortedParticipants.filter (fun p =>
      !playingPlayerIds.contains p.id && !queuePlayerIds.contains p.id)
    let actualCourtsUsed := (playingCount + 3) / 4
    let courts := fillEmptyCourts
      (assignPlayersToCourts playingPlayers actualCourtsUsed weights participants rng) courtCount
    { courts := courts
      queue := queuePlayers
      waiting := waitingPlayers.map (·.id)
      stats := calculateAssignmentStats courts queuePlayers weights participants }

/-! ## Stats updater (`updatePlayerStats` and its helpers) -/

/-- `participants.find(p => p.id === pid)` followed by an in-place mutation:
apply `f` to the first participant with id `pid`, if any. -/
def updateFirst (participants : List Participant) (pid : String)
    (f : Participant → Participant) : List Participant :=
  match participants with
  | [] => []
  | p :: ps => if p.id = pid then f p :: ps else p :: updateFirst ps pid f

/-- `player.gamesPlayed++; player.restRounds = 0`. -/
def bumpGames (p : Participant) : Participant :=
  { p with gamesPlayed := p.gamesPlayed + 1, restRounds := 0 }

/-- `player.teammates[q] = (player.teammates[q] || 0) + 1`. -/
def bumpTeammate (q : String) (p : Participant) : Participant :=
  { p with teammates := fun x => if x = q then p.teammates q + 1 else p.teammates x }

/-- `player.opponents[q] = (player.opponents[q] || 0) + 1`. -/
def bumpOpponent (q : String) (p : Participant) : Participant :=
  { p with opponents := fun x => if x = q then p.opponents q + 1 else p.opponents x }

/-- `updateTeammateStats`: bump `player1.teammates[player2Id]` and
`player2.teammates[player1Id]` (each only if that participant exists). -/
def updateTeammateStats (participants : List Participant)
    (player1Id player2Id : String) : List Participant :=
  updateFirst (updateFirst participants player1Id (bumpTeammate player2Id))
    player2Id (bumpTeammate player1Id)

/-- `updateOpponentStats`: bump both players' `opponents` counts for each
other (each only if that participant exists). -/
def updateOpponentStats (participants : List Participant)
    (player1Id player2Id : String) : List Participant :=
  updateFirst (updateFirst participants player1Id (bumpOpponent player2Id))
    player2Id (bumpOpponent player1Id)

/-- `updatePlayerStats`: the in-place roster mutation after a completed
match, modelled as returning the updated roster. -/
def updatePlayerStats (participants : List Participant) (completedGame : GameMatch) :
    List Participant :=
  let team1 := completedGame.team1
  let team2 := completedGame.team2
  let allPlayers := [team1.player1, team1.player2, team2.player1, team2.player2]
  let participants := allPlayers.foldl
    (fun ps playerId => updateFirst ps playerId bumpGames)
    participants
  let participants := updateTeammateStats participants team1.player1 team1.player2
  let participants := updateTeammateStats participants team2.player1 team2.player2
  let participants := [team1.player1, team1.player2].foldl
    (fun ps t1p =>
      [team2.player1, team2.player2].foldl (fun ps' t2p => updateOpponentStats ps' t1p t2p) ps)
    participants
  participants.map (fun p =>
    if !allPlayers.contains p.id && p.status != "away" then
      { p with restRounds := p.restRounds + 1 }
    else p)

/-! ## Lemmas: the maximum-search fold -/

theorem foldl_bpStep_mem {α β : Type} (h : α → β × ℝ) :
    ∀ (l : List α) (acc : Option (β × ℝ)) (x : β × ℝ),
      l.foldl (bpStep h) acc = some x → acc = some x ∨ ∃ a ∈ l, x = h a := by
  intro l
  induction l with
  | nil => intro acc x hx; exact Or.inl hx
  | cons a as ih =>
    intro acc x hx
    rcases ih (bpStep h acc a) x hx with h1 | ⟨b, hb, rfl⟩
    · unfold bpStep at h1
      rcases acc with _ | ⟨p, bs⟩
      · simp only [Option.some.injEq] at h1
        exact Or.inr ⟨a, List.mem_cons_self a as, h1.symm⟩
      · by_cases hlt : bs < (h a).2
        · simp only [hlt, if_pos] at h1
          simp only [Option.some.injEq] at h1
          exact Or.inr ⟨a, List.mem_cons_self a as, h1.symm⟩
        · simp only [hlt, if_neg, not_false_iff] at h1
          exact Or.inl h1
    · exact Or.inr ⟨b, List.mem_cons_of_mem a hb, rfl⟩

theorem foldl_bpStep_isSome {α β : Type} (h : α → β × ℝ) :
    ∀ (l : List α) (x : β × ℝ), (l.foldl (bpStep h) (some x)).isSome := by
  intro l
  induction l with
  | nil => intro x; rfl
  | cons a as ih =>
    intro x
    show (as.foldl (bpStep h) (bpStep h (some x) a)).isSome
    unfold bpStep
    by_cases hlt : x.2 < (h a).2
    · obtain ⟨x1, x2⟩ := x
      simp only [hlt, if_pos]
      exact ih _
    · obtain ⟨x1, x2⟩ := x
      simp only [hlt, if_neg, not_false_iff]
      exact ih _

theorem bestPairFold_mem {α β : Type} {h : α → β × ℝ} {l : List α} {x : β × ℝ}
    (hx : bestPairFold h l = some x) : ∃ a ∈ l, x = h a := by
  rcases foldl_bpStep_mem h l none x hx with h1 | h2
  · exact absurd h1 (by simp)
  · exact h2

theorem bestPairFold_eq_none_iff {α β : Type} (h : α → β × ℝ) (l : List α) :
    bestPairFold h l = none ↔ l = [] := by
  constructor
  · intro hn
    cases l with
    | nil => rfl
    | cons a as =>
      exfalso
      have : (as.foldl (bpStep h) (bpStep h none a)).isSome := by
        show (as.foldl (bpStep h) (some (h a))).isSome
        exact foldl_bpStep_isSome h as (h a)
      rw [show as.foldl (bpStep h) (bpStep h none a) = bestPairFold h (a :: as) from rfl] at this
      rw [hn] at this
      exact Bool.noConfusion this
  · rintro rfl; rfl

theorem foldl_bpStep_const {α β : Type} (h : α → β × ℝ) (v : ℝ) :
    ∀ (l : List α) (x : β × ℝ), x.2 = v → (∀ a ∈ l, (h a).2 = v) →
      l.foldl (bpStep h) (some x) = some x := by
  intro l
  induction l with
  | nil => intro x _ _; rfl
  | cons a as ih =>
    intro x hx hl
    show as.foldl (bpStep h) (bpStep h (some x) a) = some x
    have hstep : bpStep h (some x) a = some x := by
      unfold bpStep
      obtain ⟨x1, x2⟩ := x
      have : ¬ (x2 < (h a).2) := by
        simp only at hx
        rw [hx, hl a (List.mem_cons_self a as)]
        exact lt_irrefl v
      simp only [this, if_neg, not_false_iff]
    rw [hstep]
    exact ih x hx (fun b hb => hl b (List.mem_cons_of_mem a hb))

/-- When every candidate has the same score, the `-Infinity`-seeded strict
max search returns the first candidate. -/
theorem bestPairFold_const {α β : Type} {h : α → β × ℝ} {v : ℝ} {a : α} {as : List α}
    (hl : ∀ b ∈ a :: as, (h b).2 = v) :
    bestPairFold h (a :: as) = some (h a) := by
  show (a :: as).foldl (bpStep h) none = some (h a)
  rw [List.foldl_cons]
  show as.foldl (bpStep h) (some (h a)) = some (h a)
  exact foldl_bpStep_const h v as (h a) (hl a (List.mem_cons_self a as))
    (fun b hb => hl b (List.mem_cons_of_mem a hb))

/-! ## Lemmas: team combinations and the team finder -/

theorem mem_generateTeamCombinations {players : List Participant} {m : GameMatch}
    (hm : m ∈ generateTeamCombinationsForPlayers players) :
    ∃ i j k l : Nat,
      i < j ∧ k < l ∧ k ≠ i ∧ k ≠ j ∧ l ≠ i ∧ l ≠ j ∧
      i < players.length ∧ j < players.length ∧ k < players.length ∧ l < players.length ∧
      m.team1.player1 = (players.map (·.id)).getD i "" ∧
      m.team1.player2 = (players.map (·.id)).getD j "" ∧
      m.team2.player1 = (players.map (·.id)).getD k "" ∧
      m.team2.player2 = (players.map (·.id)).getD l "" := by
  unfold generateTeamCombinationsForPlayers at hm
  simp only [List.mem_flatMap, List.mem_map, List.mem_filter, List.mem_range,
    decide_eq_true_eq, Bool.or_eq_true, beq_iff_eq, Bool.not_eq_true', Bool.and_eq_true,
    Bool.or_eq_false_iff, beq_eq_false_iff_ne, ne_eq, List.length_map] at hm
  obtain ⟨i, hi, j, ⟨hj, hij⟩, k, ⟨hk, hki, hkj⟩, l, ⟨⟨hl, hkl, hli, hlj⟩, rfl⟩⟩ := hm
  exact ⟨i, j, k, l, hij, hkl, hki, hkj, hli, hlj, hi, hj, hk, hl, rfl, rfl, rfl, rfl⟩

theorem matchIds_subset_of_mem_combos {players : List Participant} {m : GameMatch}
    (hm : m ∈ generateTeamCombinationsForPlayers players) :
    matchPlayerIds m ⊆ players.map (·.id) := by
  obtain ⟨i, j, k, l, _, _, _, _, _, _, hi, hj, hk, hl, e1, e2, e3, e4⟩ :=
    mem_generateTeamCombinations hm
  have hlen : (players.map (·.id)).length = players.length := List.length_map _ _
  intro x hx
  simp only [matchPlayerIds, List.mem_cons, List.not_mem_nil, or_false] at hx
  rcases hx with rfl | rfl | rfl | rfl
  · rw [e1, List.getD_eq_getElem _ _ (hlen ▸ hi)]; exact List.getElem_mem _
  · rw [e2, List.getD_eq_getElem _ _ (hlen ▸ hj)]; exact List.getElem_mem _
  · rw [e3, List.getD_eq_getElem _ _ (hlen ▸ hk)]; exact List.getElem_mem _
  · rw [e4, List.getD_eq_getElem _ _ (hlen ▸ hl)]; exact List.getElem_mem _

theorem matchIds_nodup_of_mem_combos {players : List Participant} {m : GameMatch}
    (hnd : (players.map (·.id)).Nodup)
    (hm : m ∈ generateTeamCombinationsForPlayers players) :
    (matchPlayerIds m).Nodup := by
  obtain ⟨i, j, k, l, hij, hkl, hki, hkj, hli, hlj, hi, hj, hk, hl, e1, e2, e3, e4⟩ :=
    mem_generateTeamCombinations hm
  have hlen : (players.map (·.id)).length = players.length := List.length_map _ _
  have hi' : i < (players.map (·.id)).length := hlen ▸ hi
  have hj' : j < (players.map (·.id)).length := hlen ▸ hj
  have hk' : k < (players.map (·.id)).length := hlen ▸ hk
  have hl' : l < (players.map (·.id)).length := hlen ▸ hl
  have hne : ∀ {a b : Nat} (ha : a < (players.map (·.id)).length)
      (hb : b < (players.map (·.id)).length), a ≠ b →
      (players.map (·.id)).getD a "" ≠ (players.map (·.id)).getD b "" := by
    intro a b ha hb hab
    rw [List.getD_eq_getElem _ _ ha, List.getD_eq_getElem _ _ hb]
    intro hEq
    exact hab ((hnd.getElem_inj_iff).mp hEq)
  have h12 := hne hi' hj' (Nat.ne_of_lt hij)
  have h13 := hne hi' hk' (fun h => hki h.symm)
  have h14 := hne hi' hl' (fun h => hli h.symm)
  have h23 := hne hj' hk' (fun h => hkj h.symm)
  have h24 := hne hj' hl' (fun h => hlj h.symm)
  have h34 := hne hk' hl' (Nat.ne_of_lt hkl)
  simp only [matchPlayerIds, List.nodup_cons, List.mem_cons, List.not_mem_nil,
    List.nodup_nil]
  rw [e1, e2, e3, e4]
  tauto

theorem generateTeamCombinations_ne_nil {players : List Participant}
    (hlen : 4 ≤ players.length) : generateTeamCombinationsForPlayers players ≠ [] := by
  have h0 : 0 < players.length := by omega
  have h1 : 1 < players.length := by omega
  have h2 : 2 < players.length := by omega
  have h3 : 3 < players.length := by omega
  apply List.ne_nil_of_mem (a :=
    { team1 := { player1 := (players.map (·.id)).getD 0 ""
                 player2 := (players.map (·.id)).getD 1 "" }
      team2 := { player1 := (players.map (·.id)).getD 2 ""
                 player2 := (players.map (·.id)).getD 3 "" } })
  unfold generateTeamCombinationsForPlayers
  simp only [List.mem_flatMap, List.mem_map, List.mem_filter, List.mem_range,
    decide_eq_true_eq, Bool.or_eq_true, beq_iff_eq, Bool.not_eq_true', Bool.and_eq_true,
    Bool.or_eq_false_iff, beq_eq_false_iff_ne, ne_eq, List.length_map]
  exact ⟨0, h0, 1, ⟨h1, by omega⟩, 2, ⟨h2, by omega, by omega⟩,
    3, ⟨⟨h3, by omega, by omega, by omega⟩, rfl⟩⟩

theorem findBestTeamMatch_eq_none_iff {players : List Participant} {weights : List Weight}
    {allParticipants : List Participant} {rand : Team → Team → ℝ} :
    findBestTeamMatch players weights allParticipants rand = none ↔ players.length < 4 := by
  unfold findBestTeamMatch
  by_cases h : players.length < 4
  · simp [h]
  · simp only [h, if_neg, not_false_iff, iff_false]
    intro hmap
    rw [Option.map_eq_none'] at hmap
    unfold bestScoreFold at hmap
    rw [bestPairFold_eq_none_iff] at hmap
    exact generateTeamCombinations_ne_nil (by omega) hmap

theorem findBestTeamMatch_mem {players : List Participant} {weights : List Weight}
    {allParticipants : List Participant} {rand : Team → Team → ℝ} {m : GameMatch}
    (hm : findBestTeamMatch players weights allParticipants rand = some m) :
    m ∈ generateTeamCombinationsForPlayers players := by
  unfold findBestTeamMatch at hm
  by_cases h : players.length < 4
  · simp [h] at hm
  · simp only [h, if_neg, not_false_iff] at hm
    rw [Option.map_eq_some'] at hm
    obtain ⟨⟨c, s⟩, hc, rfl⟩ := hm
    unfold bestScoreFold at hc
    obtain ⟨a, ha, hax⟩ := bestPairFold_mem hc
    have : c = a := congrArg Prod.fst hax
    subst this
    exact ha

theorem findBestTeamMatch_isSome {players : List Participant} {weights : List Weight}
    {allParticipants : List Participant} {rand : Team → Team → ℝ}
    (hlen : 4 ≤ players.length) :
    ∃ m, findBestTeamMatch players weights allParticipants rand = some m := by
  rcases h : findBestTeamMatch players weights allParticipants rand with _ | m
  · rw [findBestTeamMatch_eq_none_iff] at h; omega
  · exact ⟨m, rfl⟩

/-! ## Lemmas: evaluating the scorer -/

theorem buildPlayerStats_aux (ps : List Participant)
    (acc : String → Option Participant) (x : String) :
    (ps.foldl (fun acc p => fun y => if y = p.id then some p else acc y) acc) x = acc x ∨
      ∃ p ∈ ps,
        (ps.foldl (fun acc p => fun y => if y = p.id then some p else acc y) acc) x = some p ∧
          p.id = x := by
  induction ps generalizing acc with
  | nil => exact Or.inl rfl
  | cons p ps ih =>
    rw [List.foldl_cons]
    rcases ih (fun y => if y = p.id then some p else acc y) with h1 | ⟨q, hq, h2, h3⟩
    · by_cases hx : x = p.id
      · exact Or.inr ⟨p, List.mem_cons_self p ps, by rw [h1, if_pos hx], hx.symm⟩
      · exact Or.inl (by rw [h1, if_neg hx])
    · exact Or.inr ⟨q, List.mem_cons_of_mem p hq, h2, h3⟩

theorem buildPlayerStats_cases (participants : List Participant) (x : String) :
    buildPlayerStats participants x = none ∨
      ∃ p ∈ participants, buildPlayerStats participants x = some p ∧ p.id = x := by
  rcases buildPlayerStats_aux participants (fun _ => none) x with h | h
  · exact Or.inl h
  · exact Or.inr h

theorem gamesOf_eq_zero {participants : List Participant}
    (h : ∀ p ∈ participants, p.gamesPlayed = 0) (x : String) :
    gamesOf (buildPlayerStats participants) x = 0 := by
  unfold gamesOf
  rcases buildPlayerStats_cases participants x with hc | ⟨p, hp, hc, _⟩ <;> rw [hc]
  · simp [h p hp]

theorem calculateFairnessScore_allZero {participants : List Participant}
    (h : ∀ p ∈ participants, p.gamesPlayed = 0) (team1 team2 : Team) :
    calculateFairnessScore team1 team2 (buildPlayerStats participants) = 10 := by
  unfold calculateFairnessScore
  simp only [List.map_cons, List.map_nil, gamesOf_eq_zero h]
  norm_num

theorem calculateWeightBonus_nil (team1 team2 : Team) :
    calculateWeightBonus team1 team2 [] = 0 := rfl

theorem teammatePenaltyStep_zero {participants : List Participant}
    (h : ∀ p ∈ participants, ∀ y, p.teammates y = 0) (team : Team) (pen : ℝ) :
    teammatePenaltyStep team (buildPlayerStats participants) pen = pen := by
  unfold teammatePenaltyStep
  rcases buildPlayerStats_cases participants team.player1 with h1 | ⟨p1, hp1, h1, _⟩
  · rcases buildPlayerStats_cases participants team.player2 with h2 | ⟨p2, hp2, h2, _⟩ <;>
      rw [h1, h2]
  · rcases buildPlayerStats_cases participants team.player2 with h2 | ⟨p2, hp2, h2, _⟩ <;>
      rw [h1, h2]
    simp [h p1 hp1]

theorem opponentPenaltyStep_zero {participants : List Participant}
    (h : ∀ p ∈ participants, ∀ y, p.opponents y = 0) (a b : String) (pen : ℝ) :
    opponentPenaltyStep a b (buildPlayerStats participants) pen = pen := by
  unfold opponentPenaltyStep
  rcases buildPlayerStats_cases participants a with h1 | ⟨p1, hp1, h1, _⟩ <;> rw [h1]
  simp [h p1 hp1]

theorem calculateRepetitionPenalty_zero {participants : List Participant}
    (htm : ∀ p ∈ participants, ∀ y, p.teammates y = 0)
    (hop : ∀ p ∈ participants, ∀ y, p.opponents y = 0) (team1 team2 : Team) :
    calculateRepetitionPenalty team1 team2 (buildPlayerStats participants) = 0 := by
  simp only [calculateRepetitionPenalty]
  rw [teammatePenaltyStep_zero htm, teammatePenaltyStep_zero htm,
    opponentPenaltyStep_zero hop, opponentPenaltyStep_zero hop,
    opponentPenaltyStep_zero hop, opponentPenaltyStep_zero hop]

/-- A roster of fresh players (no games, empty history) and no weights gives
every team split the same score `10 + (r - 0.5) * 0.1`. -/
theorem calculateTeamScore_fresh {participants : List Participant}
    (hg : ∀ p ∈ participants, p.gamesPlayed = 0)
    (htm : ∀ p ∈ participants, ∀ y, p.teammates y = 0)
    (hop : ∀ p ∈ participants, ∀ y, p.opponents y = 0)
    (team1 team2 : Team) (r : ℝ) :
    calculateTeamScore team1 team2 [] participants r = 10 + (r - 0.5) * 0.1 := by
  simp only [calculateTeamScore]
  rw [calculateFairnessScore_allZero hg, calculateWeightBonus_nil,
    calculateRepetitionPenalty_zero htm hop]
  ring

/-- With constant scores for all enumerated splits, `findBestTeamMatch`
returns the first enumerated split. -/
theorem findBestTeamMatch_const_score {players : List Participant} {weights : List Weight}
    {allParticipants : List Participant} {rand : Team → Team → ℝ} {v : ℝ}
    (h4 : 4 ≤ players.length)
    (hconst : ∀ c ∈ generateTeamCombinationsForPlayers players,
      calculateTeamScore c.team1 c.team2 weights allParticipants (rand c.team1 c.team2) = v) :
    findBestTeamMatch players weights allParticipants rand =
      (generateTeamCombinationsForPlayers players).head? := by
  unfold findBestTeamMatch bestScoreFold
  rw [if_neg (by omega)]
  cases hl : generateTeamCombinationsForPlayers players with
  | nil => exact absurd hl (generateTeamCombinations_ne_nil h4)
  | cons a as =>
    rw [bestPairFold_const (v := v) (fun b hb => hconst b (hl ▸ hb))]
    rfl

/-! ## Lemmas: queue construction -/

theorem mem_foldl_insertId (l : List String) :
    ∀ (used : List String) (y : String), y ∈ l.foldl insertId used ↔ y ∈ used ∨ y ∈ l := by
  induction l with
  | nil => intro used y; simp
  | cons a as ih =>
    intro used y
    rw [List.foldl_cons]
    rw [ih (insertId used a) y]
    unfold insertId
    by_cases ha : used.contains a
    · rw [if_pos ha]
      have : a ∈ used := by simpa using ha
      constructor
      · rintro (h | h)
        · exact Or.inl h
        · exact Or.inr (List.mem_cons_of_mem a h)
      · rintro (h | h)
        · exact Or.inl h
        · rcases List.mem_cons.mp h with rfl | h
          · exact Or.inl this
          · exact Or.inr h
    · rw [if_neg ha]
      simp only [List.mem_cons]
      tauto

theorem foldl_insertId_length_of_nodup {ids : List String} (hnd : ids.Nodup) :
    ∀ (used : List String), (∀ x ∈ ids, x ∉ used) →
      (ids.foldl insertId used).length = used.length + ids.length := by
  induction ids with
  | nil => intro used _; simp
  | cons a as ih =>
    intro used hdisj
    rw [List.foldl_cons]
    have ha : ¬ used.contains a := by
      simpa using hdisj a (List.mem_cons_self a as)
    rw [show insertId used a = a :: used from by unfold insertId; rw [if_neg (by simp_all)]]
    rw [ih (List.nodup_cons.mp hnd).2 (a :: used) ?hd]
    · simp; omega
    · intro x hx
      simp only [List.mem_cons, not_or]
      exact ⟨fun hEq => (List.nodup_cons.mp hnd).1 (hEq ▸ hx),
        hdisj x (List.mem_cons_of_mem a hx)⟩

theorem selectOptimalQueueGroup_subset {cands all : List Participant} {gs : Nat} {rng : Rng}
    (hval : rng.Valid) : ∀ p ∈ selectOptimalQueueGroup cands all gs rng, p ∈ cands := by
  unfold selectOptimalQueueGroup
  split
  · exact fun p hp => List.take_subset _ _ hp
  · exact fun p hp => ((hval.2.2 cands).mem_iff).mp (List.take_subset _ _ hp)

theorem selectOptimalQueueGroup_nodup {cands all : List Participant} {gs : Nat} {rng : Rng}
    (hval : rng.Valid) (hnd : (cands.map (·.id)).Nodup) :
    ((selectOptimalQueueGroup cands all gs rng).map (·.id)).Nodup := by
  unfold selectOptimalQueueGroup
  split
  · rw [List.map_take]
    exact (List.take_sublist _ _).nodup hnd
  · rw [List.map_take]
    have hperm : ((rng.sortGroup cands).map (·.id)).Perm (cands.map (·.id)) :=
      (hval.2.2 cands).map _
    exact (List.take_sublist _ _).nodup (hperm.nodup_iff.mpr hnd)

theorem buildQueue_succ (cands : List Participant) (w : List Weight)
    (all : List Participant) (rng : Rng) (fuel : Nat) (used : List String) :
    buildQueue cands w all rng (fuel + 1) used =
      if cands.length - used.length < 4 then []
      else if (cands.filter (fun p => !used.contains p.id)).length < 4 then []
      else if (selectOptimalQueueGroup (cands.filter (fun p => !used.contains p.id))
          all 4 rng).length = 4 then
        match findBestTeamMatch
            (selectOptimalQueueGroup (cands.filter (fun p => !used.contains p.id)) all 4 rng)
            w all rng.rand with
        | some bm =>
          bm :: buildQueue cands w all rng fuel ((matchPlayerIds bm).foldl insertId used)
        | none => buildQueue cands w all rng fuel used
      else buildQueue cands w all rng fuel used := rfl

theorem buildQueue_invariant {cands : List Participant} {w : List Weight}
    {all : List Participant} {rng : Rng} (hval : rng.Valid)
    (hnd : (cands.map (·.id)).Nodup) :
    ∀ (fuel : Nat) (used : List String),
      (∀ x ∈ (buildQueue cands w all rng fuel used).flatMap matchPlayerIds,
        x ∈ cands.map (·.id) ∧ x ∉ used) ∧
      ((buildQueue cands w all rng fuel used).flatMap matchPlayerIds).Nodup := by
  intro fuel
  induction fuel with
  | zero => intro used; constructor <;> simp [buildQueue]
  | succ fuel ih =>
    intro used
    rw [buildQueue_succ]
    by_cases h1 : cands.length - used.length < 4
    · rw [if_pos h1]; constructor <;> simp
    rw [if_neg h1]
    set available := cands.filter (fun p => !used.contains p.id) with havail
    by_cases h2 : available.length < 4
    · rw [if_pos h2]; constructor <;> simp
    rw [if_neg h2]
    set selected := selectOptimalQueueGroup available all 4 rng with hsel
    have hav_sub : ∀ p ∈ available, p ∈ cands ∧ p.id ∉ used := by
      intro p hp
      rw [havail, List.mem_filter] at hp
      refine ⟨hp.1, ?_⟩
      simpa using hp.2
    have hav_nodup : (available.map (·.id)).Nodup := by
      have : available.Sublist cands := by rw [havail]; exact List.filter_sublist _
      exact (this.map _).nodup hnd
    have hsel_sub : ∀ p ∈ selected, p ∈ cands ∧ p.id ∉ used := by
      intro p hp
      exact hav_sub p (selectOptimalQueueGroup_subset hval p hp)
    have hsel_nodup : (selected.map (·.id)).Nodup :=
      selectOptimalQueueGroup_nodup hval hav_nodup
    by_cases h3 : selected.length = 4
    · rw [if_pos h3]
      rcases hbm : findBestTeamMatch selected w all rng.rand with _ | bm
      · exact ih used
      · have hmem := findBestTeamMatch_mem hbm
        have hbm_sub : matchPlayerIds bm ⊆ selected.map (·.id) :=
          matchIds_subset_of_mem_combos hmem
        have hbm_nodup : (matchPlayerIds bm).Nodup :=
          matchIds_nodup_of_mem_combos hsel_nodup hmem
        have hbm_cands : ∀ x ∈ matchPlayerIds bm, x ∈ cands.map (·.id) ∧ x ∉ used := by
          intro x hx
          obtain ⟨p, hp, hpx⟩ := List.mem_map.mp (hbm_sub hx)
          obtain ⟨hpc, hpu⟩ := hsel_sub p hp
          exact ⟨List.mem_map.mpr ⟨p, hpc, hpx⟩, hpx ▸ hpu⟩
        obtain ⟨ihsub, ihnodup⟩ := ih ((matchPlayerIds bm).foldl insertId used)
        constructor
        · intro x hx
          rw [List.flatMap_cons, List.mem_append] at hx
          rcases hx with hx | hx
          · exact hbm_cands x hx
          · obtain ⟨hxc, hxu⟩ := ihsub x hx
            refine ⟨hxc, fun hxused => hxu ?_⟩
            rw [mem_foldl_insertId]
            exact Or.inl hxused
        · rw [List.flatMap_cons, List.nodup_append]
          refine ⟨hbm_nodup, ihnodup, ?_⟩
          intro x hx hx'
          obtain ⟨_, hxu⟩ := ihsub x hx'
          exact hxu ((mem_foldl_insertId _ _ _).mpr (Or.inr hx))
    · rw [if_neg h3]
      exact ih used

/-! ## Lemmas: combinations and court partitions -/

theorem mem_combosList : ∀ {k : Nat} {l : List String} {c : List String},
    c ∈ combosList k l → c.Sublist l ∧ c.length = k := by
  intro k l
  induction l generalizing k with
  | nil =>
    intro c hc
    cases k with
    | zero =>
      simp only [combosList, List.mem_singleton] at hc
      subst hc
      exact ⟨List.nil_sublist _, rfl⟩
    | succ k => simp [combosList] at hc
  | cons a as ih =>
    intro c hc
    cases k with
    | zero =>
      simp only [combosList, List.mem_singleton] at hc
      subst hc
      exact ⟨List.nil_sublist _, rfl⟩
    | succ k =>
      simp only [combosList, List.mem_append, List.mem_map] at hc
      rcases hc with ⟨c', hc', rfl⟩ | hc
      · obtain ⟨hs, hl⟩ := ih hc'
        exact ⟨List.Sublist.cons₂ a hs, by simp [hl]⟩
      · obtain ⟨hs, hl⟩ := ih hc
        exact ⟨List.sublist_cons_of_sublist a hs, hl⟩

theorem combosList_ne_nil : ∀ {k : Nat} {l : List String},
    k ≤ l.length → combosList k l ≠ [] := by
  intro k l
  induction l generalizing k with
  | nil =>
    intro hk
    have hk0 : k = 0 := by simpa using hk
    subst hk0
    simp [combosList]
  | cons a as ih =>
    intro hk
    cases k with
    | zero => simp [combosList]
    | succ k =>
      have : k ≤ as.length := by simpa using hk
      simp only [combosList, ne_eq, List.append_eq_nil, List.map_eq_nil_iff, not_and_or]
      exact Or.inl (ih this)

theorem mem_getCombinations {arr : List String} {size : Nat} {c : List String}
    (hc : c ∈ getCombinations arr size) : c.Sublist arr ∧ c.length = size := by
  unfold getCombinations at hc
  split at hc
  · simp at hc
  · split at hc
    · simp only [List.mem_singleton] at hc
      subst hc
      exact ⟨List.Sublist.refl _, by omega⟩
    · split at hc
      · rename_i hs1
        obtain ⟨a, ha, rfl⟩ := List.mem_map.mp hc
        exact ⟨List.singleton_sublist.mpr ha, by simp [hs1]⟩
      · exact mem_combosList hc

theorem getCombinations_ne_nil {arr : List String} {size : Nat}
    (h : size ≤ arr.length) : getCombinations arr size ≠ [] := by
  unfold getCombinations
  split
  · omega
  · split
    · simp
    · split
      · rename_i hs1
        simp only [ne_eq, List.map_eq_nil_iff]
        intro harr
        subst harr
        simp only [List.length_nil, Nat.le_zero] at h
        omega
      · exact combosList_ne_nil h

theorem pairwise_filterMap_of_pairwise {α β : Type _} {R : α → α → Prop} {D : β → β → Prop}
    (f : α → Option β) :
    ∀ {l : List α}, l.Pairwise R →
      (∀ a b, R a b → ∀ x, f a = some x → ∀ y, f b = some y → D x y) →
      (l.filterMap f).Pairwise D := by
  intro l
  induction l with
  | nil => intro _ _; simp
  | cons a as ih =>
    intro hl hcomp
    rw [List.pairwise_cons] at hl
    rw [List.filterMap_cons]
    cases hfa : f a with
    | none => exact ih hl.2 hcomp
    | some x =>
      rw [List.pairwise_cons]
      refine ⟨?_, ih hl.2 hcomp⟩
      intro y hy
      obtain ⟨b, hb, hfb⟩ := List.mem_filterMap.mp hy
      exact hcomp a b (hl.1 b hb) x hfa y hfb

/-- Two consecutive-slice groups of a duplicate-free list are disjoint. -/
theorem slice_disjoint {ids : List String} (hnd : ids.Nodup) {i j : Nat} (hij : i < j)
    (hi4 : ((ids.drop (i * 4)).take 4).length = 4) :
    List.Disjoint ((ids.drop (i * 4)).take 4) ((ids.drop (j * 4)).take 4) := by
  intro x hxi hxj
  have hsplit := List.take_append_drop (i * 4 + 4) ids
  have hnd' : (ids.take (i * 4 + 4) ++ ids.drop (i * 4 + 4)).Nodup := by
    rw [hsplit]; exact hnd
  have hdisj := (List.nodup_append.mp hnd').2.2
  have hxi' : x ∈ ids.take (i * 4 + 4) := by
    have : (ids.drop (i * 4)).take 4 = (ids.take (i * 4 + 4)).drop (i * 4) := by
      rw [List.drop_take]
      congr 1
      omega
    rw [this] at hxi
    exact (List.drop_sublist _ _).mem hxi
  have hxj' : x ∈ ids.drop (i * 4 + 4) := by
    have hle : i * 4 + 4 ≤ j * 4 := by omega
    have : ids.drop (j * 4) = (ids.drop (i * 4 + 4)).drop (j * 4 - (i * 4 + 4)) := by
      rw [List.drop_drop]
      congr 1
      omega
    have hmem : x ∈ ids.drop (j * 4) := (List.take_sublist _ _).mem hxj
    rw [this] at hmem
    exact (List.drop_sublist _ _).mem hmem
  exact hdisj hxi' hxj'

/-- Soundness of the partitions searched by the global optimizer: every
generated assignment consists of pairwise-disjoint, duplicate-free groups of
exactly 4 ids drawn from `ids`. -/
theorem generateCourtAssignments_spec {ids : List String} {cc : Nat} (hnd : ids.Nodup)
    (h4 : 4 ≤ ids.length) :
    ∀ A ∈ generateCourtAssignments ids cc,
      (∀ g ∈ A, g ⊆ ids ∧ g.Nodup ∧ g.length = 4) ∧ A.Pairwise List.Disjoint := by
  intro A hA
  unfold generateCourtAssignments at hA
  split at hA
  · -- one court
    simp only [List.mem_singleton] at hA
    subst hA
    refine ⟨?_, by simp⟩
    intro g hg
    simp only [List.mem_singleton] at hg
    subst hg
    exact ⟨List.take_subset _ _, (List.take_sublist _ _).nodup hnd,
      by rw [List.length_take]; omega⟩
  · split at hA
    · -- two courts, at least 8 players
      rename_i hcond
      dsimp only at hA
      obtain ⟨g1, hg1, hA⟩ := List.mem_filterMap.mp hA
      split at hA
      · rename_i hlen2
        simp only [Option.some.injEq] at hA
        subst hA
        obtain ⟨hs1, hl1⟩ := mem_getCombinations hg1
        have hnd8 : (ids.take 8).Nodup := (List.take_sublist _ _).nodup hnd
        have hg1nd : g1.Nodup := hs1.nodup hnd8
        have hg1sub : g1 ⊆ ids := fun x hx => List.take_subset _ _ (hs1.mem hx)
        have hg2 := (ids.take 8).filter_sublist (p := fun id => !g1.contains id)
        refine ⟨?_, ?_⟩
        · intro g hg
          simp only [List.mem_cons, List.not_mem_nil, or_false] at hg
          rcases hg with rfl | rfl
          · exact ⟨hg1sub, hg1nd, hl1⟩
          · exact ⟨fun x hx => List.take_subset _ _ (hg2.mem hx), hg2.nodup hnd8, hlen2⟩
        · refine List.pairwise_cons.mpr ⟨?_, by simp⟩
          intro g hg
          simp only [List.mem_cons, List.not_mem_nil, or_false] at hg
          subst hg
          intro x hx1 hx2
          rw [List.mem_filter] at hx2
          have hnc : x ∉ g1 := by simpa using hx2.2
          exact hnc hx1
      · simp at hA
    · split at hA
      · -- three or more courts: consecutive slices
        dsimp only at hA
        split at hA
        · simp only [List.mem_singleton] at hA
          subst hA
          constructor
          · intro g hg
            obtain ⟨i, _, hgi⟩ := List.mem_filterMap.mp hg
            split at hgi
            · split at hgi
              · rename_i hglen
                simp only [Option.some.injEq] at hgi
                subst hgi
                exact ⟨fun x hx =>
                  (List.drop_sublist _ _).mem ((List.take_sublist _ _).mem hx),
                  ((List.take_sublist _ _).nodup ((List.drop_sublist _ _).nodup hnd)),
                  hglen⟩
              · exact absurd hgi (by simp)
            · exact absurd hgi (by simp)
          · refine pairwise_filterMap_of_pairwise _ (List.pairwise_lt_range cc) ?_
            intro a b hab x hx y hy
            split at hx
            · split at hx
              · rename_i hxlen
                simp only [Option.some.injEq] at hx
                split at hy
                · split at hy
                  · simp only [Option.some.injEq] at hy
                    subst hx; subst hy
                    exact slice_disjoint hnd hab (by rw [Nat.mul_comm] at hxlen ⊢; exact hxlen)
                  · exact absurd hy (by simp)
                · exact absurd hy (by simp)
              · exact absurd hx (by simp)
            · exact absurd hx (by simp)
        · simp at hA
      · simp at hA

/-! ## Lemmas: the court-assignment optimizer -/

/-- The matches currently held by a list of courts (a court holds a match
when both `team1` and `team2` are set), as collected by `validateAssignment`. -/
def courtMatches (courts : List Court) : List GameMatch :=
  courts.filterMap fun c =>
    match c.team1, c.team2 with
    | some t1, some t2 => some { team1 := t1, team2 := t2 }
    | _, _ => none

/-- All player ids placed on courts. -/
def courtIds (courts : List Court) : List String :=
  (courtMatches courts).flatMap matchPlayerIds

theorem courtMatches_append (cs1 cs2 : List Court) :
    courtMatches (cs1 ++ cs2) = courtMatches cs1 ++ courtMatches cs2 :=
  List.filterMap_append _ _ _

theorem courtMatches_map_emptyCourt (l : List Nat) (f : Nat → Nat) :
    courtMatches (l.map (fun i => emptyCourt (f i))) = [] := by
  unfold courtMatches
  rw [List.filterMap_map]
  apply List.filterMap_eq_nil_iff.mpr
  intro i _
  rfl

theorem ids_filterMap_find (players : List Participant) :
    ∀ g : List String,
      ((g.filterMap (fun id => players.find? (fun p => p.id == id))).map (·.id)) =
        g.filter (fun id => (players.find? (fun p => p.id == id)).isSome) := by
  intro g
  induction g with
  | nil => rfl
  | cons a g ih =>
    rw [List.filterMap_cons, List.filter_cons]
    cases hf : players.find? (fun p => p.id == a) with
    | none => simpa [hf] using ih
    | some p =>
      have hpa : p.id = a := by simpa using List.find?_some hf
      simp only [hf, Option.isSome_some, if_pos, List.map_cons, hpa, ih]

theorem ids_filterMap_find_subset (players : List Participant) (g : List String) :
    ((g.filterMap (fun id => players.find? (fun p => p.id == id))).map (·.id)) ⊆ g := by
  rw [ids_filterMap_find]
  exact fun x hx => List.mem_of_mem_filter hx

theorem ids_filterMap_find_nodup (players : List Participant) {g : List String}
    (hg : g.Nodup) :
    ((g.filterMap (fun id => players.find? (fun p => p.id == id))).map (·.id)).Nodup := by
  rw [ids_filterMap_find]
  exact (List.filter_sublist _).nodup hg

theorem filterMap_find_length_of_found {players : List Participant} {g : List String}
    (h : ∀ id ∈ g, ∃ p ∈ players, p.id = id) :
    (g.filterMap (fun id => players.find? (fun p => p.id == id))).length = g.length := by
  have hmap := ids_filterMap_find players g
  have hfil : g.filter (fun id => (players.find? (fun p => p.id == id)).isSome) = g := by
    apply List.filter_eq_self.mpr
    intro id hid
    obtain ⟨p, hp, hpid⟩ := h id hid
    exact List.find?_isSome.mpr ⟨p, hp, by simpa using hpid⟩
  have := congrArg List.length hmap
  rw [List.length_map, hfil] at this
  exact this

/-- The match computed for court `i` while scoring one candidate
assignment. -/
noncomputable def scoreStepMatch (assignment : List (List String))
    (players : List Participant) (weights : List Weight)
    (allParticipants : List Participant) (rand : Team → Team → ℝ) (i : Nat) :
    Option GameMatch :=
  let g := assignment.getD i []
  if g.length = 4 then
    findBestTeamMatch (g.filterMap (fun id => players.find? (fun p => p.id == id)))
      weights allParticipants rand
  else none

theorem scoreStep_fst_length (assignment : List (List String)) (players : List Participant)
    (weights : List Weight) (allParticipants : List Participant) (rand : Team → Team → ℝ)
    (acc : List (Option GameMatch) × ℝ) (i : Nat) :
    (scoreStep assignment players weights allParticipants rand acc i).1.length =
      acc.1.length := by
  unfold scoreStep
  dsimp only
  split
  · split <;> simp
  · rfl

theorem scoreStep_fst_getElem_ne (assignment : List (List String))
    (players : List Participant) (weights : List Weight)
    (allParticipants : List Participant) (rand : Team → Team → ℝ)
    (acc : List (Option GameMatch) × ℝ) {i j : Nat} (hij : i ≠ j) :
    (scoreStep assignment players weights allParticipants rand acc i).1[j]? =
      acc.1[j]? := by
  unfold scoreStep
  dsimp only
  split
  · split
    · exact List.getElem?_set_ne hij
    · rfl
  · rfl

theorem scoreStep_fst_getElem_self (assignment : List (List String))
    (players : List Participant) (weights : List Weight)
    (allParticipants : List Participant) (rand : Team → Team → ℝ)
    (acc : List (Option GameMatch) × ℝ) (i : Nat) (hnone : acc.1[i]?.getD none = none) :
    (scoreStep assignment players weights allParticipants rand acc i).1[i]?.getD none =
      if i < acc.1.length then
        scoreStepMatch assignment players weights allParticipants rand i
      else none := by
  have hacc : ∀ hi : i < acc.1.length, acc.1[i] = none := by
    intro hi
    have h' := hnone
    rwa [List.getElem?_eq_getElem hi, Option.getD_some] at h'
  unfold scoreStep scoreStepMatch
  dsimp only
  by_cases hlen : (assignment.getD i []).length = 4
  · simp only [if_pos hlen]
    rcases hbm : findBestTeamMatch
        ((assignment.getD i []).filterMap fun id => players.find? fun p => p.id == id)
        weights allParticipants rand with _ | bm
    · show acc.1[i]?.getD none = _
      by_cases hi : i < acc.1.length
      · rw [if_pos hi, List.getElem?_eq_getElem hi, Option.getD_some, hacc hi]
      · rw [if_neg hi, List.getElem?_eq_none (by omega), Option.getD_none]
    · show (acc.1.set i (some bm))[i]?.getD none = _
      by_cases hi : i < acc.1.length
      · rw [if_pos hi, List.getElem?_set_self (by simpa using hi), Option.getD_some]
      · rw [if_neg hi, List.set_eq_of_length_le (by omega),
          List.getElem?_eq_none (by omega), Option.getD_none]
  · simp only [if_neg hlen]
    by_cases hi : i < acc.1.length
    · rw [if_pos hi, List.getElem?_eq_getElem hi, Option.getD_some, hacc hi]
    · rw [if_neg hi, List.getElem?_eq_none (by omega), Option.getD_none]

theorem foldl_scoreStep_length (assignment : List (List String)) (players : List Participant)
    (weights : List Weight) (allParticipants : List Participant) (rand : Team → Team → ℝ) :
    ∀ (is : List Nat) (acc : List (Option GameMatch) × ℝ),
      ((is.foldl (scoreStep assignment players weights allParticipants rand) acc)).1.length =
        acc.1.length := by
  intro is
  induction is with
  | nil => intro acc; rfl
  | cons a as ih =>
    intro acc
    rw [List.foldl_cons, ih, scoreStep_fst_length]

theorem foldl_scoreStep_getElem_ne (assignment : List (List String))
    (players : List Participant) (weights : List Weight)
    (allParticipants : List Participant) (rand : Team → Team → ℝ) :
    ∀ (is : List Nat) (acc : List (Option GameMatch) × ℝ) (j : Nat), j ∉ is →
      ((is.foldl (scoreStep assignment players weights allParticipants rand) acc)).1[j]? =
        acc.1[j]? := by
  intro is
  induction is with
  | nil => intro acc j _; rfl
  | cons a as ih =>
    intro acc j hj
    rw [List.foldl_cons, ih _ _ (fun h => hj (List.mem_cons_of_mem a h)),
      scoreStep_fst_getElem_ne]
    exact fun h => hj (h ▸ List.mem_cons_self a as)

theorem foldl_scoreStep_getElem_mem (assignment : List (List String))
    (players : List Participant) (weights : List Weight)
    (allParticipants : List Participant) (rand : Team → Team → ℝ) :
    ∀ (is : List Nat) (acc : List (Option GameMatch) × ℝ) (i : Nat), is.Nodup → i ∈ is →
      acc.1[i]?.getD none = none →
      ((is.foldl (scoreStep assignment players weights allParticipants rand) acc)).1[i]?.getD
          none =
        if i < acc.1.length then
          scoreStepMatch assignment players weights allParticipants rand i
        else none := by
  intro is
  induction is with
  | nil => intro acc i _ hi; exact absurd hi (List.not_mem_nil i)
  | cons a as ih =>
    intro acc i hnd hi hnone
    rw [List.foldl_cons]
    rcases List.mem_cons.mp hi with rfl | hi'
    · have hnotin : i ∉ as := (List.nodup_cons.mp hnd).1
      rw [foldl_scoreStep_getElem_ne _ _ _ _ _ _ _ _ hnotin]
      exact scoreStep_fst_getElem_self _ _ _ _ _ _ _ hnone
    · have hne : a ≠ i := by
        rintro rfl
        exact (List.nodup_cons.mp hnd).1 hi'
      rw [ih _ _ (List.nodup_cons.mp hnd).2 hi'
        (by rw [scoreStep_fst_getElem_ne _ _ _ _ _ _ hne]; exact hnone),
        scoreStep_fst_length]

theorem getD_replicate_none (cc i : Nat) :
    ((List.replicate cc (none : Option GameMatch))[i]?).getD none = none := by
  by_cases hi : i < cc
  · rw [List.getElem?_eq_getElem (by simpa using hi), List.getElem_replicate]
    rfl
  · rw [List.getElem?_eq_none (by simpa using hi)]
    rfl

/-- Pointwise description of the matches list produced by scoring one
candidate assignment. -/
theorem scoreAssignment_fst_getD (assignment : List (List String))
    (players : List Participant) (courtCount : Nat) (weights : List Weight)
    (allParticipants : List Participant) (rand : Team → Team → ℝ) (i : Nat) :
    ((scoreAssignment assignment players courtCount weights allParticipants
        rand).1[i]?).getD none =
      if i < assignment.length ∧ i < courtCount then
        scoreStepMatch assignment players weights allParticipants rand i
      else none := by
  unfold scoreAssignment
  by_cases hi : i < assignment.length
  · rw [foldl_scoreStep_getElem_mem _ _ _ _ _ _ _ _ (List.nodup_range _)
      (List.mem_range.mpr hi) (getD_replicate_none _ _)]
    simp only [List.length_replicate]
    by_cases hcc : i < courtCount
    · rw [if_pos hcc, if_pos ⟨hi, hcc⟩]
    · rw [if_neg hcc, if_neg (by tauto)]
  · rw [foldl_scoreStep_getElem_ne _ _ _ _ _ _ _ _
      (by simpa using hi), getD_replicate_none, if_neg (by tauto)]

theorem scoreAssignment_fst_length (assignment : List (List String))
    (players : List Participant) (courtCount : Nat) (weights : List Weight)
    (allParticipants : List Participant) (rand : Team → Team → ℝ) :
    (scoreAssignment assignment players courtCount weights allParticipants rand).1.length =
      courtCount := by
  unfold scoreAssignment
  rw [foldl_scoreStep_length, List.length_replicate]

/-- The court record written for court index `i` when a match is applied to
an (initially empty) court. -/
def playingCourt (i : Nat) (m : GameMatch) : Court :=
  { id := i + 1, name := s!"场地 {i + 1}", team1 := some m.team1, team2 := some m.team2,
    status := "playing", startTime := some () }

theorem jsOr_self (a : String) : jsOr a a = a := by
  unfold jsOr
  split <;> rfl

theorem applyStep_length (asg : List (Option GameMatch)) (cs : List Court) (i : Nat) :
    (applyStep asg cs i).length = cs.length := by
  unfold applyStep
  split <;> simp

theorem applyStep_getElem_ne (asg : List (Option GameMatch)) (cs : List Court) {i j : Nat}
    (hij : i ≠ j) : (applyStep asg cs i)[j]? = cs[j]? := by
  unfold applyStep
  split
  · exact List.getElem?_set_ne hij
  · rfl

theorem applyStep_getElem_self (asg : List (Option GameMatch)) (cs : List Court) (i : Nat)
    (hcs : cs[i]? = some (emptyCourt i)) :
    (applyStep asg cs i)[i]? =
      some (match asg.getD i none with
        | some m => playingCourt i m
        | none => emptyCourt i) := by
  have hi : i < cs.length := by
    by_contra hlt
    rw [List.getElem?_eq_none (by omega)] at hcs
    exact Option.noConfusion hcs
  unfold applyStep
  cases hasg : asg.getD i none with
  | none => exact hcs
  | some m =>
    rw [List.getElem?_set_self (by simpa using hi)]
    have hgetD : cs.getD i (emptyCourt i) = emptyCourt i := by
      rw [List.getD_eq_getElem?_getD, hcs, Option.getD_some]
    rw [hgetD]
    have hname : jsOr (emptyCourt i).name s!"场地 {i + 1}" = s!"场地 {i + 1}" := jsOr_self _
    rw [hname]
    rfl

theorem foldl_applyStep_length (asg : List (Option GameMatch)) :
    ∀ (is : List Nat) (cs : List Court),
      (is.foldl (applyStep asg) cs).length = cs.length := by
  intro is
  induction is with
  | nil => intro cs; rfl
  | cons a as ih =>
    intro cs
    rw [List.foldl_cons, ih, applyStep_length]

theorem foldl_applyStep_getElem_ne (asg : List (Option GameMatch)) :
    ∀ (is : List Nat) (cs : List Court) (j : Nat), j ∉ is →
      (is.foldl (applyStep asg) cs)[j]? = cs[j]? := by
  intro is
  induction is with
  | nil => intro cs j _; rfl
  | cons a as ih =>
    intro cs j hj
    rw [List.foldl_cons, ih _ _ (fun h => hj (List.mem_cons_of_mem a h)),
      applyStep_getElem_ne]
    exact fun h => hj (h ▸ List.mem_cons_self a as)

theorem foldl_applyStep_getElem_mem (asg : List (Option GameMatch)) :
    ∀ (is : List Nat) (cs : List Court) (i : Nat), is.Nodup → i ∈ is →
      cs[i]? = some (emptyCourt i) →
      (is.foldl (applyStep asg) cs)[i]? =
        some (match asg.getD i none with
          | some m => playingCourt i m
          | none => emptyCourt i) := by
  intro is
  induction is with
  | nil => intro cs i _ hi; exact absurd hi (List.not_mem_nil i)
  | cons a as ih =>
    intro cs i hnd hi hcs
    rw [List.foldl_cons]
    rcases List.mem_cons.mp hi with rfl | hi'
    · rw [foldl_applyStep_getElem_ne _ _ _ _ (List.nodup_cons.mp hnd).1]
      exact applyStep_getElem_self _ _ _ hcs
    · have hne : a ≠ i := by
        rintro rfl
        exact (List.nodup_cons.mp hnd).1 hi'
      exact ih _ _ (List.nodup_cons.mp hnd).2 hi'
        (by rw [applyStep_getElem_ne _ _ hne]; exact hcs)

theorem applyAssignment_emptyCourts (cc : Nat) (asg : List (Option GameMatch)) :
    applyAssignment ((List.range cc).map emptyCourt) asg cc =
      (List.range cc).map fun i =>
        match asg.getD i none with
        | some m => playingCourt i m
        | none => emptyCourt i := by
  apply List.ext_getElem?
  intro n
  unfold applyAssignment
  by_cases hn : n < cc
  · have hinit : ((List.range cc).map emptyCourt)[n]? = some (emptyCourt n) := by
      rw [List.getElem?_map, List.getElem?_range hn, Option.map_some']
    have hrhs : ((List.range cc).map fun i =>
        match asg.getD i none with
        | some m => playingCourt i m
        | none => emptyCourt i)[n]? =
        some (match asg.getD n none with
          | some m => playingCourt n m
          | none => emptyCourt n) := by
      rw [List.getElem?_map, List.getElem?_range hn, Option.map_some']
    rw [hrhs]
    by_cases hmin : n < min asg.length cc
    · rw [foldl_applyStep_getElem_mem _ _ _ _ (List.nodup_range _)
        (List.mem_range.mpr hmin) hinit]
    · have hlen : asg.length ≤ n := by omega
      have hnone : asg.getD n none = none := by
        rw [List.getD_eq_getElem?_getD, List.getElem?_eq_none hlen, Option.getD_none]
      rw [foldl_applyStep_getElem_ne _ _ _ _ (by simpa using hmin), hinit, hnone]
  · have hlen1 : ((List.range (min asg.length cc)).foldl (applyStep asg)
        ((List.range cc).map emptyCourt)).length = cc := by
      rw [foldl_applyStep_length, List.length_map, List.length_range]
    rw [List.getElem?_eq_none (by omega), List.getElem?_eq_none (by simp; omega)]

theorem courtMatches_applyAssignment (cc : Nat) (asg : List (Option GameMatch)) :
    courtMatches (applyAssignment ((List.range cc).map emptyCourt) asg cc) =
      (List.range cc).filterMap fun i => asg.getD i none := by
  rw [applyAssignment_emptyCourts]
  unfold courtMatches
  rw [List.filterMap_map]
  apply List.filterMap_congr
  intro i _
  cases h : asg.getD i none with
  | none => rw [Function.comp_apply, h]; rfl
  | some m => rw [Function.comp_apply, h]; rfl

theorem fillEmptyCourts_eq :
    ∀ (n : Nat) (courts : List Court) (cc : Nat), cc - courts.length = n →
      fillEmptyCourts courts cc =
        courts ++ (List.range n).map (fun j => emptyCourt (courts.length + j)) := by
  intro n
  induction n with
  | zero =>
    intro courts cc h
    rw [fillEmptyCourts, dif_neg (by omega)]
    simp
  | succ n ih =>
    intro courts cc h
    rw [fillEmptyCourts, dif_pos (by omega)]
    rw [ih (courts ++ [emptyCourt courts.length]) cc (by simp; omega)]
    rw [List.append_assoc]
    congr 1
    rw [List.range_succ_eq_map, List.map_cons, List.map_map]
    simp only [List.singleton_append, Nat.add_zero, List.length_append, List.length_cons,
      List.length_nil]
    congr 1
    apply List.map_congr_left
    intro j _
    simp only [Function.comp_apply]
    congr 1
    omega

/-- Well-formedness of a court list: court `i` carries id `i + 1`, and every
court is either fully empty (`team1 = team2 = null`, status `'empty'`) or
fully occupied (both teams set, status `'playing'`). -/
def CourtsOk (cs : List Court) : Prop :=
  ∀ (i : Nat) (hi : i < cs.length),
    cs[i].id = i + 1 ∧
      ((cs[i].team1 = none ∧ cs[i].team2 = none ∧ cs[i].status = "empty") ∨
        (∃ t1 t2, cs[i].team1 = some t1 ∧ cs[i].team2 = some t2 ∧
          cs[i].status = "playing"))

theorem CourtsOk_mapEmpty (cc : Nat) : CourtsOk ((List.range cc).map emptyCourt) := by
  intro i hi
  have hi' : i < cc := by simpa using hi
  have : ((List.range cc).map emptyCourt)[i] = emptyCourt i := by
    rw [List.getElem_map, List.getElem_range]
  rw [this]
  exact ⟨rfl, Or.inl ⟨rfl, rfl, rfl⟩⟩

theorem courtIds_mapEmpty (cc : Nat) : courtIds ((List.range cc).map emptyCourt) = [] := by
  unfold courtIds
  rw [show ((List.range cc).map emptyCourt) =
    ((List.range cc).map (fun i => emptyCourt i)) from rfl,
    courtMatches_map_emptyCourt (f := fun i => i)]
  rfl

theorem courtMatches_cons (c : Court) (cs : List Court) (t1 t2 : Team)
    (h1 : c.team1 = some t1) (h2 : c.team2 = some t2) :
    courtMatches (c :: cs) = { team1 := t1, team2 := t2 } :: courtMatches cs := by
  unfold courtMatches
  rw [List.filterMap_cons, h1, h2]

theorem courtMatches_set_zero {cc : Nat} (c : Court) (t1 t2 : Team)
    (h1 : c.team1 = some t1) (h2 : c.team2 = some t2) (hcc : 0 < cc) :
    courtMatches (((List.range cc).map emptyCourt).set 0 c) =
      [{ team1 := t1, team2 := t2 }] := by
  cases cc with
  | zero => omega
  | succ k =>
    rw [List.range_succ_eq_map, List.map_cons]
    show courtMatches (c :: (List.map Nat.succ (List.range k)).map emptyCourt) = _
    rw [courtMatches_cons c _ t1 t2 h1 h2]
    rw [show courtMatches ((List.map Nat.succ (List.range k)).map emptyCourt) = [] from
      courtMatches_map_emptyCourt (List.map Nat.succ (List.range k)) (fun i => i)]

theorem CourtsOk_set_zero {cc : Nat} (c : Court) (t1 t2 : Team) (hid : c.id = 1)
    (h1 : c.team1 = some t1) (h2 : c.team2 = some t2) (hst : c.status = "playing") :
    CourtsOk (((List.range cc).map emptyCourt).set 0 c) := by
  intro i hi
  have hi' : i < cc := by simpa using hi
  by_cases h0 : i = 0
  · subst h0
    have hlen : (0 : Nat) < ((List.range cc).map emptyCourt).length := by simpa using hi'
    rw [show (((List.range cc).map emptyCourt).set 0 c)[0] = c from by
      rw [List.getElem_set_self]]
    exact ⟨hid, Or.inr ⟨t1, t2, h1, h2, hst⟩⟩
  · rw [List.getElem_set_ne (by omega)]
    exact CourtsOk_mapEmpty cc i (by simpa using hi')

theorem getD_replicate_none' (n i : Nat) :
    (List.replicate n (none : Option GameMatch)).getD i none = none := by
  rw [List.getD_eq_getElem?_getD]
  exact getD_replicate_none n i

theorem findBestGlobalAssignment_cases (players : List Participant) (cc : Nat)
    (w : List Weight) (all : List Participant) (rng : Rng) :
    findBestGlobalAssignment players cc w all rng = List.replicate cc none ∨
      ∃ A ∈ generateCourtAssignments (players.map (·.id))
        (min cc ((players.map (·.id)).length / 4)),
        findBestGlobalAssignment players cc w all rng =
          (scoreAssignment A players cc w all rng.rand).1 := by
  unfold findBestGlobalAssignment
  dsimp only
  split
  · exact Or.inl rfl
  · rcases hb : bestPairFold
        (fun assignment => scoreAssignment assignment players cc w all rng.rand)
        (generateCourtAssignments (players.map fun x => x.id)
          (min cc ((players.map fun x => x.id).length / 4))) with _ | ⟨bm, s⟩
    · exact Or.inl rfl
    · obtain ⟨A, hA, hEq⟩ := bestPairFold_mem hb
      exact Or.inr ⟨A, hA, congrArg Prod.fst hEq⟩

theorem mem_scoreStepMatch {A : List (List String)} {players : List Participant}
    {w : List Weight} {all : List Participant} {rand : Team → Team → ℝ} {i : Nat}
    {m : GameMatch} (hm : scoreStepMatch A players w all rand i = some m) :
    (A.getD i []).length = 4 ∧ matchPlayerIds m ⊆ A.getD i [] ∧
      ((A.getD i []).Nodup → (matchPlayerIds m).Nodup) := by
  unfold scoreStepMatch at hm
  dsimp only at hm
  split at hm
  · rename_i hlen
    refine ⟨hlen, ?_, ?_⟩
    · intro x hx
      exact ids_filterMap_find_subset players _
        (matchIds_subset_of_mem_combos (findBestTeamMatch_mem hm) hx)
    · intro hgnd
      exact matchIds_nodup_of_mem_combos (ids_filterMap_find_nodup players hgnd)
        (findBestTeamMatch_mem hm)
  · exact absurd hm (by simp)

/-- The conditional per-index match formula of a scored assignment. -/
noncomputable def scoredAt (A : List (List String)) (players : List Participant) (cc : Nat)
    (w : List Weight) (all : List Participant) (rand : Team → Team → ℝ) (i : Nat) :
    Option GameMatch :=
  if i < A.length ∧ i < cc then scoreStepMatch A players w all rand i else none

theorem scoreAssignment_getD_eq_scoredAt (A : List (List String))
    (players : List Participant) (cc : Nat) (w : List Weight) (all : List Participant)
    (rand : Team → Team → ℝ) (i : Nat) :
    ((scoreAssignment A players cc w all rand).1).getD i none =
      scoredAt A players cc w all rand i := by
  rw [List.getD_eq_getElem?_getD]
  exact scoreAssignment_fst_getD A players cc w all rand i

theorem scored_filterMap_spec {A : List (List String)} {players : List Participant}
    {cc : Nat} {w : List Weight} {all : List Participant} {rand : Team → Team → ℝ}
    (hgroups : ∀ g ∈ A, g ⊆ players.map (·.id) ∧ g.Nodup ∧ g.length = 4)
    (hdisj : A.Pairwise List.Disjoint) :
    (∀ m ∈ (List.range cc).filterMap (scoredAt A players cc w all rand),
      (matchPlayerIds m).Nodup ∧ matchPlayerIds m ⊆ players.map (·.id)) ∧
    (((List.range cc).filterMap (scoredAt A players cc w all rand)).flatMap
      matchPlayerIds).Nodup := by
  have hat : ∀ i m, scoredAt A players cc w all rand i = some m →
      i < A.length ∧ matchPlayerIds m ⊆ A.getD i [] ∧
        (matchPlayerIds m).Nodup ∧ matchPlayerIds m ⊆ players.map (·.id) := by
    intro i m hm
    unfold scoredAt at hm
    split at hm
    · rename_i hcond
      obtain ⟨hlen4, hsub, hnodup⟩ := mem_scoreStepMatch hm
      have hgetD : A.getD i [] = A.get ⟨i, hcond.1⟩ := List.getD_eq_getElem A [] hcond.1
      have hmem : A.get ⟨i, hcond.1⟩ ∈ A := List.get_mem A i hcond.1
      obtain ⟨hg1, hg2, _⟩ := hgroups _ hmem
      exact ⟨hcond.1, hsub, hnodup (by rw [hgetD]; exact hg2),
        fun x hx => hg1 (by rw [← hgetD]; exact hsub hx)⟩
    · exact absurd hm (by simp)
  constructor
  · intro m hm
    obtain ⟨i, _, hi⟩ := List.mem_filterMap.mp hm
    obtain ⟨_, _, hn, hs⟩ := hat i m hi
    exact ⟨hn, hs⟩
  · rw [List.nodup_flatMap]
    constructor
    · intro m hm
      obtain ⟨i, _, hi⟩ := List.mem_filterMap.mp hm
      exact (hat i m hi).2.2.1
    · refine pairwise_filterMap_of_pairwise _ (List.pairwise_lt_range cc) ?_
      intro a b hab x hx y hy
      obtain ⟨ha, hxa, _, _⟩ := hat a x hx
      obtain ⟨hb, hyb, _, _⟩ := hat b y hy
      have hABdisj : List.Disjoint (A.getD a []) (A.getD b []) := by
        rw [List.getD_eq_getElem A [] ha, List.getD_eq_getElem A [] hb]
        exact List.pairwise_iff_getElem.mp hdisj a b ha hb hab
      intro z hz1 hz2
      exact hABdisj (hxa hz1) (hyb hz2)

theorem applyAssignment_length (cs : List Court) (asg : List (Option GameMatch))
    (cc : Nat) : (applyAssignment cs asg cc).length = cs.length :=
  foldl_applyStep_length asg _ cs

theorem CourtsOk_mapScored (cc : Nat) (f : Nat → Option GameMatch) :
    CourtsOk ((List.range cc).map fun i =>
      match f i with
      | some m => playingCourt i m
      | none => emptyCourt i) := by
  intro i hi
  have hi' : i < cc := by simpa using hi
  have hget : ((List.range cc).map fun i =>
      match f i with
      | some m => playingCourt i m
      | none => emptyCourt i)[i] =
      (match f i with
        | some m => playingCourt i m
        | none => emptyCourt i) := by
    rw [List.getElem_map, List.getElem_range]
  rw [hget]
  cases f i with
  | none => exact ⟨rfl, Or.inl ⟨rfl, rfl, rfl⟩⟩
  | some m => exact ⟨rfl, Or.inr ⟨m.team1, m.team2, rfl, rfl, rfl⟩⟩

/-- Master well-formedness lemma for `assignPlayersToCourts`: it returns
exactly `courtCount` courts, each well-formed, with duplicate-free assigned
ids all drawn from the supplied players. -/
theorem assignPlayersToCourts_spec {players : List Participant} {cc : Nat}
    {w : List Weight} {all : List Participant} {rng : Rng}
    (hnd : (players.map (·.id)).Nodup) :
    (assignPlayersToCourts players cc w all rng).length = cc ∧
    CourtsOk (assignPlayersToCourts players cc w all rng) ∧
    (courtIds (assignPlayersToCourts players cc w all rng)).Nodup ∧
    courtIds (assignPlayersToCourts players cc w all rng) ⊆ players.map (·.id) := by
  unfold assignPlayersToCourts
  dsimp only
  split
  · exact ⟨by simp, CourtsOk_mapEmpty cc, by rw [courtIds_mapEmpty]; simp,
      by rw [courtIds_mapEmpty]; simp⟩
  · rename_i hlen4
    push_neg at hlen4
    split
    · rcases hbm : findBestTeamMatch players w all rng.rand with _ | bm
      · exact ⟨by simp, CourtsOk_mapEmpty cc, by rw [courtIds_mapEmpty]; simp,
          by rw [courtIds_mapEmpty]; simp⟩
      · by_cases hcc : 0 < cc
        · refine ⟨by simp, CourtsOk_set_zero _ bm.team1 bm.team2 rfl rfl rfl rfl, ?_, ?_⟩
          · unfold courtIds
            rw [courtMatches_set_zero _ bm.team1 bm.team2 rfl rfl hcc]
            have hm := findBestTeamMatch_mem hbm
            simpa [matchPlayerIds] using matchIds_nodup_of_mem_combos hnd hm
          · unfold courtIds
            rw [courtMatches_set_zero _ bm.team1 bm.team2 rfl rfl hcc]
            have hm := findBestTeamMatch_mem hbm
            intro x hx
            apply matchIds_subset_of_mem_combos hm
            simpa [matchPlayerIds] using hx
        · have hcc0 : cc = 0 := by omega
          subst hcc0
          refine ⟨by simp, ?_, ?_, ?_⟩
          · intro i hi
            simp at hi
          · simp [courtIds, courtMatches]
          · simp [courtIds, courtMatches]
    · rcases findBestGlobalAssignment_cases players cc w all rng with hrep | ⟨A, hA, hsc⟩
      · rw [hrep]
        have hmap : ((List.range cc).map fun i =>
            match (List.replicate cc (none : Option GameMatch)).getD i none with
            | some m => playingCourt i m
            | none => emptyCourt i) = (List.range cc).map emptyCourt :=
          List.map_congr_left (fun i _ => by rw [getD_replicate_none'])
        rw [applyAssignment_emptyCourts, hmap]
        exact ⟨by simp, CourtsOk_mapEmpty cc, by rw [courtIds_mapEmpty]; simp,
          by rw [courtIds_mapEmpty]; simp⟩
      · rw [hsc]
        have h4' : 4 ≤ (players.map (·.id)).length := by simpa using hlen4
        obtain ⟨hgroups, hdisj⟩ := generateCourtAssignments_spec hnd h4' A hA
        have hgroups' : ∀ g ∈ A, g ⊆ players.map (·.id) ∧ g.Nodup ∧ g.length = 4 :=
          hgroups
        have hcm : courtMatches (applyAssignment ((List.range cc).map emptyCourt)
            (scoreAssignment A players cc w all rng.rand).1 cc) =
            (List.range cc).filterMap (scoredAt A players cc w all rng.rand) := by
          rw [courtMatches_applyAssignment]
          exact List.filterMap_congr
            (fun i _ => scoreAssignment_getD_eq_scoredAt A players cc w all rng.rand i)
        obtain ⟨hmems, hflat⟩ := @scored_filterMap_spec A players cc w all rng.rand hgroups' hdisj
        refine ⟨by rw [applyAssignment_length]; simp, ?_, ?_, ?_⟩
        · rw [applyAssignment_emptyCourts]
          exact CourtsOk_mapScored cc _
        · unfold courtIds
          rw [hcm]
          exact hflat
        · unfold courtIds
          rw [hcm]
          intro x hx
          obtain ⟨m, hm, hxm⟩ := List.mem_flatMap.mp hx
          exact (hmems m hm).2 hxm

theorem fillEmptyCourts_length (courts : List Court) (cc : Nat) :
    (fillEmptyCourts courts cc).length = max cc courts.length := by
  rw [fillEmptyCourts_eq (cc - courts.length) courts cc rfl]
  simp
  omega

theorem courtMatches_fillEmptyCourts (courts : List Court) (cc : Nat) :
    courtMatches (fillEmptyCourts courts cc) = courtMatches courts := by
  rw [fillEmptyCourts_eq (cc - courts.length) courts cc rfl, courtMatches_append,
    courtMatches_map_emptyCourt]
  simp

theorem courtIds_fillEmptyCourts (courts : List Court) (cc : Nat) :
    courtIds (fillEmptyCourts courts cc) = courtIds courts := by
  unfold courtIds
  rw [courtMatches_fillEmptyCourts]

theorem CourtsOk_fillEmptyCourts {courts : List Court} (cc : Nat) (h : CourtsOk courts) :
    CourtsOk (fillEmptyCourts courts cc) := by
  rw [fillEmptyCourts_eq (cc - courts.length) courts cc rfl]
  intro i hi
  by_cases hlt : i < courts.length
  · rw [List.getElem_append_left hlt]
    exact h i hlt
  · have hlen : i < courts.length + (cc - courts.length) := by simpa using hi
    rw [List.getElem_append_right (by omega)]
    have hidx : i - courts.length <
        ((List.range (cc - courts.length)).map
          (fun j => emptyCourt (courts.length + j))).length := by
      simp
      omega
    have hval : ((List.range (cc - courts.length)).map
        (fun j => emptyCourt (courts.length + j)))[i - courts.length] =
        emptyCourt (courts.length + (i - courts.length)) := by
      rw [List.getElem_map, List.getElem_range]
    rw [hval]
    have harith : courts.length + (i - courts.length) = i := by omega
    rw [harith]
    exact ⟨rfl, Or.inl ⟨rfl, rfl, rfl⟩⟩

/-- Top-level invariant of `generateQueueWithSupplement`: the queue's player
ids are duplicate-free, every one of them belongs to the remaining or the
playing players, and when at least 8 players remain no playing player is
borrowed. -/
theorem generateQueueWithSupplement_spec {remaining playing : List Participant}
    {cc : Nat} {w : List Weight} {allp : List Participant} {rng : Rng} (hval : rng.Valid)
    (hnd : ((remaining ++ playing).map (·.id)).Nodup) :
    ((generateQueueWithSupplement remaining playing cc w allp rng).flatMap
      matchPlayerIds).Nodup ∧
    (∀ x ∈ (generateQueueWithSupplement remaining playing cc w allp rng).flatMap
      matchPlayerIds, x ∈ remaining.map (·.id) ∨ x ∈ playing.map (·.id)) ∧
    (8 ≤ remaining.length →
      ∀ x ∈ (generateQueueWithSupplement remaining playing cc w allp rng).flatMap
        matchPlayerIds, x ∈ remaining.map (·.id)) := by
  have hrnd : (remaining.map (·.id)).Nodup := by
    rw [List.map_append, List.nodup_append] at hnd
    exact hnd.1
  have hpnd : (playing.map (·.id)).Nodup := by
    rw [List.map_append, List.nodup_append] at hnd
    exact hnd.2.1
  have hdisj : List.Disjoint (remaining.map (·.id)) (playing.map (·.id)) := by
    rw [List.map_append, List.nodup_append] at hnd
    exact hnd.2.2
  unfold generateQueueWithSupplement
  dsimp only
  by_cases hshort : remaining.length < 2 * 4
  · rw [if_pos hshort]
    set supp := (rng.sortSupp playing).take (2 * 4 - remaining.length) with hsupp
    have hsupp_sub : ∀ p ∈ supp, p ∈ playing := by
      intro p hp
      exact ((hval.2.1 playing).mem_iff).mp (List.take_subset _ _ hp)
    have hsupp_nd : (supp.map (·.id)).Nodup := by
      rw [hsupp, List.map_take]
      exact (List.take_sublist _ _).nodup
        ((((hval.2.1 playing).map (·.id))).nodup_iff.mpr hpnd)
    have hcand_nd : ((remaining ++ supp).map (·.id)).Nodup := by
      rw [List.map_append, List.nodup_append]
      refine ⟨hrnd, hsupp_nd, ?_⟩
      intro x hx1 hx2
      obtain ⟨p, hp, hpx⟩ := List.mem_map.mp hx2
      exact hdisj hx1 (List.mem_map.mpr ⟨p, hsupp_sub p hp, hpx⟩)
    obtain ⟨hsub, hnodup⟩ := buildQueue_invariant hval hcand_nd 2 []
    refine ⟨hnodup, ?_, ?_⟩
    · intro x hx
      obtain ⟨hxc, _⟩ := hsub x hx
      rw [List.map_append, List.mem_append] at hxc
      rcases hxc with hxr | hxs
      · exact Or.inl hxr
      · obtain ⟨p, hp, hpx⟩ := List.mem_map.mp hxs
        exact Or.inr (List.mem_map.mpr ⟨p, hsupp_sub p hp, hpx⟩)
    · intro h8
      omega
  · rw [if_neg hshort]
    obtain ⟨hsub, hnodup⟩ := buildQueue_invariant hval hrnd 2 []
    exact ⟨hnodup, fun x hx => Or.inl (hsub x hx).1, fun _ x hx => (hsub x hx).1⟩

/-! ## Lemmas: `generateOptimalTeams` -/

/-- All queue player ids of an assignment result. -/
def queueIds (r : TeamAssignmentResult) : List String :=
  r.queue.flatMap matchPlayerIds

/-- Master invariant of `generateOptimalTeams`: `courtCount` well-formed
courts, duplicate-free court ids, duplicate-free queue ids, all assigned ids
drawn from the non-left participants, and — when at least 8 eligible players
remain beyond the playing pool — court and queue ids disjoint. -/
theorem generateOptimalTeams_spec {P : List Participant} {cc : Nat} {w : List Weight}
    {rng : Rng} (hval : rng.Valid) (hnd : (P.map (·.id)).Nodup) :
    (generateOptimalTeams P cc w rng).courts.length = cc ∧
    CourtsOk (generateOptimalTeams P cc w rng).courts ∧
    (courtIds (generateOptimalTeams P cc w rng).courts).Nodup ∧
    (queueIds (generateOptimalTeams P cc w rng)).Nodup ∧
    (∀ x ∈ courtIds (generateOptimalTeams P cc w rng).courts,
      x ∈ (P.filter (fun p => !p.hasLeft)).map (·.id)) ∧
    (∀ x ∈ queueIds (generateOptimalTeams P cc w rng),
      x ∈ (P.filter (fun p => !p.hasLeft)).map (·.id)) ∧
    (8 ≤ (P.filter (fun p => !p.hasLeft)).length -
        4 * min cc ((P.filter (fun p => !p.hasLeft)).length / 4) →
      List.Disjoint (courtIds (generateOptimalTeams P cc w rng).courts)
        (queueIds (generateOptimalTeams P cc w rng))) := by
  unfold generateOptimalTeams queueIds
  dsimp only
  split
  · refine ⟨by simp, CourtsOk_mapEmpty cc, ?_, ?_, ?_, ?_, ?_⟩ <;>
      simp [courtIds_mapEmpty]
  · rename_i h4
    set A := P.filter (fun p => !p.hasLeft) with hA
    set S := rng.sortMain A with hS
    have hSperm : S.Perm A := hval.1 A
    have hAnd : (A.map (·.id)).Nodup := ((P.filter_sublist).map _).nodup hnd
    have hSnd : (S.map (·.id)).Nodup := ((hSperm.map _).nodup_iff).mpr hAnd
    have hSlen : S.length = A.length := hSperm.length_eq
    set pc := min cc (S.length / 4) * 4 with hpc
    set playing := S.take pc with hplay
    set remaining := S.drop pc with hrem
    have hsplitS : playing.map (·.id) ++ remaining.map (·.id) = S.map (·.id) := by
      rw [← List.map_append, hplay, hrem, List.take_append_drop]
    have hpr := List.nodup_append.mp (hsplitS ▸ hSnd)
    obtain ⟨hpnd, hrnd, hprdisj⟩ := hpr
    have hrpnd : ((remaining ++ playing).map (·.id)).Nodup := by
      have hperm : ((remaining ++ playing).map (·.id)).Perm
          (playing.map (·.id) ++ remaining.map (·.id)) := by
        rw [List.map_append]
        exact List.perm_append_comm
      exact (hperm.nodup_iff).mpr (hsplitS ▸ hSnd)
    obtain ⟨hqnd, hqsub, hqstrict⟩ :=
      @generateQueueWithSupplement_spec remaining playing cc w P rng hval hrpnd
    obtain ⟨hclen, hcok, hcnd, hcsub⟩ :=
      @assignPlayersToCourts_spec playing ((pc + 3) / 4) w P rng hpnd
    have hact : (pc + 3) / 4 ≤ cc := by
      have hmin : min cc (S.length / 4) ≤ cc := Nat.min_le_left _ _
      omega
    have hsubS : ∀ x, x ∈ S.map (·.id) → x ∈ A.map (·.id) :=
      fun x hx => ((hSperm.map (·.id)).mem_iff).mp hx
    have hplaysub : ∀ x ∈ playing.map (·.id), x ∈ A.map (·.id) := by
      intro x hx
      apply hsubS
      rw [← hsplitS]
      exact List.mem_append_left _ hx
    have hremsub : ∀ x ∈ remaining.map (·.id), x ∈ A.map (·.id) := by
      intro x hx
      apply hsubS
      rw [← hsplitS]
      exact List.mem_append_right _ hx
    refine ⟨?_, ?_, ?_, ?_, ?_, ?_, ?_⟩
    · rw [fillEmptyCourts_length, hclen]
      omega
    · exact CourtsOk_fillEmptyCourts cc hcok
    · rw [courtIds_fillEmptyCourts]
      exact hcnd
    · exact hqnd
    · intro x hx
      rw [courtIds_fillEmptyCourts] at hx
      exact hplaysub x (hcsub hx)
    · intro x hx
      rcases hqsub x hx with hxr | hxp
      · exact hremsub x hxr
      · exact hplaysub x hxp
    · intro h8
      have hrlen : 8 ≤ remaining.length := by
        rw [hrem, List.length_drop, hSlen]
        rw [hSlen] at hpc
        omega
      intro x hxc hxq
      rw [courtIds_fillEmptyCourts] at hxc
      exact hprdisj (hcsub hxc) (hqstrict hrlen x hxq)

/-! ## Lemmas: the stats updater -/

/-- The effect on one participant of a `find`-and-mutate step targeted at
id `pid`. -/
def updOne (pid : String) (f : Participant → Participant) (p : Participant) : Participant :=
  if p.id = pid then f p else p

/-- The sixteen targeted mutations `updatePlayerStats` performs, in source
order: four `gamesPlayed` bumps, four teammate bumps, eight opponent
bumps. -/
def updsOf (m : GameMatch) : List (String × (Participant → Participant)) :=
  [(m.team1.player1, bumpGames), (m.team1.player2, bumpGames),
   (m.team2.player1, bumpGames), (m.team2.player2, bumpGames),
   (m.team1.player1, bumpTeammate m.team1.player2),
   (m.team1.player2, bumpTeammate m.team1.player1),
   (m.team2.player1, bumpTeammate m.team2.player2),
   (m.team2.player2, bumpTeammate m.team2.player1),
   (m.team1.player1, bumpOpponent m.team2.player1),
   (m.team2.player1, bumpOpponent m.team1.player1),
   (m.team1.player1, bumpOpponent m.team2.player2),
   (m.team2.player2, bumpOpponent m.team1.player1),
   (m.team1.player2, bumpOpponent m.team2.player1),
   (m.team2.player1, bumpOpponent m.team1.player2),
   (m.team1.player2, bumpOpponent m.team2.player2),
   (m.team2.player2, bumpOpponent m.team1.player2)]

/-- The final rest-round step of `updatePlayerStats` applied to one record. -/
def restStep (m : GameMatch) (q : Participant) : Participant :=
  if !(matchPlayerIds m).contains q.id && q.status != "away" then
    { q with restRounds := q.restRounds + 1 }
  else q

/-- The per-participant effect of `updatePlayerStats` on a roster with
pairwise-distinct ids. -/
def updEffect (m : GameMatch) (p : Participant) : Participant :=
  restStep m ((updsOf m).foldl (fun p u => updOne u.1 u.2 p) p)

theorem updOne_id {pid : String} {f : Participant → Participant}
    (hf : ∀ p, (f p).id = p.id) (p : Participant) : (updOne pid f p).id = p.id := by
  unfold updOne
  split
  · exact hf p
  · rfl

theorem updsOf_id (m : GameMatch) : ∀ u ∈ updsOf m, ∀ p : Participant,
    (u.2 p).id = p.id := by
  intro u hu p
  simp only [updsOf, List.mem_cons, List.not_mem_nil, or_false] at hu
  rcases hu with rfl | rfl | rfl | rfl | rfl | rfl | rfl | rfl | rfl | rfl | rfl | rfl |
    rfl | rfl | rfl | rfl <;> rfl

theorem updateFirst_eq_map {ps : List Participant} {pid : String}
    {f : Participant → Participant} (hnd : (ps.map (·.id)).Nodup) :
    updateFirst ps pid f = ps.map (updOne pid f) := by
  induction ps with
  | nil => rfl
  | cons p tl ih =>
    rw [List.map_cons, List.nodup_cons] at hnd
    unfold updateFirst
    by_cases hp : p.id = pid
    · rw [if_pos hp, List.map_cons]
      have h1 : updOne pid f p = f p := by unfold updOne; rw [if_pos hp]
      have h2 : tl.map (updOne pid f) = tl := by
        have h2a : tl.map (updOne pid f) = tl.map (fun q => q) := by
          apply List.map_congr_left
          intro q hq
          have hq' : q.id ≠ pid := by
            intro hEq
            exact hnd.1 (hp ▸ hEq ▸ List.mem_map.mpr ⟨q, hq, rfl⟩)
          unfold updOne
          rw [if_neg hq']
        rw [h2a]
        exact List.map_id' tl
      rw [h1, h2]
    · rw [if_neg hp, ih hnd.2, List.map_cons]
      have h1 : updOne pid f p = p := by unfold updOne; rw [if_neg hp]
      rw [h1]

theorem updateFirst_chain :
    ∀ (upds : List (String × (Participant → Participant))) (ps : List Participant),
      (∀ u ∈ upds, ∀ p : Participant, (u.2 p).id = p.id) → (ps.map (·.id)).Nodup →
      upds.foldl (fun ps u => updateFirst ps u.1 u.2) ps =
        ps.map (fun p => upds.foldl (fun p u => updOne u.1 u.2 p) p) := by
  intro upds
  induction upds with
  | nil =>
    intro ps _ _
    simp
  | cons u us ih =>
    intro ps hid hnd
    rw [List.foldl_cons, updateFirst_eq_map hnd]
    have hids : ((ps.map (updOne u.1 u.2)).map (·.id)) = ps.map (·.id) := by
      rw [List.map_map]
      apply List.map_congr_left
      intro p _
      exact updOne_id (hid u (List.mem_cons_self u us)) p
    rw [ih _ (fun v hv => hid v (List.mem_cons_of_mem u hv)) (by rw [hids]; exact hnd),
      List.map_map]
    apply List.map_congr_left
    intro p _
    rw [Function.comp_apply, List.foldl_cons]

set_option maxHeartbeats 1600000 in
/-- On a duplicate-free roster, `updatePlayerStats` acts pointwise. -/
theorem updatePlayerStats_eq_map {ps : List Participant} {m : GameMatch}
    (hnd : (ps.map (·.id)).Nodup) :
    updatePlayerStats ps m = ps.map (updEffect m) := by
  have hstep : updatePlayerStats ps m =
      ((updsOf m).foldl (fun ps u => updateFirst ps u.1 u.2) ps).map fun q =>
        if !(matchPlayerIds m).contains q.id && q.status != "away" then
          { q with restRounds := q.restRounds + 1 }
        else q := by
    unfold updatePlayerStats updateTeammateStats updateOpponentStats updsOf matchPlayerIds
    simp only [List.foldl_cons, List.foldl_nil]
  rw [hstep, updateFirst_chain (updsOf m) ps (updsOf_id m) hnd, List.map_map]
  apply List.map_congr_left
  intro p _
  rw [Function.comp_apply]
  rfl

theorem updOne_hit {pid : String} {f : Participant → Participant} {p : Participant}
    (h : p.id = pid) : updOne pid f p = f p := by
  unfold updOne
  rw [if_pos h]

theorem updOne_miss {pid : String} {f : Participant → Participant} {p : Participant}
    (h : p.id ≠ pid) : updOne pid f p = p := by
  unfold updOne
  rw [if_neg h]

theorem matchIds_nodup_iff (m : GameMatch) :
    (matchPlayerIds m).Nodup ↔
      m.team1.player1 ≠ m.team1.player2 ∧ m.team1.player1 ≠ m.team2.player1 ∧
      m.team1.player1 ≠ m.team2.player2 ∧ m.team1.player2 ≠ m.team2.player1 ∧
      m.team1.player2 ≠ m.team2.player2 ∧ m.team2.player1 ≠ m.team2.player2 := by
  simp only [matchPlayerIds, List.nodup_cons, List.mem_cons, List.not_mem_nil, or_false,
    List.nodup_nil, and_true, not_or]
  tauto

theorem foldl_updOne_id (us : List (String × (Participant → Participant)))
    (hid : ∀ u ∈ us, ∀ p : Participant, (u.2 p).id = p.id) :
    ∀ p : Participant, ((us.foldl (fun p u => updOne u.1 u.2 p) p)).id = p.id := by
  induction us with
  | nil => intro p; rfl
  | cons u us ih =>
    intro p
    rw [List.foldl_cons, ih (fun v hv => hid v (List.mem_cons_of_mem u hv)),
      updOne_id (hid u (List.mem_cons_self u us))]

theorem restStep_id (m : GameMatch) (q : Participant) : (restStep m q).id = q.id := by
  unfold restStep
  split <;> rfl

theorem updEffect_id (m : GameMatch) (p : Participant) : (updEffect m p).id = p.id := by
  unfold updEffect
  rw [restStep_id]
  exact foldl_updOne_id (updsOf m) (updsOf_id m) p

/-- Effect of the stat update on the `team1.player1` record. -/
theorem updEffect_t1p1 {m : GameMatch} {p : Participant}
    (hm : (matchPlayerIds m).Nodup) (hp : p.id = m.team1.player1) :
    updEffect m p = bumpOpponent m.team2.player2 (bumpOpponent m.team2.player1 (bumpTeammate m.team1.player2 (bumpGames (p)))) := by
  obtain ⟨hab, hac, had, hbc, hbd, hcd⟩ := (matchIds_nodup_iff m).mp hm
  have hq : (updsOf m).foldl (fun p u => updOne u.1 u.2 p) p = bumpOpponent m.team2.player2 (bumpOpponent m.team2.player1 (bumpTeammate m.team1.player2 (bumpGames (p)))) := by
    simp only [updsOf, List.foldl_cons, List.foldl_nil]
    rw [updOne_hit (show (p).id = m.team1.player1 from hp),
      updOne_miss (show (bumpGames (p)).id ≠ m.team1.player2 from fun hEq => hab (hp.symm.trans hEq)),
      updOne_miss (show (bumpGames (p)).id ≠ m.team2.player1 from fun hEq => hac (hp.symm.trans hEq)),
      updOne_miss (show (bumpGames (p)).id ≠ m.team2.player2 from fun hEq => had (hp.symm.trans hEq)),
      updOne_hit (show (bumpGames (p)).id = m.team1.player1 from hp),
      updOne_miss (show (bumpTeammate m.team1.player2 (bumpGames (p))).id ≠ m.team1.player2 from fun hEq => hab (hp.symm.trans hEq)),
      updOne_miss (show (bumpTeammate m.team1.player2 (bumpGames (p))).id ≠ m.team2.player1 from fun hEq => hac (hp.symm.trans hEq)),
      updOne_miss (show (bumpTeammate m.team1.player2 (bumpGames (p))).id ≠ m.team2.player2 from fun hEq => had (hp.symm.trans hEq)),
      updOne_hit (show (bumpTeammate m.team1.player2 (bumpGames (p))).id = m.team1.player1 from hp),
      updOne_miss (show (bumpOpponent m.team2.player1 (bumpTeammate m.team1.player2 (bumpGames (p)))).id ≠ m.team2.player1 from fun hEq => hac (hp.symm.trans hEq)),
      updOne_hit (show (bumpOpponent m.team2.player1 (bumpTeammate m.team1.player2 (bumpGames (p)))).id = m.team1.player1 from hp),
      updOne_miss (show (bumpOpponent m.team2.player2 (bumpOpponent m.team2.player1 (bumpTeammate m.team1.player2 (bumpGames (p))))).id ≠ m.team2.player2 from fun hEq => had (hp.symm.trans hEq)),
      updOne_miss (show (bumpOpponent m.team2.player2 (bumpOpponent m.team2.player1 (bumpTeammate m.team1.player2 (bumpGames (p))))).id ≠ m.team1.player2 from fun hEq => hab (hp.symm.trans hEq)),
      updOne_miss (show (bumpOpponent m.team2.player2 (bumpOpponent m.team2.player1 (bumpTeammate m.team1.player2 (bumpGames (p))))).id ≠ m.team2.player1 from fun hEq => hac (hp.symm.trans hEq)),
      updOne_miss (show (bumpOpponent m.team2.player2 (bumpOpponent m.team2.player1 (bumpTeammate m.team1.player2 (bumpGames (p))))).id ≠ m.team1.player2 from fun hEq => hab (hp.symm.trans hEq)),
      updOne_miss (show (bumpOpponent m.team2.player2 (bumpOpponent m.team2.player1 (bumpTeammate m.team1.player2 (bumpGames (p))))).id ≠ m.team2.player2 from fun hEq => had (hp.symm.trans hEq))]
  unfold updEffect
  rw [hq]
  unfold restStep
  have hcontains : (matchPlayerIds m).contains ((bumpOpponent m.team2.player2 (bumpOpponent m.team2.player1 (bumpTeammate m.team1.player2 (bumpGames (p))))).id) = true := by
    show (matchPlayerIds m).contains p.id = true
    simp [matchPlayerIds, hp]
  rw [hcontains]
  simp

/-- Effect of the stat update on the `team1.player2` record. -/
theorem updEffect_t1p2 {m : GameMatch} {p : Participant}
    (hm : (matchPlayerIds m).Nodup) (hp : p.id = m.team1.player2) :
    updEffect m p = bumpOpponent m.team2.player2 (bumpOpponent m.team2.player1 (bumpTeammate m.team1.player1 (bumpGames (p)))) := by
  obtain ⟨hab, hac, had, hbc, hbd, hcd⟩ := (matchIds_nodup_iff m).mp hm
  have hq : (updsOf m).foldl (fun p u => updOne u.1 u.2 p) p = bumpOpponent m.team2.player2 (bumpOpponent m.team2.player1 (bumpTeammate m.team1.player1 (bumpGames (p)))) := by
    simp only [updsOf, List.foldl_cons, List.foldl_nil]
    rw [updOne_miss (show (p).id ≠ m.team1.player1 from fun hEq => (Ne.symm hab) (hp.symm.trans hEq)),
      updOne_hit (show (p).id = m.team1.player2 from hp),
      updOne_miss (show (bumpGames (p)).id ≠ m.team2.player1 from fun hEq => hbc (hp.symm.trans hEq)),
      updOne_miss (show (bumpGames (p)).id ≠ m.team2.player2 from fun hEq => hbd (hp.symm.trans hEq)),
      updOne_miss (show (bumpGames (p)).id ≠ m.team1.player1 from fun hEq => (Ne.symm hab) (hp.symm.trans hEq)),
      updOne_hit (show (bumpGames (p)).id = m.team1.player2 from hp),
      updOne_miss (show (bumpTeammate m.team1.player1 (bumpGames (p))).id ≠ m.team2.player1 from fun hEq => hbc (hp.symm.trans hEq)),
      updOne_miss (show (bumpTeammate m.team1.player1 (bumpGames (p))).id ≠ m.team2.player2 from fun hEq => hbd (hp.symm.trans hEq)),
      updOne_miss (show (bumpTeammate m.team1.player1 (bumpGames (p))).id ≠ m.team1.player1 from fun hEq => (Ne.symm hab) (hp.symm.trans hEq)),
      updOne_miss (show (bumpTeammate m.team1.player1 (bumpGames (p))).id ≠ m.team2.player1 from fun hEq => hbc (hp.symm.trans hEq)),
      updOne_miss (show (bumpTeammate m.team1.player1 (bumpGames (p))).id ≠ m.team1.player1 from fun hEq => (Ne.symm hab) (hp.symm.trans hEq)),
      updOne_miss (show (bumpTeammate m.team1.player1 (bumpGames (p))).id ≠ m.team2.player2 from fun hEq => hbd (hp.symm.trans hEq)),
      updOne_hit (show (bumpTeammate m.team1.player1 (bumpGames (p))).id = m.team1.player2 from hp),
      updOne_miss (show (bumpOpponent m.team2.player1 (bumpTeammate m.team1.player1 (bumpGames (p)))).id ≠ m.team2.player1 from fun hEq => hbc (hp.symm.trans hEq)),
      updOne_hit (show (bumpOpponent m.team2.player1 (bumpTeammate m.team1.player1 (bumpGames (p)))).id = m.team1.player2 from hp),
      updOne_miss (show (bumpOpponent m.team2.player2 (bumpOpponent m.team2.player1 (bumpTeammate m.team1.player1 (bumpGames (p))))).id ≠ m.team2.player2 from fun hEq => hbd (hp.symm.trans hEq))]
  unfold updEffect
  rw [hq]
  unfold restStep
  have hcontains : (matchPlayerIds m).contains ((bumpOpponent m.team2.player2 (bumpOpponent m.team2.player1 (bumpTeammate m.team1.player1 (bumpGames (p))))).id) = true := by
    show (matchPlayerIds m).contains p.id = true
    simp [matchPlayerIds, hp]
  rw [hcontains]
  simp

/-- Effect of the stat update on the `team2.player1` record. -/
theorem updEffect_t2p1 {m : GameMatch} {p : Participant}
    (hm : (matchPlayerIds m).Nodup) (hp : p.id = m.team2.player1) :
    updEffect m p = bumpOpponent m.team1.player2 (bumpOpponent m.team1.player1 (bumpTeammate m.team2.player2 (bumpGames (p)))) := by
  obtain ⟨hab, hac, had, hbc, hbd, hcd⟩ := (matchIds_nodup_iff m).mp hm
  have hq : (updsOf m).foldl (fun p u => updOne u.1 u.2 p) p = bumpOpponent m.team1.player2 (bumpOpponent m.team1.player1 (bumpTeammate m.team2.player2 (bumpGames (p)))) := by
    simp only [updsOf, List.foldl_cons, List.foldl_nil]
    rw [updOne_miss (show (p).id ≠ m.team1.player1 from fun hEq => (Ne.symm hac) (hp.symm.trans hEq)),
      updOne_miss (show (p).id ≠ m.team1.player2 from fun hEq => (Ne.symm hbc) (hp.symm.trans hEq)),
      updOne_hit (show (p).id = m.team2.player1 from hp),
      updOne_miss (show (bumpGames (p)).id ≠ m.team2.player2 from fun hEq => hcd (hp.symm.trans hEq)),
      updOne_miss (show (bumpGames (p)).id ≠ m.team1.player1 from fun hEq => (Ne.symm hac) (hp.symm.trans hEq)),
      updOne_miss (show (bumpGames (p)).id ≠ m.team1.player2 from fun hEq => (Ne.symm hbc) (hp.symm.trans hEq)),
      updOne_hit (show (bumpGames (p)).id = m.team2.player1 from hp),
      updOne_miss (show (bumpTeammate m.team2.player2 (bumpGames (p))).id ≠ m.team2.player2 from fun hEq => hcd (hp.symm.trans hEq)),
      updOne_miss (show (bumpTeammate m.team2.player2 (bumpGames (p))).id ≠ m.team1.player1 from fun hEq => (Ne.symm hac) (hp.symm.trans hEq)),
      updOne_hit (show (bumpTeammate m.team2.player2 (bumpGames (p))).id = m.team2.player1 from hp),
      updOne_miss (show (bumpOpponent m.team1.player1 (bumpTeammate m.team2.player2 (bumpGames (p)))).id ≠ m.team1.player1 from fun hEq => (Ne.symm hac) (hp.symm.trans hEq)),
      updOne_miss (show (bumpOpponent m.team1.player1 (bumpTeammate m.team2.player2 (bumpGames (p)))).id ≠ m.team2.player2 from fun hEq => hcd (hp.symm.trans hEq)),
      updOne_miss (show (bumpOpponent m.team1.player1 (bumpTeammate m.team2.player2 (bumpGames (p)))).id ≠ m.team1.player2 from fun hEq => (Ne.symm hbc) (hp.symm.trans hEq)),
      updOne_hit (show (bumpOpponent m.team1.player1 (bumpTeammate m.team2.player2 (bumpGames (p)))).id = m.team2.player1 from hp),
      updOne_miss (show (bumpOpponent m.team1.player2 (bumpOpponent m.team1.player1 (bumpTeammate m.team2.player2 (bumpGames (p))))).id ≠ m.team1.player2 from fun hEq => (Ne.symm hbc) (hp.symm.trans hEq)),
      updOne_miss (show (bumpOpponent m.team1.player2 (bumpOpponent m.team1.player1 (bumpTeammate m.team2.player2 (bumpGames (p))))).id ≠ m.team2.player2 from fun hEq => hcd (hp.symm.trans hEq))]
  unfold updEffect
  rw [hq]
  unfold restStep
  have hcontains : (matchPlayerIds m).contains ((bumpOpponent m.team1.player2 (bumpOpponent m.team1.player1 (bumpTeammate m.team2.player2 (bumpGames (p))))).id) = true := by
    show (matchPlayerIds m).contains p.id = true
    simp [matchPlayerIds, hp]
  rw [hcontains]
  simp

/-- Effect of the stat update on the `team2.player2` record. -/
theorem updEffect_t2p2 {m : GameMatch} {p : Participant}
    (hm : (matchPlayerIds m).Nodup) (hp : p.id = m.team2.player2) :
    updEffect m p = bumpOpponent m.team1.player2 (bumpOpponent m.team1.player1 (bumpTeammate m.team2.player1 (bumpGames (p)))) := by
  obtain ⟨hab, hac, had, hbc, hbd, hcd⟩ := (matchIds_nodup_iff m).mp hm
  have hq : (updsOf m).foldl (fun p u => updOne u.1 u.2 p) p = bumpOpponent m.team1.player2 (bumpOpponent m.team1.player1 (bumpTeammate m.team2.player1 (bumpGames (p)))) := by
    simp only [updsOf, List.foldl_cons, List.foldl_nil]
    rw [updOne_miss (show (p).id ≠ m.team1.player1 from fun hEq => (Ne.symm had) (hp.symm.trans hEq)),
      updOne_miss (show (p).id ≠ m.team1.player2 from fun hEq => (Ne.symm hbd) (hp.symm.trans hEq)),
      updOne_miss (show (p).id ≠ m.team2.player1 from fun hEq => (Ne.symm hcd) (hp.symm.trans hEq)),
      updOne_hit (show (p).id = m.team2.player2 from hp),
      updOne_miss (show (bumpGames (p)).id ≠ m.team1.player1 from fun hEq => (Ne.symm had) (hp.symm.trans hEq)),
      updOne_miss (show (bumpGames (p)).id ≠ m.team1.player2 from fun hEq => (Ne.symm hbd) (hp.symm.trans hEq)),
      updOne_miss (show (bumpGames (p)).id ≠ m.team2.player1 from fun hEq => (Ne.symm hcd) (hp.symm.trans hEq)),
      updOne_hit (show (bumpGames (p)).id = m.team2.player2 from hp),
      updOne_miss (show (bumpTeammate m.team2.player1 (bumpGames (p))).id ≠ m.team1.player1 from fun hEq => (Ne.symm had) (hp.symm.trans hEq)),
      updOne_miss (show (bumpTeammate m.team2.player1 (bumpGames (p))).id ≠ m.team2.player1 from fun hEq => (Ne.symm hcd) (hp.symm.trans hEq)),
      updOne_miss (show (bumpTeammate m.team2.player1 (bumpGames (p))).id ≠ m.team1.player1 from fun hEq => (Ne.symm had) (hp.symm.trans hEq)),
      updOne_hit (show (bumpTeammate m.team2.player1 (bumpGames (p))).id = m.team2.player2 from hp),
      updOne_miss (show (bumpOpponent m.team1.player1 (bumpTeammate m.team2.player1 (bumpGames (p)))).id ≠ m.team1.player2 from fun hEq => (Ne.symm hbd) (hp.symm.trans hEq)),
      updOne_miss (show (bumpOpponent m.team1.player1 (bumpTeammate m.team2.player1 (bumpGames (p)))).id ≠ m.team2.player1 from fun hEq => (Ne.symm hcd) (hp.symm.trans hEq)),
      updOne_miss (show (bumpOpponent m.team1.player1 (bumpTeammate m.team2.player1 (bumpGames (p)))).id ≠ m.team1.player2 from fun hEq => (Ne.symm hbd) (hp.symm.trans hEq)),
      updOne_hit (show (bumpOpponent m.team1.player1 (bumpTeammate m.team2.player1 (bumpGames (p)))).id = m.team2.player2 from hp)]
  unfold updEffect
  rw [hq]
  unfold restStep
  have hcontains : (matchPlayerIds m).contains ((bumpOpponent m.team1.player2 (bumpOpponent m.team1.player1 (bumpTeammate m.team2.player1 (bumpGames (p))))).id) = true := by
    show (matchPlayerIds m).contains p.id = true
    simp [matchPlayerIds, hp]
  rw [hcontains]
  simp

/-- Effect of the stat update on a participant not in the match. -/
theorem updEffect_other {m : GameMatch} {p : Participant}
    (hp : p.id ∉ matchPlayerIds m) :
    updEffect m p =
      (if p.status = "away" then p else { p with restRounds := p.restRounds + 1 }) := by
  have hne : p.id ≠ m.team1.player1 ∧ p.id ≠ m.team1.player2 ∧
      p.id ≠ m.team2.player1 ∧ p.id ≠ m.team2.player2 := by
    simp only [matchPlayerIds, List.mem_cons, List.not_mem_nil, or_false, not_or] at hp
    exact hp
  obtain ⟨ha, hb, hc, hd⟩ := hne
  have hq : (updsOf m).foldl (fun p u => updOne u.1 u.2 p) p = p := by
    simp only [updsOf, List.foldl_cons, List.foldl_nil]
    rw [updOne_miss ha, updOne_miss hb, updOne_miss hc, updOne_miss hd,
      updOne_miss ha, updOne_miss hb, updOne_miss hc, updOne_miss hd,
      updOne_miss ha, updOne_miss hc, updOne_miss ha, updOne_miss hd,
      updOne_miss hb, updOne_miss hc, updOne_miss hb, updOne_miss hd]
  unfold updEffect
  rw [hq]
  unfold restStep
  have hcontains : (matchPlayerIds m).contains p.id = false := by
    simpa using hp
  rw [hcontains]
  by_cases hst : p.status = "away"
  · simp [hst]
  · simp [hst]

/-- `participants.find(p => p.id === a)?.teammates[b] || 0` — the teammate
count the scorer would read back for player `a` about player `b`. -/
def tmOf (ps : List Participant) (a b : String) : Nat :=
  match ps.find? (fun p => p.id == a) with
  | some p => p.teammates b
  | none => 0

/-- `participants.find(p => p.id === a)?.opponents[b] || 0`. -/
def opOf (ps : List Participant) (a b : String) : Nat :=
  match ps.find? (fun p => p.id == a) with
  | some p => p.opponents b
  | none => 0

theorem find?_map_of_id_pres {g : Participant → Participant}
    (hg : ∀ p, (g p).id = p.id) (ps : List Participant) (x : String) :
    (ps.map g).find? (fun r => r.id == x) = (ps.find? (fun r => r.id == x)).map g := by
  induction ps with
  | nil => rfl
  | cons p tl ih =>
    rw [List.map_cons]
    by_cases hx : p.id = x
    · have h1 : List.find? (fun r => r.id == x) (g p :: tl.map g) = some (g p) :=
        List.find?_cons_of_pos _ (by rw [hg p]; simpa using hx)
      have h2 : List.find? (fun r => r.id == x) (p :: tl) = some p :=
        List.find?_cons_of_pos _ (by simpa using hx)
      rw [h1, h2, Option.map_some']
    · have h1 : List.find? (fun r => r.id == x) (g p :: tl.map g) =
          List.find? (fun r => r.id == x) (tl.map g) :=
        List.find?_cons_of_neg _ (by rw [hg p]; simpa using hx)
      have h2 : List.find? (fun r => r.id == x) (p :: tl) =
          List.find? (fun r => r.id == x) tl :=
        List.find?_cons_of_neg _ (by simpa using hx)
      rw [h1, h2, ih]

theorem find?_of_present {ps : List Participant} {x : String}
    (hx : ∃ p ∈ ps, p.id = x) :
    ∃ p, ps.find? (fun r => r.id == x) = some p ∧ p.id = x := by
  obtain ⟨q, hq, hqx⟩ := hx
  have hsome : (ps.find? (fun r => r.id == x)).isSome :=
    List.find?_isSome.mpr ⟨q, hq, by simpa using hqx⟩
  rcases hfind : ps.find? (fun r => r.id == x) with _ | p
  · rw [hfind] at hsome
    exact absurd hsome (by simp)
  · exact ⟨p, hfind, by simpa using List.find?_some hfind⟩

/-- Looking a participant up after `updatePlayerStats` returns the
`updEffect`-updated record. -/
theorem find?_updatePlayerStats {ps : List Participant} {m : GameMatch} {x : String}
    (hnd : (ps.map (·.id)).Nodup) (hx : ∃ p ∈ ps, p.id = x) :
    ∃ p, ps.find? (fun r => r.id == x) = some p ∧ p.id = x ∧
      (updatePlayerStats ps m).find? (fun r => r.id == x) = some (updEffect m p) := by
  obtain ⟨p, hfind, hpx⟩ := find?_of_present hx
  refine ⟨p, hfind, hpx, ?_⟩
  rw [updatePlayerStats_eq_map hnd, find?_map_of_id_pres (updEffect_id m), hfind,
    Option.map_some']

/-! Value lemmas for the four updated records. -/

theorem teammates_t1p1 {m : GameMatch} {p : Participant}
    (hm : (matchPlayerIds m).Nodup) (hp : p.id = m.team1.player1) :
    (updEffect m p).teammates m.team1.player2 = p.teammates m.team1.player2 + 1 := by
  rw [updEffect_t1p1 hm hp]
  simp [bumpOpponent, bumpTeammate, bumpGames]

theorem teammates_t1p2 {m : GameMatch} {p : Participant}
    (hm : (matchPlayerIds m).Nodup) (hp : p.id = m.team1.player2) :
    (updEffect m p).teammates m.team1.player1 = p.teammates m.team1.player1 + 1 := by
  rw [updEffect_t1p2 hm hp]
  simp [bumpOpponent, bumpTeammate, bumpGames]

theorem teammates_t2p1 {m : GameMatch} {p : Participant}
    (hm : (matchPlayerIds m).Nodup) (hp : p.id = m.team2.player1) :
    (updEffect m p).teammates m.team2.player2 = p.teammates m.team2.player2 + 1 := by
  rw [updEffect_t2p1 hm hp]
  simp [bumpOpponent, bumpTeammate, bumpGames]

theorem teammates_t2p2 {m : GameMatch} {p : Participant}
    (hm : (matchPlayerIds m).Nodup) (hp : p.id = m.team2.player2) :
    (updEffect m p).teammates m.team2.player1 = p.teammates m.team2.player1 + 1 := by
  rw [updEffect_t2p2 hm hp]
  simp [bumpOpponent, bumpTeammate, bumpGames]

theorem opponents_t1p1 {m : GameMatch} {p : Participant}
    (hm : (matchPlayerIds m).Nodup) (hp : p.id = m.team1.player1) :
    (updEffect m p).opponents m.team2.player1 = p.opponents m.team2.player1 + 1 ∧
    (updEffect m p).opponents m.team2.player2 = p.opponents m.team2.player2 + 1 := by
  obtain ⟨hab, hac, had, hbc, hbd, hcd⟩ := (matchIds_nodup_iff m).mp hm
  rw [updEffect_t1p1 hm hp]
  constructor
  · simp only [bumpOpponent, bumpTeammate, bumpGames]
    rw [if_neg hcd, if_pos trivial]
  · simp only [bumpOpponent, bumpTeammate, bumpGames]
    rw [if_pos trivial, if_neg (Ne.symm hcd)]

theorem opponents_t1p2 {m : GameMatch} {p : Participant}
    (hm : (matchPlayerIds m).Nodup) (hp : p.id = m.team1.player2) :
    (updEffect m p).opponents m.team2.player1 = p.opponents m.team2.player1 + 1 ∧
    (updEffect m p).opponents m.team2.player2 = p.opponents m.team2.player2 + 1 := by
  obtain ⟨hab, hac, had, hbc, hbd, hcd⟩ := (matchIds_nodup_iff m).mp hm
  rw [updEffect_t1p2 hm hp]
  constructor
  · simp only [bumpOpponent, bumpTeammate, bumpGames]
    rw [if_neg hcd, if_pos trivial]
  · simp only [bumpOpponent, bumpTeammate, bumpGames]
    rw [if_pos trivial, if_neg (Ne.symm hcd)]

theorem opponents_t2p1 {m : GameMatch} {p : Participant}
    (hm : (matchPlayerIds m).Nodup) (hp : p.id = m.team2.player1) :
    (updEffect m p).opponents m.team1.player1 = p.opponents m.team1.player1 + 1 ∧
    (updEffect m p).opponents m.team1.player2 = p.opponents m.team1.player2 + 1 := by
  obtain ⟨hab, hac, had, hbc, hbd, hcd⟩ := (matchIds_nodup_iff m).mp hm
  rw [updEffect_t2p1 hm hp]
  constructor
  · simp only [bumpOpponent, bumpTeammate, bumpGames]
    rw [if_neg hab, if_pos trivial]
  · simp only [bumpOpponent, bumpTeammate, bumpGames]
    rw [if_pos trivial, if_neg (Ne.symm hab)]

theorem opponents_t2p2 {m : GameMatch} {p : Participant}
    (hm : (matchPlayerIds m).Nodup) (hp : p.id = m.team2.player2) :
    (updEffect m p).opponents m.team1.player1 = p.opponents m.team1.player1 + 1 ∧
    (updEffect m p).opponents m.team1.player2 = p.opponents m.team1.player2 + 1 := by
  obtain ⟨hab, hac, had, hbc, hbd, hcd⟩ := (matchIds_nodup_iff m).mp hm
  rw [updEffect_t2p2 hm hp]
  constructor
  · simp only [bumpOpponent, bumpTeammate, bumpGames]
    rw [if_neg hab, if_pos trivial]
  · simp only [bumpOpponent, bumpTeammate, bumpGames]
    rw [if_pos trivial, if_neg (Ne.symm hab)]

/-! ## Claim support: generic lemmas and concrete fixtures -/

theorem nodup_of_mem_flatMap {α β : Type _} {f : α → List β} :
    ∀ {l : List α}, (l.flatMap f).Nodup → ∀ a ∈ l, (f a).Nodup := by
  intro l
  induction l with
  | nil => intro _ a ha; exact absurd ha (List.not_mem_nil a)
  | cons x xs ih =>
    intro h a ha
    rw [List.flatMap_cons, List.nodup_append] at h
    rcases List.mem_cons.mp ha with rfl | ha
    · exact h.1
    · exact ih h.2.1 a ha

theorem find?_self_of_nodup {ps : List Participant} {p : Participant}
    (hnd : (ps.map (·.id)).Nodup) (hp : p ∈ ps) :
    ps.find? (fun r => r.id == p.id) = some p := by
  induction ps with
  | nil => exact absurd hp (List.not_mem_nil p)
  | cons q tl ih =>
    rw [List.map_cons, List.nodup_cons] at hnd
    rcases List.mem_cons.mp hp with rfl | hp
    · exact List.find?_cons_of_pos _ (by simp)
    · have hq : ¬ (q.id == p.id) = true := by
        simp only [beq_iff_eq]
        intro hEq
        exact hnd.1 (by rw [hEq]; exact List.mem_map.mpr ⟨p, hp, rfl⟩)
      have hstep : List.find? (fun r => r.id == p.id) (q :: tl) =
          List.find? (fun r => r.id == p.id) tl :=
        List.find?_cons_of_neg _ hq
      rw [hstep]
      exact ih hnd.2 hp

/-- Each of the four match players comes out of the per-record update with
one more game played and a reset rest counter. -/
theorem updEffect_match_player {m : GameMatch} {p : Participant}
    (hm : (matchPlayerIds m).Nodup) (hp : p.id ∈ matchPlayerIds m) :
    (updEffect m p).gamesPlayed = p.gamesPlayed + 1 ∧ (updEffect m p).restRounds = 0 := by
  have hp4 : p.id = m.team1.player1 ∨ p.id = m.team1.player2 ∨
      p.id = m.team2.player1 ∨ p.id = m.team2.player2 := by
    simpa [matchPlayerIds] using hp
  rcases hp4 with h | h | h | h
  · rw [updEffect_t1p1 hm h]; exact ⟨rfl, rfl⟩
  · rw [updEffect_t1p2 hm h]; exact ⟨rfl, rfl⟩
  · rw [updEffect_t2p1 hm h]; exact ⟨rfl, rfl⟩
  · rw [updEffect_t2p2 hm h]; exact ⟨rfl, rfl⟩

/-- A fresh participant fixture: no games played, empty history maps,
active and present. -/
def freshP (i : String) : Participant :=
  { id := i, name := i, gamesPlayed := 0, restRounds := 0,
    teammates := fun _ => 0, opponents := fun _ => 0,
    status := "active", hasLeft := false }

/-- A participant who left mid-session: the leave API route sets
`hasLeft = true` and `status = 'resting'`. -/
def leftResting : Participant :=
  { freshP "L" with hasLeft := true, status := "resting" }

/-- A fixed 2v2 match between ids `a`, `b`, `c`, `d`. -/
def mABCD : GameMatch :=
  { team1 := { player1 := "a", player2 := "b" }
    team2 := { player1 := "c", player2 := "d" } }

/-- A fresh four-player roster matching `mABCD`. -/
def fresh4 : List Participant := [freshP "a", freshP "b", freshP "c", freshP "d"]

/-- Claim C3 (corrected): after `updatePlayerStats(participants, finishedMatch)`
on a roster with pairwise-distinct ids and a match of four distinct players,
each match player's `gamesPlayed` is incremented and `restRounds` is reset
to 0, and every other player whose status is not `'away'` — including players
with `hasLeft = true`, contrary to the specification's "not-left" wording —
has `restRounds` incremented by exactly 1, while `'away'` players are left
unchanged. -/
theorem claim_C3 {ps : List Participant} {m : GameMatch}
    (hnd : (ps.map (·.id)).Nodup) (hm : (matchPlayerIds m).Nodup) :
    ∀ p ∈ ps, ∃ q, (updatePlayerStats ps m).find? (fun r => r.id == p.id) = some q ∧
      q.id = p.id ∧
      (p.id ∈ matchPlayerIds m → q.gamesPlayed = p.gamesPlayed + 1 ∧ q.restRounds = 0) ∧
      (p.id ∉ matchPlayerIds m → p.status ≠ "away" →
        q.restRounds = p.restRounds + 1 ∧ q.gamesPlayed = p.gamesPlayed) ∧
      (p.id ∉ matchPlayerIds m → p.status = "away" → q = p) := by
  intro p hp
  refine ⟨updEffect m p, ?_, updEffect_id m p, ?_, ?_, ?_⟩
  · rw [updatePlayerStats_eq_map hnd, find?_map_of_id_pres (updEffect_id m),
      find?_self_of_nodup hnd hp, Option.map_some']
  · intro hin
    exact updEffect_match_player hm hin
  · intro hout hst
    rw [updEffect_other hout, if_neg hst]
    exact ⟨rfl, rfl⟩
  · intro hout hst
    rw [updEffect_other hout, if_pos hst]

/-- Counterexample to the specification's wording of claim C3: a participant
who has left (`hasLeft = true`, status `'resting'` as set by the leave route)
still gets `restRounds` incremented by `updatePlayerStats`, because the code
only checks `status !== 'away'`. -/
theorem claim_C3_cex :
    leftResting.hasLeft = true ∧ leftResting.restRounds = 0 ∧
    (updatePlayerStats [leftResting] mABCD).map (fun p => p.restRounds) = [1] :=
  ⟨rfl, rfl, rfl⟩

/-- Witness for claim C3 at a concrete four-player roster and match. -/
theorem claim_C3_witness :
    ((fresh4.map (·.id)).Nodup ∧ (matchPlayerIds mABCD).Nodup) ∧
    (∀ p ∈ fresh4, ∃ q,
      (updatePlayerStats fresh4 mABCD).find? (fun r => r.id == p.id) = some q ∧
      q.id = p.id ∧
      (p.id ∈ matchPlayerIds mABCD → q.gamesPlayed = p.gamesPlayed + 1 ∧ q.restRounds = 0) ∧
      (p.id ∉ matchPlayerIds mABCD → p.status ≠ "away" →
        q.restRounds = p.restRounds + 1 ∧ q.gamesPlayed = p.gamesPlayed) ∧
      (p.id ∉ matchPlayerIds mABCD → p.status = "away" → q = p)) :=
  ⟨⟨by decide, by decide⟩, claim_C3 (by decide) (by decide)⟩

/-- Claim C7 (confirmed): `updatePlayerStats` preserves symmetry of the
history maps: on a duplicate-free roster containing the four (distinct) match
players, if the stored teammate counts of each teammate pair and the stored
opponent counts of each cross-team pair agree in both directions before the
update, they still agree afterwards. -/
theorem claim_C7 {ps : List Participant} {m : GameMatch}
    (hnd : (ps.map (·.id)).Nodup) (hm : (matchPlayerIds m).Nodup)
    (hpres : ∀ x ∈ matchPlayerIds m, ∃ p ∈ ps, p.id = x)
    (htm1 : tmOf ps m.team1.player1 m.team1.player2 =
      tmOf ps m.team1.player2 m.team1.player1)
    (htm2 : tmOf ps m.team2.player1 m.team2.player2 =
      tmOf ps m.team2.player2 m.team2.player1)
    (hop : ∀ a ∈ [m.team1.player1, m.team1.player2],
      ∀ b ∈ [m.team2.player1, m.team2.player2], opOf ps a b = opOf ps b a) :
    tmOf (updatePlayerStats ps m) m.team1.player1 m.team1.player2 =
      tmOf (updatePlayerStats ps m) m.team1.player2 m.team1.player1 ∧
    tmOf (updatePlayerStats ps m) m.team2.player1 m.team2.player2 =
      tmOf (updatePlayerStats ps m) m.team2.player2 m.team2.player1 ∧
    (∀ a ∈ [m.team1.player1, m.team1.player2],
      ∀ b ∈ [m.team2.player1, m.team2.player2],
      opOf (updatePlayerStats ps m) a b = opOf (updatePlayerStats ps m) b a) := by
  obtain ⟨pa, hfa, hia, hFa⟩ := find?_updatePlayerStats (m := m) hnd
    (hpres m.team1.player1 (by simp [matchPlayerIds]))
  obtain ⟨pb, hfb, hib, hFb⟩ := find?_updatePlayerStats (m := m) hnd
    (hpres m.team1.player2 (by simp [matchPlayerIds]))
  obtain ⟨pc, hfc, hic, hFc⟩ := find?_updatePlayerStats (m := m) hnd
    (hpres m.team2.player1 (by simp [matchPlayerIds]))
  obtain ⟨pd, hfd, hid, hFd⟩ := find?_updatePlayerStats (m := m) hnd
    (hpres m.team2.player2 (by simp [matchPlayerIds]))
  have hTa : tmOf (updatePlayerStats ps m) m.team1.player1 m.team1.player2 =
      pa.teammates m.team1.player2 + 1 := by
    unfold tmOf; rw [hFa]; exact teammates_t1p1 hm hia
  have hTb : tmOf (updatePlayerStats ps m) m.team1.player2 m.team1.player1 =
      pb.teammates m.team1.player1 + 1 := by
    unfold tmOf; rw [hFb]; exact teammates_t1p2 hm hib
  have hTc : tmOf (updatePlayerStats ps m) m.team2.player1 m.team2.player2 =
      pc.teammates m.team2.player2 + 1 := by
    unfold tmOf; rw [hFc]; exact teammates_t2p1 hm hic
  have hTd : tmOf (updatePlayerStats ps m) m.team2.player2 m.team2.player1 =
      pd.teammates m.team2.player1 + 1 := by
    unfold tmOf; rw [hFd]; exact teammates_t2p2 hm hid
  have hta : tmOf ps m.team1.player1 m.team1.player2 = pa.teammates m.team1.player2 := by
    unfold tmOf; rw [hfa]
  have htb : tmOf ps m.team1.player2 m.team1.player1 = pb.teammates m.team1.player1 := by
    unfold tmOf; rw [hfb]
  have htc : tmOf ps m.team2.player1 m.team2.player2 = pc.teammates m.team2.player2 := by
    unfold tmOf; rw [hfc]
  have htd : tmOf ps m.team2.player2 m.team2.player1 = pd.teammates m.team2.player1 := by
    unfold tmOf; rw [hfd]
  have hOac := opponents_t1p1 hm hia
  have hObc := opponents_t1p2 hm hib
  have hOca := opponents_t2p1 hm hic
  have hOda := opponents_t2p2 hm hid
  have hPac : opOf (updatePlayerStats ps m) m.team1.player1 m.team2.player1 =
      pa.opponents m.team2.player1 + 1 := by
    unfold opOf; rw [hFa]; exact hOac.1
  have hPad : opOf (updatePlayerStats ps m) m.team1.player1 m.team2.player2 =
      pa.opponents m.team2.player2 + 1 := by
    unfold opOf; rw [hFa]; exact hOac.2
  have hPbc : opOf (updatePlayerStats ps m) m.team1.player2 m.team2.player1 =
      pb.opponents m.team2.player1 + 1 := by
    unfold opOf; rw [hFb]; exact hObc.1
  have hPbd : opOf (updatePlayerStats ps m) m.team1.player2 m.team2.player2 =
      pb.opponents m.team2.player2 + 1 := by
    unfold opOf; rw [hFb]; exact hObc.2
  have hPca : opOf (updatePlayerStats ps m) m.team2.player1 m.team1.player1 =
      pc.opponents m.team1.player1 + 1 := by
    unfold opOf; rw [hFc]; exact hOca.1
  have hPcb : opOf (updatePlayerStats ps m) m.team2.player1 m.team1.player2 =
      pc.opponents m.team1.player2 + 1 := by
    unfold opOf; rw [hFc]; exact hOca.2
  have hPda : opOf (updatePlayerStats ps m) m.team2.player2 m.team1.player1 =
      pd.opponents m.team1.player1 + 1 := by
    unfold opOf; rw [hFd]; exact hOda.1
  have hPdb : opOf (updatePlayerStats ps m) m.team2.player2 m.team1.player2 =
      pd.opponents m.team1.player2 + 1 := by
    unfold opOf; rw [hFd]; exact hOda.2
  have hpac : opOf ps m.team1.player1 m.team2.player1 = pa.opponents m.team2.player1 := by
    unfold opOf; rw [hfa]
  have hpad : opOf ps m.team1.player1 m.team2.player2 = pa.opponents m.team2.player2 := by
    unfold opOf; rw [hfa]
  have hpbc : opOf ps m.team1.player2 m.team2.player1 = pb.opponents m.team2.player1 := by
    unfold opOf; rw [hfb]
  have hpbd : opOf ps m.team1.player2 m.team2.player2 = pb.opponents m.team2.player2 := by
    unfold opOf; rw [hfb]
  have hpca : opOf ps m.team2.player1 m.team1.player1 = pc.opponents m.team1.player1 := by
    unfold opOf; rw [hfc]
  have hpcb : opOf ps m.team2.player1 m.team1.player2 = pc.opponents m.team1.player2 := by
    unfold opOf; rw [hfc]
  have hpda : opOf ps m.team2.player2 m.team1.player1 = pd.opponents m.team1.player1 := by
    unfold opOf; rw [hfd]
  have hpdb : opOf ps m.team2.player2 m.team1.player2 = pd.opponents m.team1.player2 := by
    unfold opOf; rw [hfd]
  refine ⟨?_, ?_, ?_⟩
  · rw [hTa, hTb]
    have := htm1
    rw [hta, htb] at this
    omega
  · rw [hTc, hTd]
    have := htm2
    rw [htc, htd] at this
    omega
  · intro a ha b hb
    have ha2 : a = m.team1.player1 ∨ a = m.team1.player2 := by simpa using ha
    have hb2 : b = m.team2.player1 ∨ b = m.team2.player2 := by simpa using hb
    rcases ha2 with rfl | rfl <;> rcases hb2 with rfl | rfl
    · have h := hop m.team1.player1 (by simp) m.team2.player1 (by simp)
      rw [hpac, hpca] at h
      rw [hPac, hPca]
      omega
    · have h := hop m.team1.player1 (by simp) m.team2.player2 (by simp)
      rw [hpad, hpda] at h
      rw [hPad, hPda]
      omega
    · have h := hop m.team1.player2 (by simp) m.team2.player1 (by simp)
      rw [hpbc, hpcb] at h
      rw [hPbc, hPcb]
      omega
    · have h := hop m.team1.player2 (by simp) m.team2.player2 (by simp)
      rw [hpbd, hpdb] at h
      rw [hPbd, hPdb]
      omega

/-- Witness for claim C7 at a concrete fresh roster and match. -/
theorem claim_C7_witness :
    tmOf (updatePlayerStats fresh4 mABCD) mABCD.team1.player1 mABCD.team1.player2 =
      tmOf (updatePlayerStats fresh4 mABCD) mABCD.team1.player2 mABCD.team1.player1 ∧
    tmOf (updatePlayerStats fresh4 mABCD) mABCD.team2.player1 mABCD.team2.player2 =
      tmOf (updatePlayerStats fresh4 mABCD) mABCD.team2.player2 mABCD.team2.player1 ∧
    (∀ a ∈ [mABCD.team1.player1, mABCD.team1.player2],
      ∀ b ∈ [mABCD.team2.player1, mABCD.team2.player2],
      opOf (updatePlayerStats fresh4 mABCD) a b =
        opOf (updatePlayerStats fresh4 mABCD) b a) :=
  claim_C7 (by decide) (by decide) (by decide) (by decide) (by decide) (by decide)

/-- Shape of `assignPlayersToCourts` without any distinctness assumption:
it always returns `courtCount` well-formed courts. -/
theorem assignPlayersToCourts_shape (players : List Participant) (cc : Nat)
    (w : List Weight) (all : List Participant) (rng : Rng) :
    (assignPlayersToCourts players cc w all rng).length = cc ∧
    CourtsOk (assignPlayersToCourts players cc w all rng) := by
  unfold assignPlayersToCourts
  dsimp only
  split
  · exact ⟨by simp, CourtsOk_mapEmpty cc⟩
  · split
    · rcases hbm : findBestTeamMatch players w all rng.rand with _ | bm
      · exact ⟨by simp, CourtsOk_mapEmpty cc⟩
      · by_cases hcc : 0 < cc
        · exact ⟨by simp, CourtsOk_set_zero _ bm.team1 bm.team2 rfl rfl rfl rfl⟩
        · have hcc0 : cc = 0 := by omega
          subst hcc0
          exact ⟨by simp, fun i hi => by simp at hi⟩
    · rcases findBestGlobalAssignment_cases players cc w all rng with hrep | ⟨A, hA, hsc⟩
      · rw [hrep]
        have hmap : ((List.range cc).map fun i =>
            match (List.replicate cc (none : Option GameMatch)).getD i none with
            | some m => playingCourt i m
            | none => emptyCourt i) = (List.range cc).map emptyCourt :=
          List.map_congr_left (fun i _ => by rw [getD_replicate_none'])
        rw [applyAssignment_emptyCourts, hmap]
        exact ⟨by simp, CourtsOk_mapEmpty cc⟩
      · rw [hsc]
        refine ⟨by rw [applyAssignment_length]; simp, ?_⟩
        rw [applyAssignment_emptyCourts]
        exact CourtsOk_mapScored cc _

/-- Shape of the courts array of `generateOptimalTeams`, with no assumption
on the participants or the randomness. -/
theorem generateOptimalTeams_courts_shape (P : List Participant) (cc : Nat)
    (w : List Weight) (rng : Rng) :
    (generateOptimalTeams P cc w rng).courts.length = cc ∧
    CourtsOk (generateOptimalTeams P cc w rng).courts := by
  unfold generateOptimalTeams
  dsimp only
  split
  · exact ⟨by simp, CourtsOk_mapEmpty cc⟩
  · obtain ⟨hl, hok⟩ := assignPlayersToCourts_shape
      ((rng.sortMain (P.filter (fun p => !p.hasLeft))).take
        (min cc ((rng.sortMain (P.filter (fun p => !p.hasLeft))).length / 4) * 4))
      ((min cc ((rng.sortMain (P.filter (fun p => !p.hasLeft))).length / 4) * 4 + 3) / 4)
      w P rng
    refine ⟨?_, CourtsOk_fillEmptyCourts cc hok⟩
    rw [fillEmptyCourts_length, hl]
    have hmin : min cc ((rng.sortMain (P.filter (fun p => !p.hasLeft))).length / 4) ≤ cc :=
      Nat.min_le_left _ _
    omega

/-- Claim C10 (confirmed): for every participant list and courtCount,
`generateOptimalTeams` returns exactly `courtCount` courts; the court at
index `i` carries id `i + 1`, and a court that does not hold a match (one of
its teams is null) has `team1 = null`, `team2 = null` and status `'empty'`. -/
theorem claim_C10 (P : List Participant) (cc : Nat) (w : List Weight) (rng : Rng) :
    (generateOptimalTeams P cc w rng).courts.length = cc ∧
    ∀ i, i < cc →
      ((generateOptimalTeams P cc w rng).courts.getD i (emptyCourt 0)).id = i + 1 ∧
      (((generateOptimalTeams P cc w rng).courts.getD i (emptyCourt 0)).team1 = none ∨
        ((generateOptimalTeams P cc w rng).courts.getD i (emptyCourt 0)).team2 = none →
        ((generateOptimalTeams P cc w rng).courts.getD i (emptyCourt 0)).team1 = none ∧
        ((generateOptimalTeams P cc w rng).courts.getD i (emptyCourt 0)).team2 = none ∧
        ((generateOptimalTeams P cc w rng).courts.getD i (emptyCourt 0)).status = "empty") := by
  obtain ⟨hlen, hok⟩ := generateOptimalTeams_courts_shape P cc w rng
  refine ⟨hlen, ?_⟩
  intro i hi
  have hi2 : i < (generateOptimalTeams P cc w rng).courts.length := by omega
  rw [List.getD_eq_getElem _ _ hi2]
  obtain ⟨hid, hcases⟩ := hok i hi2
  refine ⟨hid, ?_⟩
  intro hnone
  rcases hcases with hempty | ⟨t1, t2, h1, h2, _⟩
  · exact hempty
  · rcases hnone with hn | hn
    · rw [h1] at hn; exact absurd hn (by simp)
    · rw [h2] at hn; exact absurd hn (by simp)

/-- Witness for claim C10 at a concrete input. -/
theorem claim_C10_witness :
    (generateOptimalTeams fresh4 2 [] rng0).courts.length = 2 ∧
    ((generateOptimalTeams fresh4 2 [] rng0).courts.getD 1 (emptyCourt 0)).id = 1 + 1 :=
  ⟨(claim_C10 fresh4 2 [] rng0).1, ((claim_C10 fresh4 2 [] rng0).2 1 (by omega)).1⟩

/-- Claim C6 (confirmed): when fewer than 4 participants are eligible
(`hasLeft = false`), `generateOptimalTeams` returns `courtCount` empty
courts, an empty queue, and a waiting list holding exactly the eligible
participants' ids.  (The embedding is a total function, so no input raises
an error.) -/
theorem claim_C6 {P : List Participant} (cc : Nat) (w : List Weight) (rng : Rng)
    (h4 : (P.filter (fun p => !p.hasLeft)).length < 4) :
    (generateOptimalTeams P cc w rng).courts = (List.range cc).map emptyCourt ∧
    (generateOptimalTeams P cc w rng).queue = [] ∧
    (generateOptimalTeams P cc w rng).waiting =
      (P.filter (fun p => !p.hasLeft)).map (·.id) := by
  unfold generateOptimalTeams
  dsimp only
  rw [if_pos h4]
  exact ⟨rfl, rfl, rfl⟩

/-- Witness for claim C6: three eligible players plus one who left. -/
theorem claim_C6_witness :
    (([freshP "a", freshP "b", freshP "c", leftResting].filter
      (fun p => !p.hasLeft)).length < 4) ∧
    ((generateOptimalTeams [freshP "a", freshP "b", freshP "c", leftResting] 2 [] rng0).courts =
      (List.range 2).map emptyCourt ∧
    (generateOptimalTeams [freshP "a", freshP "b", freshP "c", leftResting] 2 [] rng0).queue =
      [] ∧
    (generateOptimalTeams [freshP "a", freshP "b", freshP "c", leftResting] 2 [] rng0).waiting =
      ([freshP "a", freshP "b", freshP "c", leftResting].filter
        (fun p => !p.hasLeft)).map (·.id)) :=
  ⟨by decide, claim_C6 2 [] rng0 (by decide)⟩

/-- Claim C5 (confirmed): a participant with `hasLeft = true` never appears
in any court match or queue match of `generateOptimalTeams`, for any valid
randomness and any roster with pairwise-distinct ids, regardless of that
participant's stats. -/
theorem claim_C5 {P : List Participant} {cc : Nat} {w : List Weight} {rng : Rng}
    {q : Participant} (hval : rng.Valid) (hnd : (P.map (·.id)).Nodup)
    (hq : q ∈ P) (hleft : q.hasLeft = true) :
    q.id ∉ courtIds (generateOptimalTeams P cc w rng).courts ∧
    q.id ∉ queueIds (generateOptimalTeams P cc w rng) := by
  obtain ⟨_, _, _, _, hcsub, hqsub, _⟩ := @generateOptimalTeams_spec P cc w rng hval hnd
  have hnotin : q.id ∉ (P.filter (fun p => !p.hasLeft)).map (·.id) := by
    intro hmem
    obtain ⟨p, hp, hpid⟩ := List.mem_map.mp hmem
    have hpP : p ∈ P := List.mem_of_mem_filter hp
    have hpleft : p.hasLeft = false := by
      have := List.of_mem_filter hp
      simpa using this
    have hpq : p = q :=
      List.inj_on_of_nodup_map hnd hpP hq hpid
    rw [hpq, hleft] at hpleft
    exact absurd hpleft (by simp)
  exact ⟨fun hmem => hnotin (hcsub _ hmem), fun hmem => hnotin (hqsub _ hmem)⟩

/-- Witness for claim C5: the departed player is excluded at a concrete
input. -/
theorem claim_C5_witness :
    leftResting.hasLeft = true ∧
    (leftResting.id ∉
      courtIds (generateOptimalTeams [freshP "a", freshP "b", freshP "c", leftResting]
        1 [] rng0).courts ∧
    leftResting.id ∉
      queueIds (generateOptimalTeams [freshP "a", freshP "b", freshP "c", leftResting]
        1 [] rng0)) :=
  ⟨rfl, claim_C5 rng0_valid (by decide)
    (List.mem_cons_of_mem _ (List.mem_cons_of_mem _ (List.mem_cons_of_mem _
      (List.mem_cons_self _ _)))) rfl⟩

/-- Claim C9 (confirmed): with a duplicate-free player list,
`findBestTeamMatch` only returns matches whose four player ids are pairwise
distinct, and it returns null exactly when given fewer than 4 players;
consequently every court match and queue match of `generateOptimalTeams`
(under valid randomness and a duplicate-free roster) has four pairwise
distinct players. -/
theorem claim_C9 (players : List Participant) (w : List Weight)
    (all : List Participant) (rand : Team → Team → ℝ) (P : List Participant)
    (cc : Nat) (rng : Rng) (hval : rng.Valid)
    (hndp : (players.map (·.id)).Nodup) (hndP : (P.map (·.id)).Nodup) :
    (∀ m, findBestTeamMatch players w all rand = some m → (matchPlayerIds m).Nodup) ∧
    (findBestTeamMatch players w all rand = none ↔ players.length < 4) ∧
    (∀ m ∈ courtMatches (generateOptimalTeams P cc w rng).courts,
      (matchPlayerIds m).Nodup) ∧
    (∀ m ∈ (generateOptimalTeams P cc w rng).queue, (matchPlayerIds m).Nodup) := by
  obtain ⟨_, _, hcnd, hqnd, _, _, _⟩ := @generateOptimalTeams_spec P cc w rng hval hndP
  refine ⟨?_, findBestTeamMatch_eq_none_iff, ?_, ?_⟩
  · intro m hm
    exact matchIds_nodup_of_mem_combos hndp (findBestTeamMatch_mem hm)
  · intro m hm
    exact nodup_of_mem_flatMap hcnd m hm
  · intro m hm
    exact nodup_of_mem_flatMap hqnd m hm

/-- Witness for claim C9 at a concrete input. -/
theorem claim_C9_witness :
    (∀ m, findBestTeamMatch fresh4 [] fresh4 rng0.rand = some m →
      (matchPlayerIds m).Nodup) ∧
    (findBestTeamMatch fresh4 [] fresh4 rng0.rand = none ↔ fresh4.length < 4) ∧
    (∀ m ∈ courtMatches (generateOptimalTeams fresh4 1 [] rng0).courts,
      (matchPlayerIds m).Nodup) ∧
    (∀ m ∈ (generateOptimalTeams fresh4 1 [] rng0).queue, (matchPlayerIds m).Nodup) :=
  claim_C9 fresh4 [] fresh4 rng0.rand fresh4 1 rng0 rng0_valid (by decide) (by decide)

/-- Population standard deviation exactly as worded in the specification
(spec-side definition, used only to compare the code's fairness term against
the specification's formula). -/
noncomputable def specPopStdDev (xs : List ℝ) : ℝ :=
  Real.sqrt ((xs.map (fun g => (g - xs.sum / (xs.length : ℝ)) ^ 2)).sum / (xs.length : ℝ))

/-- The code's fairness term equals the specification's
`max(0, 10 − 2·stddev)` over the four involved players' games counts. -/
theorem calculateFairnessScore_eq_spec (team1 team2 : Team)
    (stats : String → Option Participant) :
    calculateFairnessScore team1 team2 stats =
      max 0 (10 - 2 * specPopStdDev
        ([team1.player1, team1.player2, team2.player1, team2.player2].map
          (gamesOf stats))) := by
  unfold calculateFairnessScore specPopStdDev
  dsimp only
  rw [mul_comm]

/-- Claim C4 (confirmed): for every pair of teams, weight list and
participant list, and every drawn `Math.random()` value in `[0, 1]`, the
score equals `fairness × 1.0 + weightBonus × 0.8 + repetitionPenalty × 0.6 +
jitter` with jitter in `[−0.05, +0.05]`, where fairness is
`max(0, 10 − 2·stddev)` of the four involved players' `gamesPlayed`
(missing ids count as 0).  In the real-number embedding the result is a real
number by construction. -/
theorem claim_C4 (team1 team2 : Team) (w : List Weight) (ps : List Participant)
    (r : ℝ) (hr0 : 0 ≤ r) (hr1 : r ≤ 1) :
    ∃ jitter : ℝ, -(5/100) ≤ jitter ∧ jitter ≤ 5/100 ∧
      calculateTeamScore team1 team2 w ps r =
        max 0 (10 - 2 * specPopStdDev
          ([team1.player1, team1.player2, team2.player1, team2.player2].map
            (gamesOf (buildPlayerStats ps)))) * 1.0 +
        calculateWeightBonus team1 team2 w * 0.8 +
        calculateRepetitionPenalty team1 team2 (buildPlayerStats ps) * 0.6 + jitter := by
  refine ⟨(r - 0.5) * 0.1, by nlinarith, by nlinarith, ?_⟩
  unfold calculateTeamScore
  dsimp only
  rw [calculateFairnessScore_eq_spec]

/-- Witness for claim C4 at a concrete input. -/
theorem claim_C4_witness :
    ((0:ℝ) ≤ 1/2 ∧ ((1:ℝ)/2) ≤ 1) ∧
    (∃ jitter : ℝ, -(5/100) ≤ jitter ∧ jitter ≤ 5/100 ∧
      calculateTeamScore mABCD.team1 mABCD.team2 [] [] (1/2) =
        max 0 (10 - 2 * specPopStdDev
          ([mABCD.team1.player1, mABCD.team1.player2, mABCD.team2.player1,
            mABCD.team2.player2].map (gamesOf (buildPlayerStats [])))) * 1.0 +
        calculateWeightBonus mABCD.team1 mABCD.team2 [] * 0.8 +
        calculateRepetitionPenalty mABCD.team1 mABCD.team2 (buildPlayerStats []) * 0.6 +
        jitter) :=
  ⟨⟨by norm_num, by norm_num⟩,
    claim_C4 mABCD.team1 mABCD.team2 [] [] (1/2) (by norm_num) (by norm_num)⟩

/-- The opponent count `calculateRepetitionPenalty` reads back for `a`
against `b` (0 when `a` is not in the lookup table). -/
def opRead (stats : String → Option Participant) (a b : String) : Nat :=
  match stats a with
  | some p => p.opponents b
  | none => 0

/-- The teammate count `calculateRepetitionPenalty` reads for a team —
0 unless both players are in the lookup table, else player 1's stored count
about player 2. -/
def tmRead (stats : String → Option Participant) (t : Team) : Nat :=
  match stats t.player1, stats t.player2 with
  | some p1, some _ => p1.teammates t.player2
  | _, _ => 0

theorem opponentPenaltyStep_eq (a b : String) (stats : String → Option Participant)
    (pen : ℝ) :
    opponentPenaltyStep a b stats pen = pen - (opRead stats a b : ℝ) * 0.3 := by
  unfold opponentPenaltyStep opRead
  cases h : stats a with
  | none => simp
  | some p => rfl

theorem teammatePenaltyStep_eq (t : Team) (stats : String → Option Participant)
    (pen : ℝ) :
    teammatePenaltyStep t stats pen = pen - (tmRead stats t : ℝ) * 0.5 := by
  unfold teammatePenaltyStep tmRead
  cases h1 : stats t.player1 with
  | none => cases h2 : stats t.player2 <;> simp
  | some p1 => cases h2 : stats t.player2 <;> simp

/-- Closed form of the repetition penalty in terms of the stored counts the
code reads: only the team-1-side opponent maps contribute. -/
theorem calculateRepetitionPenalty_eq (team1 team2 : Team)
    (stats : String → Option Participant) :
    calculateRepetitionPenalty team1 team2 stats =
      -((tmRead stats team1 : ℝ) * 0.5) - (tmRead stats team2 : ℝ) * 0.5 -
      ((opRead stats team1.player1 team2.player1 : ℝ) +
       (opRead stats team1.player1 team2.player2 : ℝ) +
       (opRead stats team1.player2 team2.player1 : ℝ) +
       (opRead stats team1.player2 team2.player2 : ℝ)) * 0.3 := by
  unfold calculateRepetitionPenalty
  dsimp only
  rw [teammatePenaltyStep_eq, teammatePenaltyStep_eq, opponentPenaltyStep_eq,
    opponentPenaltyStep_eq, opponentPenaltyStep_eq, opponentPenaltyStep_eq]
  ring

/-- With directionally-consistent stored opponent counts the repetition
penalty is symmetric in the team arguments. -/
theorem calculateRepetitionPenalty_swap {team1 team2 : Team}
    {stats : String → Option Participant}
    (hsym : ∀ x y, opRead stats x y = opRead stats y x) :
    calculateRepetitionPenalty team2 team1 stats =
      calculateRepetitionPenalty team1 team2 stats := by
  rw [calculateRepetitionPenalty_eq, calculateRepetitionPenalty_eq,
    hsym team2.player1 team1.player1, hsym team2.player1 team1.player2,
    hsym team2.player2 team1.player1, hsym team2.player2 team1.player2]
  ring

/-- The fairness term is symmetric in the team arguments (the four games
counts are just listed in a different order). -/
theorem calculateFairnessScore_swap (team1 team2 : Team)
    (stats : String → Option Participant) :
    calculateFairnessScore team2 team1 stats =
      calculateFairnessScore team1 team2 stats := by
  unfold calculateFairnessScore
  dsimp only
  simp only [List.map_cons, List.map_nil, List.sum_cons, List.sum_nil, List.length_cons,
    List.length_nil]
  refine congrArg (fun z => max 0 (10 - Real.sqrt z * 2)) ?_
  ring

theorem isOpponents_comm (team1 team2 : Team) (p1 p2 : String) :
    isOpponents team2 team1 p1 p2 = isOpponents team1 team2 p1 p2 := by
  unfold isOpponents
  dsimp only
  cases h1 : [team1.player1, team1.player2].contains p1 <;>
    cases h2 : [team1.player1, team1.player2].contains p2 <;>
    cases h3 : [team2.player1, team2.player2].contains p1 <;>
    cases h4 : [team2.player1, team2.player2].contains p2 <;>
    simp [h1, h2, h3, h4]

/-- The weight bonus is symmetric in the team arguments. -/
theorem calculateWeightBonus_swap (team1 team2 : Team) (w : List Weight) :
    calculateWeightBonus team2 team1 w = calculateWeightBonus team1 team2 w := by
  unfold calculateWeightBonus
  dsimp only
  have h1 : (w.filter (fun x => x.type == "teammate")).foldl
      (fun b x => if isTeammates team2 x.player1 x.player2 ||
        isTeammates team1 x.player1 x.player2 then b + x.weight * 0.5 else b) 0 =
      (w.filter (fun x => x.type == "teammate")).foldl
      (fun b x => if isTeammates team1 x.player1 x.player2 ||
        isTeammates team2 x.player1 x.player2 then b + x.weight * 0.5 else b) 0 :=
    List.foldl_ext _ _ 0 (fun b x _ => by rw [Bool.or_comm])
  rw [h1]
  exact List.foldl_ext _ _ _ (fun b x _ => by rw [isOpponents_comm])

/-- Claim C8 (corrected, under symmetric stored histories): when the stored
opponent counts are directionally consistent (`A.opponents[B] =
B.opponents[A]` for all ids — the invariant the updater maintains),
`calculateTeamScore` is symmetric in its two team arguments for the same
drawn jitter value. -/
theorem claim_C8 (team1 team2 : Team) (w : List Weight) (ps : List Participant)
    (r : ℝ)
    (hsym : ∀ x y, opRead (buildPlayerStats ps) x y = opRead (buildPlayerStats ps) y x) :
    calculateTeamScore team2 team1 w ps r = calculateTeamScore team1 team2 w ps r := by
  unfold calculateTeamScore
  dsimp only
  rw [calculateFairnessScore_swap, calculateWeightBonus_swap,
    calculateRepetitionPenalty_swap hsym]

/-- A participant with a one-sided opponent history: `a` records one prior
meeting with `c`, while `c`'s map is empty. -/
def pOppA : Participant :=
  { freshP "a" with opponents := fun x => if x = "c" then 1 else 0 }

/-- Roster exhibiting asymmetric stored opponent counts. -/
def psAsym : List Participant := [pOppA, freshP "c"]

/-- Counterexample to claim C8 as stated (for every participant list): the
repetition penalty only reads the team-1-side `opponents` maps, so a roster
with asymmetric stored counts scores the two team orders differently. -/
theorem claim_C8_cex :
    calculateTeamScore mABCD.team1 mABCD.team2 [] psAsym (1/2) ≠
      calculateTeamScore mABCD.team2 mABCD.team1 [] psAsym (1/2) := by
  have hg : ∀ p ∈ psAsym, p.gamesPlayed = 0 := by decide
  unfold calculateTeamScore
  dsimp only
  rw [calculateFairnessScore_allZero hg, calculateFairnessScore_allZero hg,
    calculateWeightBonus_nil, calculateWeightBonus_nil,
    calculateRepetitionPenalty_eq, calculateRepetitionPenalty_eq]
  have e1 : tmRead (buildPlayerStats psAsym) mABCD.team1 = 0 := rfl
  have e2 : tmRead (buildPlayerStats psAsym) mABCD.team2 = 0 := rfl
  have e3 : opRead (buildPlayerStats psAsym) mABCD.team1.player1 mABCD.team2.player1 = 1 :=
    rfl
  have e4 : opRead (buildPlayerStats psAsym) mABCD.team1.player1 mABCD.team2.player2 = 0 :=
    rfl
  have e5 : opRead (buildPlayerStats psAsym) mABCD.team1.player2 mABCD.team2.player1 = 0 :=
    rfl
  have e6 : opRead (buildPlayerStats psAsym) mABCD.team1.player2 mABCD.team2.player2 = 0 :=
    rfl
  have e7 : opRead (buildPlayerStats psAsym) mABCD.team2.player1 mABCD.team1.player1 = 0 :=
    rfl
  have e8 : opRead (buildPlayerStats psAsym) mABCD.team2.player1 mABCD.team1.player2 = 0 :=
    rfl
  have e9 : opRead (buildPlayerStats psAsym) mABCD.team2.player2 mABCD.team1.player1 = 0 :=
    rfl
  have e10 : opRead (buildPlayerStats psAsym) mABCD.team2.player2 mABCD.team1.player2 = 0 :=
    rfl
  rw [e1, e2, e3, e4, e5, e6, e7, e8, e9, e10]
  norm_num

/-- Witness for claim C8: with an empty roster every stored count is 0, the
symmetry hypothesis holds, and the two team orders score equally. -/
theorem claim_C8_witness :
    (∀ x y, opRead (buildPlayerStats ([] : List Participant)) x y =
      opRead (buildPlayerStats ([] : List Participant)) y x) ∧
    calculateTeamScore mABCD.team2 mABCD.team1 [] [] (1/2) =
      calculateTeamScore mABCD.team1 mABCD.team2 [] [] (1/2) :=
  ⟨fun x y => rfl, claim_C8 mABCD.team1 mABCD.team2 [] [] (1/2) (fun x y => rfl)⟩

/-! ## Claim support: branch equations of `generateOptimalTeams` -/

/-- The `availableParticipants` binding of `generateOptimalTeams`. -/
def availableOf (P : List Participant) : List Participant :=
  P.filter (fun p => !p.hasLeft)

/-- The `sortedParticipants` binding of `generateOptimalTeams`. -/
def sortedOf (P : List Participant) (rng : Rng) : List Participant :=
  rng.sortMain (availableOf P)

/-- The `playingCount` binding of `generateOptimalTeams`. -/
def playingCountOf (P : List Participant) (cc : Nat) (rng : Rng) : Nat :=
  min cc ((sortedOf P rng).length / 4) * 4

/-- The `playingPlayers` binding of `generateOptimalTeams`. -/
def playingOf (P : List Participant) (cc : Nat) (rng : Rng) : List Participant :=
  (sortedOf P rng).take (playingCountOf P cc rng)

/-- The `remainingPlayers` binding of `generateOptimalTeams`. -/
def remainingOf (P : List Participant) (cc : Nat) (rng : Rng) : List Participant :=
  (sortedOf P rng).drop (playingCountOf P cc rng)

/-- The `queuePlayers` binding of `generateOptimalTeams`. -/
noncomputable def queueOf (P : List Participant) (cc : Nat) (w : List Weight) (rng : Rng) :
    List GameMatch :=
  generateQueueWithSupplement (remainingOf P cc rng) (playingOf P cc rng) cc w P rng

theorem generateOptimalTeams_queue_eq {P : List Participant} {cc : Nat} {w : List Weight}
    {rng : Rng} (h : ¬ (availableOf P).length < 4) :
    (generateOptimalTeams P cc w rng).queue = queueOf P cc w rng := by
  have h' : ¬ (P.filter (fun p => !p.hasLeft)).length < 4 := h
  unfold generateOptimalTeams queueOf remainingOf playingOf playingCountOf sortedOf
    availableOf
  dsimp only
  rw [if_neg h']

theorem generateOptimalTeams_courts_eq {P : List Participant} {cc : Nat} {w : List Weight}
    {rng : Rng} (h : ¬ (availableOf P).length < 4) :
    (generateOptimalTeams P cc w rng).courts =
      fillEmptyCourts
        (assignPlayersToCourts (playingOf P cc rng) ((playingCountOf P cc rng + 3) / 4)
          w P rng) cc := by
  have h' : ¬ (P.filter (fun p => !p.hasLeft)).length < 4 := h
  unfold generateOptimalTeams playingOf playingCountOf sortedOf availableOf
  dsimp only
  rw [if_neg h']

theorem generateOptimalTeams_waiting_eq {P : List Participant} {cc : Nat} {w : List Weight}
    {rng : Rng} (h : ¬ (availableOf P).length < 4) :
    (generateOptimalTeams P cc w rng).waiting =
      ((sortedOf P rng).filter (fun p =>
        !((playingOf P cc rng).map (·.id)).contains p.id &&
        !((queueOf P cc w rng).flatMap matchPlayerIds).contains p.id)).map (·.id) := by
  have h' : ¬ (P.filter (fun p => !p.hasLeft)).length < 4 := h
  unfold generateOptimalTeams queueOf remainingOf playingOf playingCountOf sortedOf
    availableOf
  dsimp only
  rw [if_neg h']

/-! ## Claim support: counting and non-emptiness lemmas -/

theorem filter_contains_perm {arr sub : List String} (hnd : arr.Nodup) (hsnd : sub.Nodup)
    (hsub : ∀ x ∈ sub, x ∈ arr) :
    (arr.filter (fun x => sub.contains x)).Perm sub := by
  refine (List.perm_ext_iff_of_nodup ((List.filter_sublist _).nodup hnd) hsnd).mpr ?_
  intro a
  rw [List.mem_filter]
  constructor
  · rintro ⟨_, hc⟩
    simpa using hc
  · intro ha
    exact ⟨hsub a ha, by simpa using ha⟩

theorem filter_not_contains_length {arr sub : List String} (hnd : arr.Nodup)
    (hsnd : sub.Nodup) (hsub : ∀ x ∈ sub, x ∈ arr) :
    (arr.filter (fun x => !sub.contains x)).length = arr.length - sub.length := by
  have hsplit : arr.length = (arr.filter (fun x => sub.contains x)).length +
      (arr.filter (fun x => !sub.contains x)).length := by
    simpa using List.length_eq_length_filter_add (l := arr) (fun x => sub.contains x)
  have hperm := (filter_contains_perm hnd hsnd hsub).length_eq
  omega

theorem filter_not_contains_length_p {cands : List Participant} {used : List String}
    (hnd : (cands.map (·.id)).Nodup) (hund : used.Nodup)
    (hsub : ∀ x ∈ used, x ∈ cands.map (·.id)) :
    (cands.filter (fun p => !used.contains p.id)).length = cands.length - used.length := by
  have hmapf : (cands.map (·.id)).filter (fun x => !used.contains x) =
      (cands.filter (fun p => !used.contains p.id)).map (·.id) := by
    rw [List.filter_map]
    rfl
  have h1 := filter_not_contains_length hnd hund hsub
  rw [hmapf, List.length_map, List.length_map] at h1
  exact h1

theorem findBestGlobalAssignment_of_ne {players : List Participant} {cc : Nat}
    {w : List Weight} {all : List Participant} {rng : Rng}
    (hmc : ¬ min cc ((players.map (·.id)).length / 4) = 0)
    (hne : generateCourtAssignments (players.map (·.id))
      (min cc ((players.map (·.id)).length / 4)) ≠ []) :
    ∃ A ∈ generateCourtAssignments (players.map (·.id))
        (min cc ((players.map (·.id)).length / 4)),
      findBestGlobalAssignment players cc w all rng =
        (scoreAssignment A players cc w all rng.rand).1 := by
  unfold findBestGlobalAssignment
  dsimp only
  rw [if_neg hmc]
  rcases hb : bestPairFold (fun assignment =>
      scoreAssignment assignment players cc w all rng.rand)
      (generateCourtAssignments (players.map fun x => x.id)
        (min cc ((players.map fun x => x.id).length / 4))) with _ | ⟨bm, s⟩
  · rw [bestPairFold_eq_none_iff] at hb
    exact absurd hb hne
  · obtain ⟨A, hA, hEq⟩ := bestPairFold_mem hb
    exact ⟨A, hA, congrArg Prod.fst hEq⟩

theorem generateCourtAssignments_two_ne_nil {ids : List String} (hnd : ids.Nodup)
    (h8 : ids.length = 8) :
    generateCourtAssignments ids 2 ≠ [] := by
  unfold generateCourtAssignments
  rw [if_neg (by omega), if_pos (⟨rfl, by omega⟩ : 2 = 2 ∧ 8 ≤ ids.length)]
  dsimp only
  have htake : ids.take 8 = ids := List.take_of_length_le (by omega)
  rw [htake]
  obtain ⟨c, hc⟩ := List.exists_mem_of_ne_nil _
    (@getCombinations_ne_nil ids 4 (by omega))
  obtain ⟨hcsl, hclen⟩ := mem_getCombinations hc
  have hcomp : (ids.filter (fun id => !c.contains id)).length = 4 := by
    rw [filter_not_contains_length hnd (hcsl.nodup hnd) (fun x hx => hcsl.mem hx), h8,
      hclen]
  have hmem : [c, ids.filter (fun id => !c.contains id)] ∈
      (getCombinations ids 4).filterMap (fun court1Players =>
        if (ids.filter (fun id => !court1Players.contains id)).length = 4 then
          some [court1Players, ids.filter (fun id => !court1Players.contains id)]
        else none) :=
    List.mem_filterMap.mpr ⟨c, hc, by
      show (if (ids.filter (fun id => !c.contains id)).length = 4 then
          some [c, ids.filter (fun id => !c.contains id)] else none) =
        some [c, ids.filter (fun id => !c.contains id)]
      rw [if_pos hcomp]⟩
  exact List.ne_nil_of_mem hmem

theorem generateCourtAssignments_two_length {ids : List String} (h8 : 8 ≤ ids.length)
    {A : List (List String)} (hA : A ∈ generateCourtAssignments ids 2) :
    A.length = 2 := by
  unfold generateCourtAssignments at hA
  rw [if_neg (by omega), if_pos (⟨rfl, h8⟩ : 2 = 2 ∧ 8 ≤ ids.length)] at hA
  dsimp only at hA
  obtain ⟨c, hc, hsome⟩ := List.mem_filterMap.mp hA
  by_cases hlen : ((ids.take 8).filter (fun id => !c.contains id)).length = 4
  · rw [if_pos hlen] at hsome
    rw [Option.some_inj] at hsome
    rw [← hsome]
    rfl
  · rw [if_neg hlen] at hsome
    exact absurd hsome (by simp)

theorem scoreStepMatch_isSome {A : List (List String)} {players : List Participant}
    {w : List Weight} {all : List Participant} {rand : Team → Team → ℝ} {i : Nat}
    (hlen : (A.getD i []).length = 4)
    (hpres : ∀ id ∈ A.getD i [], ∃ p ∈ players, p.id = id) :
    ∃ m, scoreStepMatch A players w all rand i = some m := by
  unfold scoreStepMatch
  dsimp only
  rw [if_pos hlen]
  have hcp : ((A.getD i []).filterMap
      (fun id => players.find? (fun p => p.id == id))).length = 4 := by
    rw [filterMap_find_length_of_found hpres, hlen]
  exact findBestTeamMatch_isSome (by omega)

theorem scoredAt_isSome {A : List (List String)} {players : List Participant} {cc : Nat}
    {w : List Weight} {all : List Participant} {rand : Team → Team → ℝ} {i : Nat}
    (hiA : i < A.length) (hicc : i < cc)
    (hlen : (A.getD i []).length = 4)
    (hpres : ∀ id ∈ A.getD i [], ∃ p ∈ players, p.id = id) :
    ∃ m, scoredAt A players cc w all rand i = some m := by
  obtain ⟨m, hm⟩ := @scoreStepMatch_isSome A players w all rand i hlen hpres
  refine ⟨m, ?_⟩
  unfold scoredAt
  rw [if_pos ⟨hiA, hicc⟩]
  exact hm

/-! ## Claim support: concrete executions with the identity-permutation rng -/

/-- Eight fresh participants. -/
def P8 : List Participant :=
  [freshP "p1", freshP "p2", freshP "p3", freshP "p4",
   freshP "p5", freshP "p6", freshP "p7", freshP "p8"]

theorem P8_games : ∀ p ∈ P8, p.gamesPlayed = 0 := by decide

theorem P8_tm : ∀ p ∈ P8, ∀ y, p.teammates y = 0 := by
  intro p hp
  unfold P8 at hp
  fin_cases hp <;> intro y <;> rfl

theorem P8_op : ∀ p ∈ P8, ∀ y, p.opponents y = 0 := by
  intro p hp
  unfold P8 at hp
  fin_cases hp <;> intro y <;> rfl

/-- On an all-fresh roster with `rng0`, the team finder returns the first
enumerated split. -/
theorem findBestTeamMatch_fresh {players all : List Participant}
    (h4 : 4 ≤ players.length)
    (hg : ∀ p ∈ all, p.gamesPlayed = 0)
    (htm : ∀ p ∈ all, ∀ y, p.teammates y = 0)
    (hop : ∀ p ∈ all, ∀ y, p.opponents y = 0) :
    findBestTeamMatch players [] all rng0.rand =
      (generateTeamCombinationsForPlayers players).head? := by
  apply findBestTeamMatch_const_score (v := 10 + ((1:ℝ)/2 - 0.5) * 0.1) h4
  intro c hc
  have hcalc := calculateTeamScore_fresh hg htm hop c.team1 c.team2
    (rng0.rand c.team1 c.team2)
  rw [hcalc]
  rfl

/-- The first enumerated split of `p5 p6 p7 p8`. -/
def m58 : GameMatch :=
  { team1 := { player1 := "p5", player2 := "p6" }
    team2 := { player1 := "p7", player2 := "p8" } }

/-- The first enumerated split of `p1 p2 p3 p4`. -/
def m14 : GameMatch :=
  { team1 := { player1 := "p1", player2 := "p2" }
    team2 := { player1 := "p3", player2 := "p4" } }

/-- The queue candidate pool in the 8-player, 1-court run: the 4 remaining
players supplemented with the 4 playing players. -/
def L8 : List Participant :=
  [freshP "p5", freshP "p6", freshP "p7", freshP "p8",
   freshP "p1", freshP "p2", freshP "p3", freshP "p4"]

theorem P8_match_back :
    findBestTeamMatch [freshP "p5", freshP "p6", freshP "p7", freshP "p8"]
      [] P8 rng0.rand = some m58 := by
  rw [findBestTeamMatch_fresh (by decide) P8_games P8_tm P8_op]
  rfl

theorem P8_match_front :
    findBestTeamMatch [freshP "p1", freshP "p2", freshP "p3", freshP "p4"]
      [] P8 rng0.rand = some m14 := by
  rw [findBestTeamMatch_fresh (by decide) P8_games P8_tm P8_op]
  rfl

theorem P8_bq1 : buildQueue L8 [] P8 rng0 1 ["p8", "p7", "p6", "p5"] = [m14] := by
  rw [buildQueue_succ]
  rw [if_neg (by decide :
    ¬ (L8.length - (["p8", "p7", "p6", "p5"] : List String).length < 4))]
  have hfil : L8.filter
      (fun p => !(["p8", "p7", "p6", "p5"] : List String).contains p.id) =
      [freshP "p1", freshP "p2", freshP "p3", freshP "p4"] := rfl
  rw [hfil]
  rw [if_neg (by decide : ¬ (([freshP "p1", freshP "p2", freshP "p3", freshP "p4"] :
      List Participant).length < 4))]
  have hsel : selectOptimalQueueGroup
      [freshP "p1", freshP "p2", freshP "p3", freshP "p4"] P8 4 rng0 =
      [freshP "p1", freshP "p2", freshP "p3", freshP "p4"] := rfl
  rw [hsel]
  rw [if_pos (by decide : ([freshP "p1", freshP "p2", freshP "p3", freshP "p4"] :
      List Participant).length = 4)]
  rw [P8_match_front]
  rfl

theorem P8_bq2 : buildQueue L8 [] P8 rng0 2 [] = [m58, m14] := by
  rw [buildQueue_succ]
  rw [if_neg (by decide : ¬ (L8.length - ([] : List String).length < 4))]
  have hfil : L8.filter (fun p => !([] : List String).contains p.id) = L8 := rfl
  rw [hfil]
  rw [if_neg (by decide : ¬ (L8.length < 4))]
  have hsel : selectOptimalQueueGroup L8 P8 4 rng0 =
      [freshP "p5", freshP "p6", freshP "p7", freshP "p8"] := rfl
  rw [hsel]
  rw [if_pos (by decide : ([freshP "p5", freshP "p6", freshP "p7", freshP "p8"] :
      List Participant).length = 4)]
  rw [P8_match_back]
  show m58 :: buildQueue L8 [] P8 rng0 1 ((matchPlayerIds m58).foldl insertId []) =
    [m58, m14]
  have hused : (matchPlayerIds m58).foldl insertId [] = ["p8", "p7", "p6", "p5"] := rfl
  rw [hused, P8_bq1]

theorem P8_queue : (generateOptimalTeams P8 1 [] rng0).queue = [m58, m14] := by
  rw [generateOptimalTeams_queue_eq (by decide)]
  unfold queueOf generateQueueWithSupplement
  dsimp only
  rw [if_pos (by decide : (remainingOf P8 1 rng0).length < 2 * 4)]
  have hcand : remainingOf P8 1 rng0 ++
      (rng0.sortSupp (playingOf P8 1 rng0)).take
        (2 * 4 - (remainingOf P8 1 rng0).length) = L8 := rfl
  rw [hcand, P8_bq2]

/-- The single court record of the 8-player, 1-court run. -/
def courtP8 : Court :=
  { id := 1, name := "场地 1", team1 := some m14.team1, team2 := some m14.team2,
    status := "playing", startTime := some () }

theorem P8_assign :
    assignPlayersToCourts [freshP "p1", freshP "p2", freshP "p3", freshP "p4"]
      1 [] P8 rng0 = [courtP8] := by
  unfold assignPlayersToCourts
  dsimp only
  rw [if_neg (by decide : ¬ (([freshP "p1", freshP "p2", freshP "p3", freshP "p4"] :
      List Participant).length < 4))]
  rw [if_pos (Or.inl rfl :
    1 = 1 ∨ ([freshP "p1", freshP "p2", freshP "p3", freshP "p4"] :
      List Participant).length = 4)]
  rw [P8_match_front]
  rfl

theorem P8_courts : (generateOptimalTeams P8 1 [] rng0).courts = [courtP8] := by
  rw [generateOptimalTeams_courts_eq (by decide)]
  have hplay : playingOf P8 1 rng0 =
      [freshP "p1", freshP "p2", freshP "p3", freshP "p4"] := rfl
  have hcnt : (playingCountOf P8 1 rng0 + 3) / 4 = 1 := rfl
  rw [hplay, hcnt, P8_assign]
  rw [fillEmptyCourts_eq 0 [courtP8] 1 (by decide)]
  rfl

theorem P8_courtIds :
    courtIds (generateOptimalTeams P8 1 [] rng0).courts = ["p1", "p2", "p3", "p4"] := by
  rw [P8_courts]
  rfl

theorem P8_queueIds :
    queueIds (generateOptimalTeams P8 1 [] rng0) =
      ["p5", "p6", "p7", "p8", "p1", "p2", "p3", "p4"] := by
  unfold queueIds
  rw [P8_queue]
  rfl

/-- Counterexample to claim C1 as stated (for every roster and courtCount):
with 8 fresh players and 1 court, the queue supplement borrows the 4 playing
players, so ids `p1…p4` appear both on the court and in the second queue
match — the multiset union of court and queue players has duplicates. -/
theorem claim_C1_cex :
    ¬ ((courtIds (generateOptimalTeams P8 1 [] rng0).courts ++
        queueIds (generateOptimalTeams P8 1 [] rng0)).Nodup) := by
  rw [P8_courtIds, P8_queueIds]
  decide

/-- Claim C1 (corrected): the no-duplicate-placement property holds whenever
at least 8 eligible players remain beyond the playing pool — then the queue
never borrows playing players, and the multiset union of all court players
and queue players is duplicate-free.  (With fewer remaining players the
supplement deliberately reuses playing players; see the counterexample.) -/
theorem claim_C1 {P : List Participant} {cc : Nat} {w : List Weight} {rng : Rng}
    (hval : rng.Valid) (hnd : (P.map (·.id)).Nodup)
    (h8 : 8 ≤ (P.filter (fun p => !p.hasLeft)).length -
      4 * min cc ((P.filter (fun p => !p.hasLeft)).length / 4)) :
    ((courtIds (generateOptimalTeams P cc w rng).courts) ++
      queueIds (generateOptimalTeams P cc w rng)).Nodup := by
  obtain ⟨_, _, hcnd, hqnd, _, _, hdisj⟩ := @generateOptimalTeams_spec P cc w rng hval hnd
  rw [List.nodup_append]
  exact ⟨hcnd, hqnd, hdisj h8⟩

/-- Sixteen fresh participants. -/
def P16 : List Participant :=
  [freshP "q01", freshP "q02", freshP "q03", freshP "q04",
   freshP "q05", freshP "q06", freshP "q07", freshP "q08",
   freshP "q09", freshP "q10", freshP "q11", freshP "q12",
   freshP "q13", freshP "q14", freshP "q15", freshP "q16"]

/-- Witness for claim C1: sixteen players on two courts leave eight
remaining, and the placements are duplicate-free. -/
theorem claim_C1_witness :
    ((P16.map (·.id)).Nodup ∧
      8 ≤ (P16.filter (fun p => !p.hasLeft)).length -
        4 * min 2 ((P16.filter (fun p => !p.hasLeft)).length / 4)) ∧
    ((courtIds (generateOptimalTeams P16 2 [] rng0).courts) ++
      queueIds (generateOptimalTeams P16 2 [] rng0)).Nodup :=
  ⟨⟨by decide, by decide⟩, claim_C1 rng0_valid (by decide) (by decide)⟩

/-- Twelve fresh participants. -/
def P12 : List Participant :=
  [freshP "p1", freshP "p2", freshP "p3", freshP "p4",
   freshP "p5", freshP "p6", freshP "p7", freshP "p8",
   freshP "p9", freshP "p10", freshP "p11", freshP "p12"]

theorem P12_games : ∀ p ∈ P12, p.gamesPlayed = 0 := by decide

theorem P12_tm : ∀ p ∈ P12, ∀ y, p.teammates y = 0 := by
  intro p hp
  unfold P12 at hp
  fin_cases hp <;> intro y <;> rfl

theorem P12_op : ∀ p ∈ P12, ∀ y, p.opponents y = 0 := by
  intro p hp
  unfold P12 at hp
  fin_cases hp <;> intro y <;> rfl

/-- The first enumerated split of `p9 p10 p11 p12`. -/
def m912 : GameMatch :=
  { team1 := { player1 := "p9", player2 := "p10" }
    team2 := { player1 := "p11", player2 := "p12" } }

/-- The queue candidate pool in the 12-player, 2-court run: the 4 remaining
players supplemented with the first 4 playing players. -/
def L12 : List Participant :=
  [freshP "p9", freshP "p10", freshP "p11", freshP "p12",
   freshP "p1", freshP "p2", freshP "p3", freshP "p4"]

theorem P12_match_back :
    findBestTeamMatch [freshP "p9", freshP "p10", freshP "p11", freshP "p12"]
      [] P12 rng0.rand = some m912 := by
  rw [findBestTeamMatch_fresh (by decide) P12_games P12_tm P12_op]
  rfl

theorem P12_match_front :
    findBestTeamMatch [freshP "p1", freshP "p2", freshP "p3", freshP "p4"]
      [] P12 rng0.rand = some m14 := by
  rw [findBestTeamMatch_fresh (by decide) P12_games P12_tm P12_op]
  rfl

theorem P12_bq1 : buildQueue L12 [] P12 rng0 1 ["p12", "p11", "p10", "p9"] = [m14] := by
  rw [buildQueue_succ]
  rw [if_neg (by decide :
    ¬ (L12.length - (["p12", "p11", "p10", "p9"] : List String).length < 4))]
  have hfil : L12.filter
      (fun p => !(["p12", "p11", "p10", "p9"] : List String).contains p.id) =
      [freshP "p1", freshP "p2", freshP "p3", freshP "p4"] := rfl
  rw [hfil]
  rw [if_neg (by decide : ¬ (([freshP "p1", freshP "p2", freshP "p3", freshP "p4"] :
      List Participant).length < 4))]
  have hsel : selectOptimalQueueGroup
      [freshP "p1", freshP "p2", freshP "p3", freshP "p4"] P12 4 rng0 =
      [freshP "p1", freshP "p2", freshP "p3", freshP "p4"] := rfl
  rw [hsel]
  rw [if_pos (by decide : ([freshP "p1", freshP "p2", freshP "p3", freshP "p4"] :
      List Participant).length = 4)]
  rw [P12_match_front]
  rfl

theorem P12_bq2 : buildQueue L12 [] P12 rng0 2 [] = [m912, m14] := by
  rw [buildQueue_succ]
  rw [if_neg (by decide : ¬ (L12.length - ([] : List String).length < 4))]
  have hfil : L12.filter (fun p => !([] : List String).contains p.id) = L12 := rfl
  rw [hfil]
  rw [if_neg (by decide : ¬ (L12.length < 4))]
  have hsel : selectOptimalQueueGroup L12 P12 4 rng0 =
      [freshP "p9", freshP "p10", freshP "p11", freshP "p12"] := rfl
  rw [hsel]
  rw [if_pos (by decide : ([freshP "p9", freshP "p10", freshP "p11", freshP "p12"] :
      List Participant).length = 4)]
  rw [P12_match_back]
  show m912 :: buildQueue L12 [] P12 rng0 1 ((matchPlayerIds m912).foldl insertId []) =
    [m912, m14]
  have hused : (matchPlayerIds m912).foldl insertId [] = ["p12", "p11", "p10", "p9"] := rfl
  rw [hused, P12_bq1]

theorem P12_queue : (generateOptimalTeams P12 2 [] rng0).queue = [m912, m14] := by
  rw [generateOptimalTeams_queue_eq (by decide)]
  unfold queueOf generateQueueWithSupplement
  dsimp only
  rw [if_pos (by decide : (remainingOf P12 2 rng0).length < 2 * 4)]
  have hcand : remainingOf P12 2 rng0 ++
      (rng0.sortSupp (playingOf P12 2 rng0)).take
        (2 * 4 - (remainingOf P12 2 rng0).length) = L12 := rfl
  rw [hcand, P12_bq2]

/-- Counterexample to claim C2 as stated: in the 12-player, 2-court scenario
the queue holds two matches (the second made of borrowed playing players),
not exactly one. -/
theorem claim_C2_cex :
    (generateOptimalTeams P12 2 [] rng0).queue.length = 2 ∧
    (generateOptimalTeams P12 2 [] rng0).queue.length ≠ 1 := by
  rw [P12_queue]
  exact ⟨rfl, by decide⟩

theorem nodup_foldl_insertId (l : List String) :
    ∀ used : List String, used.Nodup → (l.foldl insertId used).Nodup := by
  induction l with
  | nil => intro used h; exact h
  | cons a as ih =>
    intro used h
    rw [List.foldl_cons]
    apply ih
    unfold insertId
    by_cases ha : used.contains a
    · rw [if_pos ha]; exact h
    · rw [if_neg ha]
      exact List.nodup_cons.mpr ⟨by simpa using ha, h⟩

/-- From a pool of exactly 8 distinct candidates the queue builder produces
exactly two matches, and together they use every candidate. -/
theorem buildQueue_two_of_eight {cands : List Participant} (w : List Weight)
    (all : List Participant) {rng : Rng} (hval : rng.Valid)
    (hnd : (cands.map (·.id)).Nodup) (hlen : cands.length = 8) :
    ∃ m1 m2, buildQueue cands w all rng 2 [] = [m1, m2] ∧
      (∀ x ∈ cands.map (·.id), x ∈ matchPlayerIds m1 ∨ x ∈ matchPlayerIds m2) := by
  have hfil : cands.filter (fun p => !([] : List String).contains p.id) = cands := by
    apply List.filter_eq_self.mpr
    intro a _
    rfl
  have hsellen : (selectOptimalQueueGroup cands all 4 rng).length = 4 := by
    unfold selectOptimalQueueGroup
    rw [if_neg (by simp only [hlen]; omega)]
    rw [List.length_take, (hval.2.2 cands).length_eq, hlen]
    decide
  have hsel1nd : ((selectOptimalQueueGroup cands all 4 rng).map (·.id)).Nodup :=
    selectOptimalQueueGroup_nodup hval hnd
  obtain ⟨m1, hm1⟩ := @findBestTeamMatch_isSome
    (selectOptimalQueueGroup cands all 4 rng) w all rng.rand (by omega)
  have hm1mem := findBestTeamMatch_mem hm1
  have hm1sub := matchIds_subset_of_mem_combos hm1mem
  have hm1nd : (matchPlayerIds m1).Nodup := matchIds_nodup_of_mem_combos hsel1nd hm1mem
  have hm1len : (matchPlayerIds m1).length = 4 := rfl
  have hm1cands : ∀ x ∈ matchPlayerIds m1, x ∈ cands.map (·.id) := by
    intro x hx
    obtain ⟨p, hp, hpx⟩ := List.mem_map.mp (hm1sub hx)
    exact List.mem_map.mpr ⟨p, selectOptimalQueueGroup_subset hval p hp, hpx⟩
  have hused1mem : ∀ x, x ∈ (matchPlayerIds m1).foldl insertId [] ↔
      x ∈ matchPlayerIds m1 := by
    intro x
    rw [mem_foldl_insertId]
    simp
  have hused1len : ((matchPlayerIds m1).foldl insertId []).length = 4 := by
    rw [foldl_insertId_length_of_nodup hm1nd [] (fun x _ => List.not_mem_nil x), hm1len]
    rfl
  have hused1nd : ((matchPlayerIds m1).foldl insertId []).Nodup :=
    nodup_foldl_insertId _ [] List.nodup_nil
  have hused1sub : ∀ x ∈ (matchPlayerIds m1).foldl insertId [], x ∈ cands.map (·.id) :=
    fun x hx => hm1cands x ((hused1mem x).mp hx)
  have hfil2len : (cands.filter
      (fun p => !((matchPlayerIds m1).foldl insertId []).contains p.id)).length = 4 := by
    rw [filter_not_contains_length_p hnd hused1nd hused1sub, hlen, hused1len]
  have hfil2nd : ((cands.filter
      (fun p => !((matchPlayerIds m1).foldl insertId []).contains p.id)).map
        (·.id)).Nodup :=
    ((List.filter_sublist _).map _).nodup hnd
  have hsel2 : selectOptimalQueueGroup (cands.filter
      (fun p => !((matchPlayerIds m1).foldl insertId []).contains p.id)) all 4 rng =
      cands.filter (fun p => !((matchPlayerIds m1).foldl insertId []).contains p.id) := by
    unfold selectOptimalQueueGroup
    rw [if_pos (by omega)]
    exact List.take_of_length_le (by omega)
  obtain ⟨m2, hm2⟩ := @findBestTeamMatch_isSome
    (cands.filter (fun p => !((matchPlayerIds m1).foldl insertId []).contains p.id))
    w all rng.rand (by omega)
  have hm2mem := findBestTeamMatch_mem hm2
  have hm2sub := matchIds_subset_of_mem_combos hm2mem
  have hm2nd : (matchPlayerIds m2).Nodup := matchIds_nodup_of_mem_combos hfil2nd hm2mem
  have hm2len : (matchPlayerIds m2).length = 4 := rfl
  have hm2perm : (matchPlayerIds m2).Perm ((cands.filter
      (fun p => !((matchPlayerIds m1).foldl insertId []).contains p.id)).map (·.id)) := by
    apply (List.subperm_of_subset hm2nd hm2sub).perm_of_length_le
    rw [List.length_map, hfil2len, hm2len]
  refine ⟨m1, m2, ?_, ?_⟩
  · rw [buildQueue_succ,
      if_neg (by simp only [hlen, List.length_nil]; omega), hfil,
      if_neg (by simp only [hlen]; omega), if_pos hsellen, hm1]
    show m1 :: buildQueue cands w all rng 1 ((matchPlayerIds m1).foldl insertId []) =
      [m1, m2]
    rw [buildQueue_succ,
      if_neg (by simp only [hlen, hused1len]; omega),
      if_neg (by simp only [hfil2len]; omega), hsel2, if_pos hfil2len, hm2]
    rfl
  · intro x hx
    by_cases hx1 : x ∈ matchPlayerIds m1
    · exact Or.inl hx1
    · right
      apply hm2perm.mem_iff.mpr
      obtain ⟨p, hp, hpx⟩ := List.mem_map.mp hx
      apply List.mem_map.mpr
      refine ⟨p, ?_, hpx⟩
      apply List.mem_filter.mpr
      refine ⟨hp, ?_⟩
      have hnot : p.id ∉ (matchPlayerIds m1).foldl insertId [] := by
        rw [hpx]
        intro hmem
        exact hx1 ((hused1mem x).mp hmem)
      simpa using hnot

/-- Claim C2 (corrected): with 12 distinct eligible participants and 2
courts, `generateOptimalTeams` fills both courts with matches (8 players
placed on courts) and the waiting list is empty — but the queue holds TWO
matches (the 4 remaining players plus 4 borrowed playing players), not one
match made of the remaining 4 players. -/
theorem claim_C2 {P : List Participant} {rng : Rng} (hval : rng.Valid)
    (hnd : (P.map (·.id)).Nodup) (hlen : P.length = 12)
    (hstay : ∀ p ∈ P, p.hasLeft = false) :
    (generateOptimalTeams P 2 [] rng).courts.length = 2 ∧
    (∀ c ∈ (generateOptimalTeams P 2 [] rng).courts, c.status = "playing") ∧
    (courtIds (generateOptimalTeams P 2 [] rng).courts).length = 8 ∧
    (generateOptimalTeams P 2 [] rng).queue.length = 2 ∧
    (generateOptimalTeams P 2 [] rng).waiting = [] := by
  have havail : availableOf P = P := by
    unfold availableOf
    apply List.filter_eq_self.mpr
    intro p hp
    simp [hstay p hp]
  have h4 : ¬ (availableOf P).length < 4 := by
    rw [havail]
    omega
  have hsortperm : (sortedOf P rng).Perm P := by
    unfold sortedOf
    rw [havail]
    exact hval.1 P
  have hSlen : (sortedOf P rng).length = 12 := by rw [hsortperm.length_eq, hlen]
  have hSnd : ((sortedOf P rng).map (·.id)).Nodup :=
    ((hsortperm.map _).nodup_iff).mpr hnd
  have hpc : playingCountOf P 2 rng = 8 := by
    unfold playingCountOf
    rw [hSlen]
    decide
  have hplaylen : (playingOf P 2 rng).length = 8 := by
    unfold playingOf
    rw [List.length_take, hpc, hSlen]
    decide
  have hremlen : (remainingOf P 2 rng).length = 4 := by
    unfold remainingOf
    rw [List.length_drop, hpc, hSlen]
  have hsplit : (playingOf P 2 rng).map (·.id) ++ (remainingOf P 2 rng).map (·.id) =
      (sortedOf P rng).map (·.id) := by
    rw [← List.map_append]
    unfold playingOf remainingOf
    rw [List.take_append_drop]
  obtain ⟨hpnd, hrnd, hprdisj⟩ := List.nodup_append.mp (hsplit ▸ hSnd)
  have hsupplen : ((rng.sortSupp (playingOf P 2 rng)).take
      (2 * 4 - (remainingOf P 2 rng).length)).length = 4 := by
    rw [List.length_take, (hval.2.1 _).length_eq, hplaylen, hremlen]
    decide
  have hClen : (remainingOf P 2 rng ++ (rng.sortSupp (playingOf P 2 rng)).take
      (2 * 4 - (remainingOf P 2 rng).length)).length = 8 := by
    rw [List.length_append, hsupplen, hremlen]
  have hCnd : ((remainingOf P 2 rng ++ (rng.sortSupp (playingOf P 2 rng)).take
      (2 * 4 - (remainingOf P 2 rng).length)).map (·.id)).Nodup := by
    rw [List.map_append, List.nodup_append]
    refine ⟨hrnd, ?_, ?_⟩
    · rw [List.map_take]
      exact (List.take_sublist _ _).nodup (((hval.2.1 _).map _).nodup_iff.mpr hpnd)
    · intro x hx1 hx2
      have hx2' : x ∈ (playingOf P 2 rng).map (·.id) := by
        rw [List.map_take] at hx2
        exact ((hval.2.1 _).map _).mem_iff.mp (List.take_subset _ _ hx2)
      exact hprdisj hx2' hx1
  obtain ⟨m1, m2, hbq, hcover⟩ := @buildQueue_two_of_eight
    (remainingOf P 2 rng ++ (rng.sortSupp (playingOf P 2 rng)).take
      (2 * 4 - (remainingOf P 2 rng).length)) [] P rng hval hCnd hClen
  have hqOf : queueOf P 2 [] rng = [m1, m2] := by
    unfold queueOf generateQueueWithSupplement
    dsimp only
    rw [if_pos (by omega : (remainingOf P 2 rng).length < 2 * 4)]
    exact hbq
  have hqueue : (generateOptimalTeams P 2 [] rng).queue = [m1, m2] := by
    rw [generateOptimalTeams_queue_eq h4, hqOf]
  have hplaymaplen : ((playingOf P 2 rng).map (·.id)).length = 8 := by
    rw [List.length_map, hplaylen]
  have hmin2 : min 2 (((playingOf P 2 rng).map (·.id)).length / 4) = 2 := by
    rw [hplaymaplen]
    decide
  have hmc : ¬ min 2 (((playingOf P 2 rng).map (·.id)).length / 4) = 0 := by
    rw [hmin2]
    omega
  have hcombne : generateCourtAssignments ((playingOf P 2 rng).map (·.id))
      (min 2 (((playingOf P 2 rng).map (·.id)).length / 4)) ≠ [] := by
    rw [hmin2]
    exact generateCourtAssignments_two_ne_nil hpnd hplaymaplen
  obtain ⟨A, hA, hB⟩ := findBestGlobalAssignment_of_ne hmc hcombne
  rw [hmin2] at hA
  have hAlen : A.length = 2 := generateCourtAssignments_two_length (by omega) hA
  obtain ⟨hgroups, _⟩ := generateCourtAssignments_spec hpnd (by omega) A hA
  have hgetlen : ∀ i, i < 2 → (A.getD i []).length = 4 := by
    intro i hi
    have hi' : i < A.length := by omega
    rw [List.getD_eq_getElem A [] hi']
    exact (hgroups _ (List.get_mem A i hi')).2.2
  have hgetpres : ∀ i, i < 2 → ∀ id ∈ A.getD i [], ∃ p ∈ playingOf P 2 rng, p.id = id := by
    intro i hi id hid
    have hi' : i < A.length := by omega
    have h1 : A.getD i [] ∈ A := by
      rw [List.getD_eq_getElem A [] hi']
      exact List.get_mem A i hi'
    obtain ⟨p, hp, hpx⟩ := List.mem_map.mp ((hgroups _ h1).1 hid)
    exact ⟨p, hp, hpx⟩
  obtain ⟨mc0, hmc0⟩ := @scoredAt_isSome A (playingOf P 2 rng) 2 [] P rng.rand 0
    (by omega) (by omega) (hgetlen 0 (by omega)) (hgetpres 0 (by omega))
  obtain ⟨mc1, hmc1⟩ := @scoredAt_isSome A (playingOf P 2 rng) 2 [] P rng.rand 1
    (by omega) (by omega) (hgetlen 1 (by omega)) (hgetpres 1 (by omega))
  have hassign : assignPlayersToCourts (playingOf P 2 rng) 2 [] P rng =
      applyAssignment ((List.range 2).map emptyCourt)
        (findBestGlobalAssignment (playingOf P 2 rng) 2 [] P rng) 2 := by
    unfold assignPlayersToCourts
    dsimp only
    rw [if_neg (by omega : ¬ (playingOf P 2 rng).length < 4),
      if_neg (by simp [hplaylen] : ¬ (2 = 1 ∨ (playingOf P 2 rng).length = 4))]
  have hcc4 : (playingCountOf P 2 rng + 3) / 4 = 2 := by
    rw [hpc]
  have hcourts2 : (generateOptimalTeams P 2 [] rng).courts =
      (List.range 2).map (fun i =>
        match scoredAt A (playingOf P 2 rng) 2 [] P rng.rand i with
        | some m => playingCourt i m
        | none => emptyCourt i) := by
    rw [generateOptimalTeams_courts_eq h4, hcc4, hassign, hB,
      applyAssignment_emptyCourts]
    have hmapc : ∀ i ∈ List.range 2,
        (match (scoreAssignment A (playingOf P 2 rng) 2 [] P rng.rand).1.getD i none with
          | some m => playingCourt i m
          | none => emptyCourt i) =
        (match scoredAt A (playingOf P 2 rng) 2 [] P rng.rand i with
          | some m => playingCourt i m
          | none => emptyCourt i) := by
      intro i _
      rw [scoreAssignment_getD_eq_scoredAt]
    rw [List.map_congr_left hmapc]
    rw [fillEmptyCourts_eq 0 _ 2 (by simp)]
    simp
  refine ⟨?_, ?_, ?_, ?_, ?_⟩
  · rw [hcourts2]
    simp
  · intro c hc
    rw [hcourts2] at hc
    obtain ⟨i, hi, hci⟩ := List.mem_map.mp hc
    have hi2 : i < 2 := List.mem_range.mp hi
    have hi01 : i = 0 ∨ i = 1 := by omega
    rcases hi01 with rfl | rfl
    · rw [hmc0] at hci
      rw [← hci]
      rfl
    · rw [hmc1] at hci
      rw [← hci]
      rfl
  · rw [hcourts2]
    rw [show List.range 2 = [0, 1] from rfl]
    simp only [List.map_cons, List.map_nil]
    rw [hmc0, hmc1]
    rfl
  · rw [hqueue]
    rfl
  · rw [generateOptimalTeams_waiting_eq h4]
    rw [List.map_eq_nil_iff]
    rw [List.filter_eq_nil_iff]
    intro p hp
    have hploc : p ∈ playingOf P 2 rng ∨ p ∈ remainingOf P 2 rng := by
      have hconcat : playingOf P 2 rng ++ remainingOf P 2 rng = sortedOf P rng := by
        unfold playingOf remainingOf
        rw [List.take_append_drop]
      exact List.mem_append.mp (by rw [hconcat]; exact hp)
    rcases hploc with hpl | hpr
    · have hc : ((playingOf P 2 rng).map (·.id)).contains p.id = true := by
        simpa using List.mem_map.mpr ⟨p, hpl, rfl⟩
      intro hpred
      rw [Bool.and_eq_true] at hpred
      obtain ⟨h1, h2⟩ := hpred
      rw [Bool.not_eq_true'] at h1
      rw [hc] at h1
      exact absurd h1 (by decide)
    · have hqc : ((queueOf P 2 [] rng).flatMap matchPlayerIds).contains p.id = true := by
        have hidin : p.id ∈ (remainingOf P 2 rng).map (·.id) :=
          List.mem_map.mpr ⟨p, hpr, rfl⟩
        have hidC : p.id ∈ (remainingOf P 2 rng ++
            (rng.sortSupp (playingOf P 2 rng)).take
              (2 * 4 - (remainingOf P 2 rng).length)).map (·.id) := by
          rw [List.map_append]
          exact List.mem_append_left _ hidin
        rw [hqOf]
        rcases hcover p.id hidC with h | h
        · simpa using List.mem_flatMap.mpr ⟨m1, List.mem_cons_self m1 [m2], h⟩
        · simpa using List.mem_flatMap.mpr
            ⟨m2, List.mem_cons_of_mem m1 (List.mem_cons_self m2 []), h⟩
      intro hpred
      rw [Bool.and_eq_true] at hpred
      obtain ⟨h1, h2⟩ := hpred
      rw [Bool.not_eq_true'] at h2
      rw [hqc] at h2
      exact absurd h2 (by decide)

/-- Witness for claim C2 at the concrete 12 fresh players and the identity
permutation randomness. -/
theorem claim_C2_witness :
    ((P12.map (·.id)).Nodup ∧ P12.length = 12 ∧ ∀ p ∈ P12, p.hasLeft = false) ∧
    ((generateOptimalTeams P12 2 [] rng0).courts.length = 2 ∧
    (∀ c ∈ (generateOptimalTeams P12 2 [] rng0).courts, c.status = "playing") ∧
    (courtIds (generateOptimalTeams P12 2 [] rng0).courts).length = 8 ∧
    (generateOptimalTeams P12 2 [] rng0).queue.length = 2 ∧
    (generateOptimalTeams P12 2 [] rng0).waiting = []) :=
  ⟨⟨by decide, by decide, by decide⟩,
    claim_C2 rng0_valid (by decide) (by decide) (by decide)⟩

end Pickleball
